import Mathlib

/-!
Fzone social feed: counter maintenance, like toggle, search and formatting.

A shallow embedding of the store-facing operations of `like.js`, `database.js`
and `comment.js`, of `searchData` (`search.js`), of `formatTimeAgo` and
`getInitials` (`utils.js`) and of the ad interleaving called by `feed.js`.

The hosted realtime store is modelled as a record of finite maps, one per
collection, keyed by the path components below the collection name
(`posts/{postId}`, `likes/{postId}/{userId}`, `comments/{postId}/{commentId}`,
`commentLikes/{postId}/{commentId}/{userId}`,
`notifications/{userId}/{notificationId}`).  Identifiers are store keys
(atomic path components).  The store primitives follow the documented
behaviour of the database SDK the sources call:

* `get(ref)` reads a snapshot, `snapshot.exists()` is "a value is stored there";
* `set(ref, value)` overwrites, and `set(ref, null)` / `remove(ref)` delete;
* `update(ref, fields)` merges the given fields into the record at `ref`,
  creating the record when nothing is stored there;
* `push(ref)` yields a new child key, which is an input of the operation here.

Counters are JavaScript numbers holding integers; they are modelled as `Int`.
`Date.now()` is an input (`now`).  Every operation is a function from the
store to an outcome and the store afterwards; all store calls are taken to
succeed, so the `catch` branches are not entered.

The pure helpers work on typed values: a snapshot item of the search carries
the fields that `searchData` reads, timestamps are integer milliseconds, and
strings are sequences of characters; `toLowerCase` and `toUpperCase` act on the
letters `a` to `z`.  `Array.prototype.sort` is a stable sort.
-/

namespace Fzone

/-! ## Data model -/

/-- Link preview attached to a post (`postData.link` in `create-post.js`). -/
structure Link where
  url : String
  title : String
  description : String
  image : String
  domain : String
deriving DecidableEq, Repr

/-- A record stored at `posts/{postId}`.  A field that is not stored is `none`. -/
structure Post where
  content : Option String := none
  authorId : Option String := none
  authorName : Option String := none
  authorEmail : Option String := none
  createdAt : Option Int := none
  likes : Option Int := none
  comments : Option Int := none
  shares : Option Int := none
  link : Option Link := none
deriving DecidableEq, Repr

/-- A record stored at `comments/{postId}/{commentId}`. -/
structure Comment where
  content : Option String := none
  authorId : Option String := none
  authorName : Option String := none
  authorEmail : Option String := none
  createdAt : Option Int := none
  likes : Option Int := none
  replies : Option Int := none
  editedAt : Option Int := none
  edited : Option Bool := none
deriving DecidableEq, Repr

/-- A like marker `{userId, timestamp}` stored at `likes/{postId}/{userId}` or
`commentLikes/{postId}/{commentId}/{userId}`. -/
structure LikeRecord where
  userId : String
  timestamp : Int
deriving DecidableEq, Repr

/-- The argument of `update(postRef, fields)`: for each field, `none` when the
field is not mentioned, `some none` when it is set to `null` (deleted), and
`some (some v)` when it is set to `v`. -/
structure PostPatch where
  content : Option (Option String) := none
  authorId : Option (Option String) := none
  authorName : Option (Option String) := none
  authorEmail : Option (Option String) := none
  createdAt : Option (Option Int) := none
  likes : Option (Option Int) := none
  comments : Option (Option Int) := none
  shares : Option (Option Int) := none
  link : Option (Option Link) := none
deriving DecidableEq, Repr

/-- The argument of `update(commentRef, fields)`, read as `PostPatch`. -/
structure CommentPatch where
  content : Option (Option String) := none
  authorId : Option (Option String) := none
  authorName : Option (Option String) := none
  authorEmail : Option (Option String) := none
  createdAt : Option (Option Int) := none
  likes : Option (Option Int) := none
  replies : Option (Option Int) := none
  editedAt : Option (Option Int) := none
  edited : Option (Option Bool) := none
deriving DecidableEq, Repr

/-- A record stored at `notifications/{userId}/{notificationId}`. -/
structure Notification where
  type : Option String := none
  senderId : Option String := none
  senderName : Option String := none
  postId : Option String := none
  commentId : Option String := none
  message : Option String := none
  createdAt : Option Int := none
  read : Option Bool := none
deriving DecidableEq, Repr

/-- The store: one finite map per collection. -/
structure Store where
  posts : AList (fun _ : String => Post) := ∅
  likes : AList (fun _ : String × String => LikeRecord) := ∅
  comments : AList (fun _ : String × String => Comment) := ∅
  commentLikes : AList (fun _ : String × String × String => LikeRecord) := ∅
  notifications : AList (fun _ : String × String => Notification) := ∅

/-! ## Store primitives -/

/-- The record with no field stored; nothing is stored at a path holding it. -/
def Post.empty : Post := {}

/-- The comment record with no field stored. -/
def Comment.empty : Comment := {}

/-- Merge the fields of an `update` call into a post record. -/
def Post.patch (p : Post) (u : PostPatch) : Post :=
  { content := u.content.getD p.content
    authorId := u.authorId.getD p.authorId
    authorName := u.authorName.getD p.authorName
    authorEmail := u.authorEmail.getD p.authorEmail
    createdAt := u.createdAt.getD p.createdAt
    likes := u.likes.getD p.likes
    comments := u.comments.getD p.comments
    shares := u.shares.getD p.shares
    link := u.link.getD p.link }

/-- Merge the fields of an `update` call into a comment record. -/
def Comment.patch (c : Comment) (u : CommentPatch) : Comment :=
  { content := u.content.getD c.content
    authorId := u.authorId.getD c.authorId
    authorName := u.authorName.getD c.authorName
    authorEmail := u.authorEmail.getD c.authorEmail
    createdAt := u.createdAt.getD c.createdAt
    likes := u.likes.getD c.likes
    replies := u.replies.getD c.replies
    editedAt := u.editedAt.getD c.editedAt
    edited := u.edited.getD c.edited }

/-- `get(ref(database, "posts/" + postId))`. -/
def Store.getPost (s : Store) (postId : String) : Option Post :=
  s.posts.lookup postId

/-- `get(ref(database, "likes/" + postId + "/" + userId))`. -/
def Store.getLike (s : Store) (postId userId : String) : Option LikeRecord :=
  s.likes.lookup (postId, userId)

/-- `get(ref(database, "comments/" + postId + "/" + commentId))`. -/
def Store.getComment (s : Store) (postId commentId : String) : Option Comment :=
  s.comments.lookup (postId, commentId)

/-- `get(ref(database, "commentLikes/" + postId + "/" + commentId + "/" + userId))`. -/
def Store.getCommentLike (s : Store) (postId commentId userId : String) :
    Option LikeRecord :=
  s.commentLikes.lookup (postId, commentId, userId)

/-- `set(postRef, post)`: overwrite the record at `posts/{postId}`. -/
def Store.setPost (s : Store) (postId : String) (post : Post) : Store :=
  { s with posts := s.posts.insert postId post }

/-- `remove(postRef)`. -/
def Store.removePost (s : Store) (postId : String) : Store :=
  { s with posts := s.posts.erase postId }

/-- `update(postRef, fields)`: merge `fields` into the record at
`posts/{postId}`, starting from the empty record when none is stored; a
record left with no field is not stored. -/
def Store.updatePost (s : Store) (postId : String) (u : PostPatch) : Store :=
  let merged := ((s.posts.lookup postId).getD Post.empty).patch u
  if merged = Post.empty then { s with posts := s.posts.erase postId }
  else { s with posts := s.posts.insert postId merged }

/-- `set(likeRef, value)` on `likes/{postId}/{userId}`; `null` deletes. -/
def Store.setLike (s : Store) (postId userId : String) :
    Option LikeRecord → Store
  | none => { s with likes := s.likes.erase (postId, userId) }
  | some r => { s with likes := s.likes.insert (postId, userId) r }

/-- `set(commentRef, comment)` on `comments/{postId}/{commentId}`. -/
def Store.setComment (s : Store) (postId commentId : String) (c : Comment) : Store :=
  { s with comments := s.comments.insert (postId, commentId) c }

/-- `remove(commentRef)`. -/
def Store.removeComment (s : Store) (postId commentId : String) : Store :=
  { s with comments := s.comments.erase (postId, commentId) }

/-- `update(commentRef, fields)`, as `Store.updatePost`. -/
def Store.updateComment (s : Store) (postId commentId : String) (u : CommentPatch) :
    Store :=
  let merged := ((s.comments.lookup (postId, commentId)).getD Comment.empty).patch u
  if merged = Comment.empty then
    { s with comments := s.comments.erase (postId, commentId) }
  else { s with comments := s.comments.insert (postId, commentId) merged }

/-- `set(likeRef, value)` on `commentLikes/{postId}/{commentId}/{userId}`. -/
def Store.setCommentLike (s : Store) (postId commentId userId : String) :
    Option LikeRecord → Store
  | none => { s with commentLikes := s.commentLikes.erase (postId, commentId, userId) }
  | some r =>
    { s with commentLikes := s.commentLikes.insert (postId, commentId, userId) r }

/-- Number of like records under `likes/{postId}`
(`Object.keys(likesData).length` in `getPostLikes`). -/
def Store.likeCount (s : Store) (postId : String) : Nat :=
  s.likes.keys.countP (fun k => k.1 == postId)

/-- Number of comment records under `comments/{postId}`
(`Object.keys(commentsData)` in `getPostComments`). -/
def Store.commentCount (s : Store) (postId : String) : Nat :=
  s.comments.keys.countP (fun k => k.1 == postId)

/-! ## like.js -/

/-- Outcome of `togglePostLike` / `toggleCommentLike`:
`{success: true, liked, newLikes}` or `{success: false, error}`. -/
inductive ToggleResult where
  | ok (liked : Bool) (newLikes : Int)
  | fail (error : String)
deriving DecidableEq, Repr

/-- `togglePostLike(postId, userId)` of `like.js`. -/
def togglePostLike (postId userId : String) (now : Int) (s : Store) :
    ToggleResult × Store :=
  let likeSnapshot := s.getLike postId userId
  let postSnapshot := s.getPost postId
  match postSnapshot with
  | none => (ToggleResult.fail "Post not found", s)
  | some post =>
    let currentLikes := post.likes.getD 0
    if likeSnapshot.isSome then
      let s1 := s.setLike postId userId none
      let s2 := s1.updatePost postId { likes := some (some (max 0 (currentLikes - 1))) }
      (ToggleResult.ok false (max 0 (currentLikes - 1)), s2)
    else
      let s1 := s.setLike postId userId (some { userId := userId, timestamp := now })
      let s2 := s1.updatePost postId { likes := some (some (currentLikes + 1)) }
      (ToggleResult.ok true (currentLikes + 1), s2)

/-- Outcome of `hasUserLiked`: `{success, liked}`. -/
structure LikedResult where
  success : Bool
  liked : Bool
deriving DecidableEq, Repr

/-- `hasUserLiked(postId, userId)` of `like.js`. -/
def hasUserLiked (postId userId : String) (s : Store) : LikedResult × Store :=
  let snapshot := s.getLike postId userId
  ({ success := true, liked := snapshot.isSome }, s)

/-- Outcome of `getPostLikes`: `{success, likes, count}`. -/
structure PostLikes where
  success : Bool
  likes : List LikeRecord
  count : Nat
deriving DecidableEq, Repr

/-- `getPostLikes(postId)` of `like.js`: the snapshot of `likes/{postId}` is
the set of like records whose path starts with `postId`; it exists when there
is at least one. -/
def getPostLikes (postId : String) (s : Store) : PostLikes × Store :=
  let likesData := s.likes.entries.filter (fun e => e.1.1 == postId)
  if likesData.isEmpty then
    ({ success := true, likes := [], count := 0 }, s)
  else
    let likes := likesData.map
      (fun e => ({ userId := e.1.2, timestamp := e.2.timestamp } : LikeRecord))
    ({ success := true, likes := likes, count := likes.length }, s)

/-- `toggleCommentLike(postId, commentId, userId)` of `like.js`. -/
def toggleCommentLike (postId commentId userId : String) (now : Int) (s : Store) :
    ToggleResult × Store :=
  let likeSnapshot := s.getCommentLike postId commentId userId
  let commentSnapshot := s.getComment postId commentId
  match commentSnapshot with
  | none => (ToggleResult.fail "Comment not found", s)
  | some comment =>
    let currentLikes := comment.likes.getD 0
    if likeSnapshot.isSome then
      let s1 := s.setCommentLike postId commentId userId none
      let s2 := s1.updateComment postId commentId
        { likes := some (some (max 0 (currentLikes - 1))) }
      (ToggleResult.ok false (max 0 (currentLikes - 1)), s2)
    else
      let s1 := s.setCommentLike postId commentId userId
        (some { userId := userId, timestamp := now })
      let s2 := s1.updateComment postId commentId
        { likes := some (some (currentLikes + 1)) }
      (ToggleResult.ok true (currentLikes + 1), s2)

/-- A sequence of `togglePostLike` calls on one post, one after the other;
each call is given by its user and its clock reading. -/
def togglePostLikes (postId : String) : List (String × Int) → Store → Store
  | [], s => s
  | (userId, now) :: rest, s =>
    togglePostLikes postId rest (togglePostLike postId userId now s).2

/-- One call of a like toggle. -/
inductive LikeCall where
  | post (postId userId : String) (now : Int)
  | comment (postId commentId userId : String) (now : Int)
deriving DecidableEq, Repr

/-- Run one like toggle. -/
def LikeCall.run : LikeCall → Store → ToggleResult × Store
  | LikeCall.post postId userId now, s => togglePostLike postId userId now s
  | LikeCall.comment postId commentId userId now, s =>
    toggleCommentLike postId commentId userId now s

/-- Run like toggles one after the other, collecting the outcomes. -/
def runLikeCalls : List LikeCall → Store → List ToggleResult × Store
  | [], s => ([], s)
  | c :: rest, s =>
    let r := c.run s
    let rs := runLikeCalls rest r.2
    (r.1 :: rs.1, rs.2)

/-! ## database.js -/

/-- Outcome `{success: true, ...payload}` or `{success: false, error}` of the
operations of `database.js` and `comment.js`; the constant `message` text of a
success is left out. -/
inductive Outcome (α : Type) where
  | ok (value : α)
  | fail (error : String)
deriving DecidableEq, Repr

/-- The argument of `createPost` and of `createComment`. -/
structure AuthoredText where
  content : String
  authorId : String
  authorName : String
  authorEmail : String
deriving DecidableEq, Repr

/-- `createPost(postData)` of `database.js`; `newKey` is the key of
`push(postsRef)`. -/
def createPost (postData : AuthoredText) (newKey : String) (now : Int) (s : Store) :
    Outcome String × Store :=
  let post : Post :=
    { content := some postData.content
      authorId := some postData.authorId
      authorName := some postData.authorName
      authorEmail := some postData.authorEmail
      createdAt := some now
      likes := some 0
      comments := some 0
      shares := some 0 }
  (Outcome.ok newKey, s.setPost newKey post)

/-- `updatePost(postId, updates)` of `database.js`. -/
def updatePost (postId : String) (updates : PostPatch) (s : Store) :
    Outcome Unit × Store :=
  (Outcome.ok (), s.updatePost postId updates)

/-- `toggleLike(postId, currentLikes)` of `database.js`; the payload is
`newLikes`. -/
def toggleLike (postId : String) (currentLikes : Int) (s : Store) :
    Outcome Int × Store :=
  let newLikes := currentLikes + 1
  (Outcome.ok newLikes, s.updatePost postId { likes := some (some newLikes) })

/-- `updateCommentCount(postId, count)` of `database.js`. -/
def updateCommentCount (postId : String) (count : Int) (s : Store) :
    Outcome Unit × Store :=
  (Outcome.ok (), s.updatePost postId { comments := some (some count) })

/-- `updateShareCount(postId, currentShares)` of `database.js`; the payload is
`newShares`. -/
def updateShareCount (postId : String) (currentShares : Int) (s : Store) :
    Outcome Int × Store :=
  let newShares := currentShares + 1
  (Outcome.ok newShares, s.updatePost postId { shares := some (some newShares) })

/-! ## comment.js -/

/-- `createComment(postId, commentData)` of `comment.js`; `newKey` is the key
of `push(commentsRef)`; the payload is `commentId`. -/
def createComment (postId : String) (commentData : AuthoredText) (newKey : String)
    (now : Int) (s : Store) : Outcome String × Store :=
  let comment : Comment :=
    { content := some commentData.content
      authorId := some commentData.authorId
      authorName := some commentData.authorName
      authorEmail := some commentData.authorEmail
      createdAt := some now
      likes := some 0
      replies := some 0 }
  let s1 := s.setComment postId newKey comment
  let postSnapshot := s1.getPost postId
  match postSnapshot with
  | some post =>
    let currentComments := post.comments.getD 0
    (Outcome.ok newKey, s1.updatePost postId { comments := some (some (currentComments + 1)) })
  | none => (Outcome.ok newKey, s1)

/-- `deleteComment(postId, commentId)` of `comment.js`. -/
def deleteComment (postId commentId : String) (s : Store) : Outcome Unit × Store :=
  let s1 := s.removeComment postId commentId
  let postSnapshot := s1.getPost postId
  match postSnapshot with
  | some post =>
    let currentComments := post.comments.getD 0
    (Outcome.ok (),
      s1.updatePost postId { comments := some (some (max 0 (currentComments - 1))) })
  | none => (Outcome.ok (), s1)

/-! ## Invariants of the data model -/

/-- Every stored post and every stored comment has `likes ≥ 0`
(an absent counter reads as 0). -/
def Store.NonNegLikes (s : Store) : Prop :=
  (∀ e ∈ s.posts.entries, 0 ≤ e.2.likes.getD 0) ∧
    (∀ e ∈ s.comments.entries, 0 ≤ e.2.likes.getD 0)

instance (s : Store) : Decidable s.NonNegLikes := by
  unfold Store.NonNegLikes
  infer_instance

/-- The three counters of a post are `≥ 0` (an absent counter reads as 0). -/
def Post.NonNegCounters (p : Post) : Prop :=
  0 ≤ p.likes.getD 0 ∧ 0 ≤ p.comments.getD 0 ∧ 0 ≤ p.shares.getD 0

instance (p : Post) : Decidable p.NonNegCounters := by
  unfold Post.NonNegCounters
  infer_instance

/-- Every stored post has `likes ≥ 0`, `comments ≥ 0` and `shares ≥ 0`. -/
def Store.NonNegCounters (s : Store) : Prop :=
  ∀ e ∈ s.posts.entries, e.2.NonNegCounters

instance (s : Store) : Decidable s.NonNegCounters := by
  unfold Store.NonNegCounters
  infer_instance

/-- Every counter value that an `update` argument writes is `≥ 0`. -/
def PostPatch.NonNegCounters (u : PostPatch) : Prop :=
  0 ≤ u.likes.join.getD 0 ∧ 0 ≤ u.comments.join.getD 0 ∧ 0 ≤ u.shares.join.getD 0

instance (u : PostPatch) : Decidable u.NonNegCounters := by
  unfold PostPatch.NonNegCounters
  infer_instance

/-! ## Example stores -/

/-- One post `p1` with three likes, none of them by `u1`. -/
def storeFresh : Store :=
  { posts := (∅ : AList _).insert "p1"
      { content := some "hello", authorId := some "a1", createdAt := some 100,
        likes := some 3, comments := some 0, shares := some 0 } }

/-- One post `p1` liked by `u1` only, with a matching counter of one. -/
def storeLiked : Store :=
  { posts := (∅ : AList _).insert "p1"
      { content := some "hello", authorId := some "a1", createdAt := some 100,
        likes := some 1, comments := some 0, shares := some 0 }
    likes := (∅ : AList _).insert ("p1", "u1") { userId := "u1", timestamp := 150 } }

/-- One post `p1` whose counter is zero although `u1` has a like record on it. -/
def storeStale : Store :=
  { posts := (∅ : AList _).insert "p1"
      { content := some "hello", authorId := some "a1", createdAt := some 100,
        likes := some 0, comments := some 0, shares := some 0 }
    likes := (∅ : AList _).insert ("p1", "u1") { userId := "u1", timestamp := 150 } }

/-- One post `p1` with one comment `c1` and a matching comments counter. -/
def storeOneComment : Store :=
  { posts := (∅ : AList _).insert "p1"
      { content := some "hello", authorId := some "a1", createdAt := some 100,
        likes := some 0, comments := some 1, shares := some 0 }
    comments := (∅ : AList _).insert ("p1", "c1")
      { content := some "nice", authorId := some "a2", createdAt := some 120,
        likes := some 0, replies := some 0 } }

/-! ## Feed assembly (ads.js) -/

/-- An entry of the rendered feed: an organic post, or a promotional item,
which carries the marker `isAd`. -/
inductive FeedItem (α β : Type) where
  | post (p : α)
  | ad (a : β)
deriving DecidableEq, Repr

/-- The marker `item.isAd` read by `displayPosts` of `feed.js`. -/
def FeedItem.isAd {α β : Type} : FeedItem α β → Bool
  | FeedItem.post _ => false
  | FeedItem.ad _ => true

/-- Modelled from the spec: the walk of `insertAdsIntoFeed` (`ads.js` is not
among the sources).  `seen` organic items have been walked so far; after an
organic item whose position is a multiple of `k` the next promotional item of
the pool is spliced in, tagged; when the pool is exhausted nothing is inserted. -/
def insertAdsFrom {α β : Type} (k : Nat) : Nat → List α → List β → List (FeedItem α β)
  | _, [], _ => []
  | seen, p :: rest, ads =>
    if (seen + 1) % k = 0 then
      match ads with
      | a :: pool => FeedItem.post p :: FeedItem.ad a :: insertAdsFrom k (seen + 1) rest pool
      | [] => FeedItem.post p :: insertAdsFrom k (seen + 1) rest []
    else FeedItem.post p :: insertAdsFrom k (seen + 1) rest ads

/-- Modelled from the spec: `insertAdsIntoFeed(posts, ads, k)` of `ads.js`,
which is not among the sources: walk the organic sequence and, after every
`k`-th organic item, splice in one promotional item drawn from the pool in
order, tagged as an ad; stop inserting when the pool is exhausted. -/
def insertAdsIntoFeed {α β : Type} (posts : List α) (ads : List β) (k : Nat) :
    List (FeedItem α β) :=
  insertAdsFrom k 0 posts ads

/-- The organic items of a feed, in feed order. -/
def organicItems {α β : Type} : List (FeedItem α β) → List α
  | [] => []
  | FeedItem.post p :: rest => p :: organicItems rest
  | FeedItem.ad _ :: rest => organicItems rest

/-- The promotional items of a feed, in feed order. -/
def adItems {α β : Type} : List (FeedItem α β) → List β
  | [] => []
  | FeedItem.post _ :: rest => adItems rest
  | FeedItem.ad a :: rest => a :: adItems rest

/-! ## Local search (search.js) -/

/-- `String.prototype.toLowerCase`, on the letters `A` to `Z`. -/
def toLowerCase (s : String) : String :=
  String.mk (s.data.map Char.toLower)

/-- Whether the characters `q` occur in `s` as one contiguous run. -/
def includesChars : List Char → List Char → Bool
  | [], q => q.isPrefixOf []
  | c :: cs, q => q.isPrefixOf (c :: cs) || includesChars cs q

/-- `s.includes(q)`. -/
def includes (s q : String) : Bool :=
  includesChars s.data q.data

/-- `Array.prototype.sort(compareFn)`: a stable sort that puts `a` before `b`
unless `compareFn(a, b) > 0`. -/
def sortWith {α : Type} (compareFn : α → α → Int) (l : List α) : List α :=
  l.insertionSort (fun a b => compareFn a b ≤ 0)

/-- An element of the snapshot `allPosts`: `{id: key, ...postsData[key]}`, with
the fields that `searchData` reads. -/
structure SearchPost where
  id : String
  content : String
  authorName : String
  createdAt : Int
  link : Option Link
deriving DecidableEq, Repr

/-- An element of the snapshot `allUsers`: `{id: key, ...usersData[key]}`, with
the fields that `searchData` reads. -/
structure SearchUser where
  id : String
  displayName : String
  email : String
  bio : Option String
deriving DecidableEq, Repr

/-- The value `{posts, users}` returned by `searchData`. -/
structure SearchResults where
  posts : List SearchPost
  users : List SearchUser
deriving DecidableEq, Repr

/-- The callback of `allPosts.filter` in `searchData`. -/
def postMatches (queryLower : String) (post : SearchPost) : Bool :=
  let contentMatch := includes (toLowerCase post.content) queryLower
  let authorMatch := includes (toLowerCase post.authorName) queryLower
  let linkMatch :=
    match post.link with
    | none => false
    | some link =>
      includes (toLowerCase link.title) queryLower ||
        includes (toLowerCase link.url) queryLower
  contentMatch || authorMatch || linkMatch

/-- The comparator of `results.posts.sort` in `searchData`:
`bExact - aExact || b.createdAt - a.createdAt`. -/
def relevanceCompare (queryLower : String) (a b : SearchPost) : Int :=
  let aExact : Int := if includes (toLowerCase a.content) queryLower then 1 else 0
  let bExact : Int := if includes (toLowerCase b.content) queryLower then 1 else 0
  if bExact - aExact ≠ 0 then bExact - aExact else b.createdAt - a.createdAt

/-- The callback of `allUsers.filter` in `searchData`; an empty `bio` is falsy. -/
def userMatches (queryLower : String) (user : SearchUser) : Bool :=
  let nameMatch := includes (toLowerCase user.displayName) queryLower
  let emailMatch := includes (toLowerCase user.email) queryLower
  let bioMatch :=
    match user.bio with
    | none => false
    | some bio => !(bio == "") && includes (toLowerCase bio) queryLower
  nameMatch || emailMatch || bioMatch

/-- `searchData(query, filter)` of `search.js`; the module variables `allPosts`
and `allUsers` are arguments. -/
def searchData (allPosts : List SearchPost) (allUsers : List SearchUser)
    (query filter : String) : SearchResults :=
  let queryLower := toLowerCase query
  let posts :=
    if filter = "all" ∨ filter = "posts" then
      sortWith (relevanceCompare queryLower) (allPosts.filter (postMatches queryLower))
    else []
  let users :=
    if filter = "all" ∨ filter = "users" then allUsers.filter (userMatches queryLower)
    else []
  { posts := posts, users := users }

/-- The three posts of the ranking example; the second is two hours older than
the first, the third is the most recent. -/
def catPosts : List SearchPost :=
  [ { id := "k1", content := "I have a cat", authorName := "Ann",
      createdAt := 10000000, link := none },
    { id := "k2", content := "Dogs are great", authorName := "Ben",
      createdAt := 2800000, link := none },
    { id := "k3", content := "cat person", authorName := "Dee",
      createdAt := 10060000, link := none } ]

/-- A post that mentions the query only in the description of its link. -/
def linkDescriptionPost : SearchPost :=
  { id := "k4", content := "weekend reading", authorName := "Ann", createdAt := 500,
    link := some { url := "https://example.org/a", title := "An article",
                   description := "Check out this link", image := "https://example.org/i.png",
                   domain := "example.org" } }

/-! ## Time and identity formatting (utils.js) -/

/-- `formatTimeAgo(timestamp)` of `utils.js`; `now` is the reading of
`new Date()`, both in milliseconds.  `Math.floor(x / d)` for a positive integer
`d` is the integer division `/`. -/
def formatTimeAgo (now timestamp : Int) : String :=
  let diffInSeconds := (now - timestamp) / 1000
  if diffInSeconds < 60 then "just now"
  else
    let diffInMinutes := diffInSeconds / 60
    if diffInMinutes < 60 then
      toString diffInMinutes ++ " minute" ++ (if diffInMinutes > 1 then "s" else "") ++ " ago"
    else
      let diffInHours := diffInMinutes / 60
      if diffInHours < 24 then
        toString diffInHours ++ " hour" ++ (if diffInHours > 1 then "s" else "") ++ " ago"
      else
        let diffInDays := diffInHours / 24
        if diffInDays < 7 then
          toString diffInDays ++ " day" ++ (if diffInDays > 1 then "s" else "") ++ " ago"
        else
          let diffInWeeks := diffInDays / 7
          if diffInWeeks < 4 then
            toString diffInWeeks ++ " week" ++ (if diffInWeeks > 1 then "s" else "") ++ " ago"
          else
            let diffInMonths := diffInDays / 30
            if diffInMonths < 12 then
              toString diffInMonths ++ " month" ++ (if diffInMonths > 1 then "s" else "") ++
                " ago"
            else
              let diffInYears := diffInDays / 365
              toString diffInYears ++ " year" ++ (if diffInYears > 1 then "s" else "") ++
                " ago"

/-- The text `N unit(s) ago`: the unit takes an `s` exactly when `N > 1`. -/
def agoText (n : Int) (unit : String) : String :=
  toString n ++ " " ++ unit ++ (if n > 1 then "s" else "") ++ " ago"

/-- The characters that `String.prototype.trim` strips: white space and line
terminators. -/
def isTrimChar (c : Char) : Bool :=
  c.toNat = 0x20 || c.toNat = 0x09 || c.toNat = 0x0A || c.toNat = 0x0B || c.toNat = 0x0C ||
    c.toNat = 0x0D || c.toNat = 0xA0 || c.toNat = 0x1680 ||
    (0x2000 ≤ c.toNat && c.toNat ≤ 0x200A) || c.toNat = 0x2028 || c.toNat = 0x2029 ||
    c.toNat = 0x202F || c.toNat = 0x205F || c.toNat = 0x3000 || c.toNat = 0xFEFF

/-- `name.trim()`, on the characters of the string. -/
def trimChars (l : List Char) : List Char :=
  ((l.dropWhile isTrimChar).reverse.dropWhile isTrimChar).reverse

/-- `s.split(' ')`, on the characters of the string: the pieces between
consecutive space characters; an empty string gives one empty piece. -/
def splitOnSpace : List Char → List (List Char)
  | [] => [[]]
  | c :: cs =>
    if c.toNat = 0x20 then [] :: splitOnSpace cs
    else
      match splitOnSpace cs with
      | [] => [[c]]
      | w :: ws => (c :: w) :: ws

/-- `String.prototype.toUpperCase`, on the letters `a` to `z`. -/
def toUpperCase (s : String) : String :=
  String.mk (s.data.map Char.toUpper)

/-- `w.charAt(0)`: the first character of `w` as a string, empty for an empty
`w`. -/
def charAt0 (w : List Char) : String :=
  String.mk (w.take 1)

/-- `getInitials(name)` of `utils.js`; `none` is an absent (`null` or
`undefined`) name. -/
def getInitials (name : Option String) : String :=
  match name with
  | none => "U"
  | some name =>
    if name = "" then "U"
    else
      let words := splitOnSpace (trimChars name.data)
      if words.length = 1 then toUpperCase (charAt0 (words.headD []))
      else toUpperCase (charAt0 (words.headD []) ++ charAt0 (words.getLastD []))

/-! ## database.js: reading the posts -/

/-- The comparator of `posts.sort` in `getAllPosts`:
`b.createdAt - a.createdAt`; when a `createdAt` is missing the difference is
`NaN`, which `sort` reads as 0. -/
def newestFirst (a b : String × Post) : Int :=
  match a.2.createdAt, b.2.createdAt with
  | some x, some y => y - x
  | _, _ => 0

/-- `getAllPosts(limitCount)` of `database.js`; a returned post
`{id: key, ...postsData[key]}` is the pair of its key and its record, and the
payload of the outcome is `posts`. -/
def getAllPosts (limitCount : Nat) (s : Store) : Outcome (List (String × Post)) × Store :=
  if s.posts.entries.isEmpty then (Outcome.ok [], s)
  else
    let posts := s.posts.entries.map (fun e => (e.1, e.2))
    let sorted := sortWith newestFirst posts
    let limitedPosts := sorted.take limitCount
    (Outcome.ok limitedPosts, s)

/-- Three posts created at times 100, 300 and 200. -/
def storeThreePosts : Store :=
  { posts := (((∅ : AList _).insert "p1"
        { content := some "one", authorId := some "a1", createdAt := some 100,
          likes := some 0, comments := some 0, shares := some 0 }).insert "p2"
        { content := some "two", authorId := some "a1", createdAt := some 300,
          likes := some 0, comments := some 0, shares := some 0 }).insert "p3"
        { content := some "three", authorId := some "a2", createdAt := some 200,
          likes := some 0, comments := some 0, shares := some 0 } }

/-- Three posts in key order `a`, `c`, `d`: `a` created at 100, `d` created at
300, and `c` a record without `createdAt`, as `toggleLike` of `database.js`
leaves one under an id that was not stored. -/
def storeUndated : Store :=
  { posts := (((∅ : AList _).insert "d"
        { content := some "new", authorId := some "a1", createdAt := some 300,
          likes := some 0, comments := some 0, shares := some 0 }).insert "c"
        { likes := some 1 }).insert "a"
        { content := some "old", authorId := some "a1", createdAt := some 100,
          likes := some 0, comments := some 0, shares := some 0 } }

/-- The argument of the example `createComment` calls. -/
def sampleCommentData : AuthoredText :=
  { content := "hi", authorId := "a3", authorName := "Cy", authorEmail := "cy@example.org" }

/-! ## comment.js: editing a comment -/

/-- `updateComment(postId, commentId, newContent)` of `comment.js`. -/
def updateComment (postId commentId newContent : String) (now : Int) (s : Store) :
    Outcome Unit × Store :=
  let snapshot := s.getComment postId commentId
  match snapshot with
  | none => (Outcome.fail "Comment not found", s)
  | some _ =>
    (Outcome.ok (),
      s.updateComment postId commentId
        { content := some (some newContent)
          editedAt := some (some now)
          edited := some (some true) })

/-! ## like.js with store calls that may fail -/

/-- The `success` field of the outcome of a toggle. -/
def ToggleResult.success : ToggleResult → Bool
  | ToggleResult.ok _ _ => true
  | ToggleResult.fail _ => false

/-- Outcome of `getPostLikesCount`: `{success, count}`. -/
structure LikesCount where
  success : Bool
  count : Int
deriving DecidableEq, Repr

/-- `getPostLikesCount(postId)` of `like.js`. -/
def getPostLikesCount (postId : String) (s : Store) : LikesCount × Store :=
  match s.getPost postId with
  | none => ({ success := true, count := 0 }, s)
  | some post => ({ success := true, count := post.likes.getD 0 }, s)

/-- `togglePostLike(postId, userId)` of `like.js` when store calls may fail:
`fails i` says that the `i`-th store call of the run (counted from 0: the two
reads, the write of the like record, the update of the post) rejects.  A
rejected call changes nothing and passes control to the `catch` branch. -/
def togglePostLikeWith (fails : Nat → Bool) (postId userId : String) (now : Int)
    (s : Store) : ToggleResult × Store :=
  if fails 0 then (ToggleResult.fail "Failed to like post", s)
  else
    let likeSnapshot := s.getLike postId userId
    if fails 1 then (ToggleResult.fail "Failed to like post", s)
    else
      match s.getPost postId with
      | none => (ToggleResult.fail "Post not found", s)
      | some post =>
        let currentLikes := post.likes.getD 0
        if likeSnapshot.isSome then
          if fails 2 then (ToggleResult.fail "Failed to like post", s)
          else
            let s1 := s.setLike postId userId none
            if fails 3 then (ToggleResult.fail "Failed to like post", s1)
            else
              (ToggleResult.ok false (max 0 (currentLikes - 1)),
                s1.updatePost postId { likes := some (some (max 0 (currentLikes - 1))) })
        else
          if fails 2 then (ToggleResult.fail "Failed to like post", s)
          else
            let s1 := s.setLike postId userId (some { userId := userId, timestamp := now })
            if fails 3 then (ToggleResult.fail "Failed to like post", s1)
            else
              (ToggleResult.ok true (currentLikes + 1),
                s1.updatePost postId { likes := some (some (currentLikes + 1)) })

/-- `toggleCommentLike(postId, commentId, userId)` of `like.js` when store calls
may fail, as `togglePostLikeWith`. -/
def toggleCommentLikeWith (fails : Nat → Bool) (postId commentId userId : String)
    (now : Int) (s : Store) : ToggleResult × Store :=
  if fails 0 then (ToggleResult.fail "Failed to like comment", s)
  else
    let likeSnapshot := s.getCommentLike postId commentId userId
    if fails 1 then (ToggleResult.fail "Failed to like comment", s)
    else
      match s.getComment postId commentId with
      | none => (ToggleResult.fail "Comment not found", s)
      | some comment =>
        let currentLikes := comment.likes.getD 0
        if likeSnapshot.isSome then
          if fails 2 then (ToggleResult.fail "Failed to like comment", s)
          else
            let s1 := s.setCommentLike postId commentId userId none
            if fails 3 then (ToggleResult.fail "Failed to like comment", s1)
            else
              (ToggleResult.ok false (max 0 (currentLikes - 1)),
                s1.updateComment postId commentId
                  { likes := some (some (max 0 (currentLikes - 1))) })
        else
          if fails 2 then (ToggleResult.fail "Failed to like comment", s)
          else
            let s1 := s.setCommentLike postId commentId userId
              (some { userId := userId, timestamp := now })
            if fails 3 then (ToggleResult.fail "Failed to like comment", s1)
            else
              (ToggleResult.ok true (currentLikes + 1),
                s1.updateComment postId commentId
                  { likes := some (some (currentLikes + 1)) })

/-- `hasUserLiked(postId, userId)` of `like.js` when its store call may fail. -/
def hasUserLikedWith (fails : Nat → Bool) (postId userId : String) (s : Store) :
    LikedResult × Store :=
  if fails 0 then ({ success := false, liked := false }, s)
  else hasUserLiked postId userId s

/-- `getPostLikes(postId)` of `like.js` when its store call may fail. -/
def getPostLikesWith (fails : Nat → Bool) (postId : String) (s : Store) :
    PostLikes × Store :=
  if fails 0 then ({ success := false, likes := [], count := 0 }, s)
  else getPostLikes postId s

/-- `getPostLikesCount(postId)` of `like.js` when its store call may fail. -/
def getPostLikesCountWith (fails : Nat → Bool) (postId : String) (s : Store) :
    LikesCount × Store :=
  if fails 0 then ({ success := false, count := 0 }, s)
  else getPostLikesCount postId s

/-! ## create-post.js -/

/-- The signed-in identity `currentUser` as `create-post.js` reads it. -/
structure AuthUser where
  uid : String
  displayName : Option String
  email : String
deriving DecidableEq, Repr

/-- What `handleSubmitPost` shows: `showError(message)` or
`showSuccess(message)`. -/
inductive SubmitOutcome where
  | error (message : String)
  | success (message : String)
deriving DecidableEq, Repr

/-- `currentUser.displayName || currentUser.email.split('@')[0]`: an absent or
empty display name gives the part of the email before the first `@`. -/
def authorNameOf (user : AuthUser) : String :=
  match user.displayName with
  | some name => if name = "" then String.mk (user.email.data.takeWhile (fun c => c.toNat ≠ 0x40))
                 else name
  | none => String.mk (user.email.data.takeWhile (fun c => c.toNat ≠ 0x40))

/-- `handleSubmitPost()` of `create-post.js`; `text` is `postContent.value`, the
module variables `currentUser` and `currentLinkMetadata` are arguments, and
`newKey` is the key of `push(postsRef)`. -/
def handleSubmitPost (text : String) (currentUser : Option AuthUser)
    (currentLinkMetadata : Option Link) (newKey : String) (now : Int) (s : Store) :
    SubmitOutcome × Store :=
  let content := String.mk (trimChars text.data)
  if content = "" then (SubmitOutcome.error "Please write something!", s)
  else
    match currentUser with
    | none => (SubmitOutcome.error "You need to login", s)
    | some user =>
      let postData : Post :=
        { content := some content
          authorId := some user.uid
          authorName := some (authorNameOf user)
          authorEmail := some user.email
          createdAt := some now
          likes := some 0
          comments := some 0
          shares := some 0
          link := currentLinkMetadata }
      (SubmitOutcome.success "Post created successfully!", s.setPost newKey postData)

/-- A signed-in user without a display name. -/
def sampleUser : AuthUser :=
  { uid := "a1", displayName := none, email := "ann@example.org" }

/-! ## notification.js -/

/-- The argument `data` of `createNotification`. -/
structure NotificationData where
  recipientId : String
  type : String
  senderId : String
  senderName : String
  postId : Option String
  commentId : Option String
  message : String
deriving DecidableEq, Repr

/-- `value || null` for an optional string: an absent or empty value is not
stored. -/
def orNull (value : Option String) : Option String :=
  match value with
  | some v => if v = "" then none else some v
  | none => none

/-- `get(ref(database, "notifications/" + userId + "/" + notificationId))`. -/
def Store.getNotification (s : Store) (userId notificationId : String) :
    Option Notification :=
  s.notifications.lookup (userId, notificationId)

/-- `set(newNotificationRef, notification)`. -/
def Store.setNotification (s : Store) (userId notificationId : String)
    (n : Notification) : Store :=
  { s with notifications := s.notifications.insert (userId, notificationId) n }

/-- One entry `notifications/{userId}/{key}/read: true` of a multi-path
`update(ref(database), updates)`: the field `read` of that record is set,
starting from the empty record when none is stored. -/
def Store.setNotificationRead (s : Store) (userId key : String) : Store :=
  { s with
    notifications := s.notifications.insert (userId, key)
      { ((s.notifications.lookup (userId, key)).getD {}) with read := some true } }

/-- `createNotification(data)` of `notification.js`; `newKey` is the key of
`push(notificationsRef)`; the payload is `notificationId`. -/
def createNotification (data : NotificationData) (newKey : String) (now : Int)
    (s : Store) : Outcome String × Store :=
  let notification : Notification :=
    { type := some data.type
      senderId := some data.senderId
      senderName := some data.senderName
      postId := orNull data.postId
      commentId := orNull data.commentId
      message := some data.message
      createdAt := some now
      read := some false }
  (Outcome.ok newKey, s.setNotification data.recipientId newKey notification)

/-- `!notification.read`: an absent `read` is falsy. -/
def Notification.isUnread (n : Notification) : Bool :=
  !(n.read.getD false)

/-- The click handler of `markAllBtn` in `notification.js`, for the signed-in
user `uid`. -/
def markAllAsRead (uid : String) (s : Store) : Unit × Store :=
  let notifications := s.notifications.entries.filter (fun e => e.1.1 == uid)
  if notifications.isEmpty then ((), s)
  else
    let updates := (notifications.filter (fun e => e.2.isUnread)).map (fun e => e.1.2)
    if updates.length > 0 then
      ((), updates.foldl (fun st key => st.setNotificationRead uid key) s)
    else ((), s)

/-- Outcome of `getUnreadCount`: `{success, count}`. -/
structure UnreadCount where
  success : Bool
  count : Nat
deriving DecidableEq, Repr

/-- `getUnreadCount(userId)` of `notification.js`. -/
def getUnreadCount (userId : String) (s : Store) : UnreadCount × Store :=
  let notifications := s.notifications.entries.filter (fun e => e.1.1 == userId)
  if notifications.isEmpty then ({ success := true, count := 0 }, s)
  else ({ success := true, count := notifications.countP (fun e => e.2.isUnread) }, s)

/-- Two notifications of `u1`, one read and one unread, and an unread one of
`u2`. -/
def storeNotified : Store :=
  { notifications := (((∅ : AList _).insert ("u1", "n1")
        { type := some "like", senderId := some "u2", senderName := some "Ben",
          message := some "liked your post", createdAt := some 10, read := some true }).insert
        ("u1", "n2")
        { type := some "comment", senderId := some "u3", senderName := some "Cy",
          message := some "commented", createdAt := some 20, read := some false }).insert
        ("u2", "n3")
        { type := some "follow", senderId := some "u1", senderName := some "Ann",
          message := some "follows you", createdAt := some 30, read := some false } }

/-! ## utils.js: formatNumber -/

/-- `(n / d).toFixed(1)` for non-negative integers `n` and `d > 0` within the
safe integer range: the quotient rounded to the nearest tenth, printed with one
digit after the point.  When the exact quotient lies halfway between two tenths
the digit printed depends on the side of the midpoint on which the binary
floating-point quotient falls; `above` says that it falls above. -/
def toFixed1 (above : Bool) (n d : Nat) : String :=
  let floorTenths := n * 10 / d
  let rest := n * 10 % d
  let tenths :=
    if 2 * rest < d then floorTenths
    else if 2 * rest = d then (if above then floorTenths + 1 else floorTenths)
    else floorTenths + 1
  toString (tenths / 10) ++ "." ++ toString (tenths % 10)

/-- `formatNumber(num)` of `utils.js` for a non-negative integer `num`;
`above num` is the side taken by the floating-point quotient at a midpoint, see
`toFixed1`. -/
def formatNumber (above : Nat → Bool) (num : Nat) : String :=
  if num < 1000 then toString num
  else if num < 1000000 then toFixed1 (above num) num 1000 ++ "K"
  else toFixed1 (above num) num 1000000 ++ "M"

/-! ## feed.js: the posts listener -/

/-- The value handed to the callback of `listenToPosts`. -/
structure PostsResult (α : Type) where
  success : Bool
  posts : List α

/-- The value `getActiveAds` resolves to. -/
structure AdsResult (β : Type) where
  success : Bool
  ads : List β

/-- What the listener puts on the page: `displayPosts(items)`, or
`showError(message)` followed by `displayEmptyState()`. -/
inductive FeedView (α β : Type) where
  | displayPosts (items : List (FeedItem α β))
  | error (message : String)
deriving DecidableEq, Repr

/-- One call `insertAdsIntoFeed(posts, ads, interval)`. -/
structure InsertCall (α β : Type) where
  posts : List α
  ads : List β
  interval : Nat
deriving DecidableEq, Repr

/-- The callback that `loadPosts` of `feed.js` passes to `listenToPosts`.
`insertAds` is `insertAdsIntoFeed` of `ads.js` and `adsResult` is what
`getActiveAds('card', 'middle')` resolved to.  The result is what is put on the
page together with the calls made to `insertAds`.  A post handed over as
received carries no `isAd` marker. -/
def postsListener {α β : Type} (insertAds : List α → List β → Nat → List (FeedItem α β))
    (result : PostsResult α) (adsResult : AdsResult β) :
    FeedView α β × List (InsertCall α β) :=
  if result.success then
    if adsResult.success && decide (adsResult.ads.length > 0) then
      (FeedView.displayPosts (insertAds result.posts adsResult.ads 5),
        [{ posts := result.posts, ads := adsResult.ads, interval := 5 }])
    else (FeedView.displayPosts (result.posts.map FeedItem.post), [])
  else (FeedView.error "Failed to load posts", [])

/-! ## Store lemmas -/

theorem Store.getPost_updatePost_self (s : Store) (postId : String) (u : PostPatch) :
    (s.updatePost postId u).getPost postId =
      if ((s.getPost postId).getD Post.empty).patch u = Post.empty then none
      else some (((s.getPost postId).getD Post.empty).patch u) := by
  unfold Store.updatePost Store.getPost
  by_cases h : ((s.posts.lookup postId).getD Post.empty).patch u = Post.empty
  · simp [h]
  · simp [h]

theorem Store.getPost_updatePost_ne (s : Store) {postId other : String} (u : PostPatch)
    (h : other ≠ postId) : (s.updatePost postId u).getPost other = s.getPost other := by
  unfold Store.updatePost Store.getPost
  by_cases hm : ((s.posts.lookup postId).getD Post.empty).patch u = Post.empty
  · simp [hm, AList.lookup_erase_ne h]
  · simp [hm, AList.lookup_insert_ne h]

theorem Store.likes_updatePost (s : Store) (postId : String) (u : PostPatch) :
    (s.updatePost postId u).likes = s.likes := by
  unfold Store.updatePost
  by_cases h : ((s.posts.lookup postId).getD Post.empty).patch u = Post.empty
  · simp [h]
  · simp [h]

theorem Store.comments_updatePost (s : Store) (postId : String) (u : PostPatch) :
    (s.updatePost postId u).comments = s.comments := by
  unfold Store.updatePost
  by_cases h : ((s.posts.lookup postId).getD Post.empty).patch u = Post.empty
  · simp [h]
  · simp [h]

theorem Store.commentLikes_updatePost (s : Store) (postId : String) (u : PostPatch) :
    (s.updatePost postId u).commentLikes = s.commentLikes := by
  unfold Store.updatePost
  by_cases h : ((s.posts.lookup postId).getD Post.empty).patch u = Post.empty
  · simp [h]
  · simp [h]

theorem Store.getLike_updatePost (s : Store) (postId : String) (u : PostPatch)
    (p q : String) : (s.updatePost postId u).getLike p q = s.getLike p q := by
  simp [Store.getLike, Store.likes_updatePost]

theorem Store.posts_setLike (s : Store) (postId userId : String) (v : Option LikeRecord) :
    (s.setLike postId userId v).posts = s.posts := by
  cases v <;> rfl

theorem Store.getPost_setLike (s : Store) (postId userId : String) (v : Option LikeRecord)
    (p : String) : (s.setLike postId userId v).getPost p = s.getPost p := by
  simp [Store.getPost, Store.posts_setLike]

theorem Store.getLike_setLike_self (s : Store) (postId userId : String)
    (v : Option LikeRecord) : (s.setLike postId userId v).getLike postId userId = v := by
  cases v <;> simp [Store.setLike, Store.getLike]

theorem Store.getLike_setLike_ne (s : Store) {postId userId p q : String}
    (v : Option LikeRecord) (h : (p, q) ≠ (postId, userId)) :
    (s.setLike postId userId v).getLike p q = s.getLike p q := by
  cases v
  · simp [Store.setLike, Store.getLike, AList.lookup_erase_ne h]
  · simp [Store.setLike, Store.getLike, AList.lookup_insert_ne h]

/-- Writing the `likes` field of a stored post keeps its other fields. -/
theorem Store.getPost_updatePost_likes (s : Store) (postId : String) (post : Post)
    (n : Int) (h : s.getPost postId = some post) :
    (s.updatePost postId { likes := some (some n) }).getPost postId =
      some { post with likes := some n } := by
  rw [Store.getPost_updatePost_self, h]
  have hne : (post.patch { likes := some (some n) }) ≠ Post.empty := by
    intro hc
    have := congrArg Post.likes hc
    simp [Post.patch, Post.empty] at this
  simp only [Option.getD_some, if_neg hne]
  rfl

theorem alist_forall_entries {κ ν : Type} [DecidableEq κ] (m : AList (fun _ : κ => ν))
    (P : ν → Prop) :
    (∀ e ∈ m.entries, P e.2) ↔ ∀ k v, m.lookup k = some v → P v := by
  constructor
  · intro h k v hl
    exact h ⟨k, v⟩ (AList.mem_lookup_iff.mp hl)
  · intro h e he
    exact h e.1 e.2 (AList.mem_lookup_iff.mpr he)

theorem Store.updatePost_forall (s : Store) (postId : String) (u : PostPatch)
    (P : Post → Prop) (hs : ∀ k v, s.getPost k = some v → P v)
    (hnew : P (((s.getPost postId).getD Post.empty).patch u)) :
    ∀ k v, (s.updatePost postId u).getPost k = some v → P v := by
  intro k v hk
  by_cases hkp : k = postId
  · subst hkp
    rw [Store.getPost_updatePost_self] at hk
    split at hk
    · exact absurd hk (by simp)
    · cases hk
      exact hnew
  · rw [Store.getPost_updatePost_ne s u hkp] at hk
    exact hs k v hk

theorem Store.getComment_updateComment_self (s : Store) (postId commentId : String)
    (u : CommentPatch) :
    (s.updateComment postId commentId u).getComment postId commentId =
      if ((s.getComment postId commentId).getD Comment.empty).patch u = Comment.empty
      then none
      else some (((s.getComment postId commentId).getD Comment.empty).patch u) := by
  unfold Store.updateComment Store.getComment
  by_cases h : ((s.comments.lookup (postId, commentId)).getD Comment.empty).patch u =
      Comment.empty
  · simp [h]
  · simp [h]

theorem Store.getComment_updateComment_ne (s : Store) {postId commentId p c : String}
    (u : CommentPatch) (h : (p, c) ≠ (postId, commentId)) :
    (s.updateComment postId commentId u).getComment p c = s.getComment p c := by
  unfold Store.updateComment Store.getComment
  by_cases hm : ((s.comments.lookup (postId, commentId)).getD Comment.empty).patch u =
      Comment.empty
  · simp [hm, AList.lookup_erase_ne h]
  · simp [hm, AList.lookup_insert_ne h]

theorem Store.posts_updateComment (s : Store) (postId commentId : String)
    (u : CommentPatch) : (s.updateComment postId commentId u).posts = s.posts := by
  unfold Store.updateComment
  by_cases h : ((s.comments.lookup (postId, commentId)).getD Comment.empty).patch u =
      Comment.empty
  · simp [h]
  · simp [h]

theorem Store.posts_setCommentLike (s : Store) (postId commentId userId : String)
    (v : Option LikeRecord) : (s.setCommentLike postId commentId userId v).posts = s.posts := by
  cases v <;> rfl

theorem Store.comments_setCommentLike (s : Store) (postId commentId userId : String)
    (v : Option LikeRecord) :
    (s.setCommentLike postId commentId userId v).comments = s.comments := by
  cases v <;> rfl

theorem Store.comments_setLike (s : Store) (postId userId : String)
    (v : Option LikeRecord) : (s.setLike postId userId v).comments = s.comments := by
  cases v <;> rfl

theorem Store.updateComment_forall (s : Store) (postId commentId : String)
    (u : CommentPatch) (P : Comment → Prop)
    (hs : ∀ k v, s.comments.lookup k = some v → P v)
    (hnew : P (((s.getComment postId commentId).getD Comment.empty).patch u)) :
    ∀ k v, (s.updateComment postId commentId u).comments.lookup k = some v → P v := by
  intro k v hk
  by_cases hkp : k = (postId, commentId)
  · subst hkp
    have h := Store.getComment_updateComment_self s postId commentId u
    unfold Store.getComment at h
    rw [h] at hk
    split at hk
    · exact absurd hk (by simp)
    · cases hk
      exact hnew
  · have h := Store.getComment_updateComment_ne (p := k.1) (c := k.2) s u hkp
    unfold Store.getComment at h
    rw [h] at hk
    exact hs k v hk

/-! ## Counting records -/

theorem countP_erase_add_one {α : Type} [DecidableEq α] (P : α → Bool) (l : List α)
    (a : α) (h : a ∈ l) (hp : P a = true) : (l.erase a).countP P + 1 = l.countP P := by
  rw [(List.perm_cons_erase h).countP_eq P, List.countP_cons_of_pos _ _ hp]

theorem countP_cons_erase_add_one {α : Type} [DecidableEq α] (P : α → Bool) (l : List α)
    (a : α) (h : a ∉ l) (hp : P a = true) :
    (a :: l.erase a).countP P = l.countP P + 1 := by
  rw [List.erase_of_not_mem h, List.countP_cons_of_pos _ _ hp]

theorem countP_eq_of_nodup {α : Type} [DecidableEq α] (l : List α) (a : α)
    (hl : l.Nodup) : l.countP (fun k => decide (k = a)) = if a ∈ l then 1 else 0 := by
  have h : l.count a = if a ∈ l then 1 else 0 := List.count_eq_of_nodup hl
  exact h

theorem Store.likeCount_updatePost (s : Store) (postId : String) (u : PostPatch)
    (p : String) : (s.updatePost postId u).likeCount p = s.likeCount p := by
  simp [Store.likeCount, Store.likes_updatePost]

theorem Store.likeCount_setLike_some (s : Store) (postId userId : String) (r : LikeRecord)
    (h : s.getLike postId userId = none) :
    (s.setLike postId userId (some r)).likeCount postId = s.likeCount postId + 1 := by
  have hk : (postId, userId) ∉ s.likes.keys := by
    rw [← AList.mem_keys, ← AList.lookup_eq_none]; exact h
  simp only [Store.likeCount, Store.setLike, AList.keys_insert]
  exact countP_cons_erase_add_one _ _ _ hk (by simp)

theorem Store.likeCount_setLike_none (s : Store) (postId userId : String)
    (h : (s.getLike postId userId).isSome = true) :
    (s.setLike postId userId none).likeCount postId + 1 = s.likeCount postId := by
  have hk : (postId, userId) ∈ s.likes.keys := by
    rw [← AList.mem_keys, ← AList.lookup_isSome]; exact h
  simp only [Store.likeCount, Store.setLike, AList.keys_erase]
  exact countP_erase_add_one _ _ _ hk (by simp)

/-- The `count` returned by `getPostLikes` is the number of like records. -/
theorem getPostLikes_count (s : Store) (postId : String) :
    (getPostLikes postId s).1.count = s.likeCount postId := by
  have hlen : (s.likes.entries.filter (fun e => e.1.1 == postId)).length =
      s.likeCount postId := by
    simp only [Store.likeCount, AList.keys, List.keys, List.countP_eq_length_filter]
    rw [List.filter_map, List.length_map]
    rfl
  unfold getPostLikes
  by_cases hempty : (s.likes.entries.filter (fun e => e.1.1 == postId)).isEmpty = true
  · simp only [hempty, if_true]
    rw [← hlen, List.isEmpty_iff.mp hempty]
    rfl
  · simp only [hempty, Bool.false_eq_true, if_false, List.length_map]
    exact hlen

/-! ## Like toggle: contract -/

theorem togglePostLike_unlike (s : Store) (postId userId : String) (now : Int)
    (post : Post) (hpost : s.getPost postId = some post)
    (hlike : (s.getLike postId userId).isSome = true) :
    togglePostLike postId userId now s =
      (ToggleResult.ok false (max 0 (post.likes.getD 0 - 1)),
        (s.setLike postId userId none).updatePost postId
          { likes := some (some (max 0 (post.likes.getD 0 - 1))) }) := by
  simp [togglePostLike, hpost, hlike]

theorem togglePostLike_like (s : Store) (postId userId : String) (now : Int)
    (post : Post) (hpost : s.getPost postId = some post)
    (hlike : s.getLike postId userId = none) :
    togglePostLike postId userId now s =
      (ToggleResult.ok true (post.likes.getD 0 + 1),
        (s.setLike postId userId (some { userId := userId, timestamp := now })).updatePost
          postId { likes := some (some (post.likes.getD 0 + 1)) }) := by
  simp [togglePostLike, hpost, hlike]

/-- Observations after an unlike. -/
theorem togglePostLike_unlike_obs (s : Store) (postId userId : String) (now : Int)
    (post : Post) (hpost : s.getPost postId = some post)
    (hlike : (s.getLike postId userId).isSome = true) :
    (togglePostLike postId userId now s).1 =
        ToggleResult.ok false (max 0 (post.likes.getD 0 - 1)) ∧
      (togglePostLike postId userId now s).2.getLike postId userId = none ∧
      (togglePostLike postId userId now s).2.getPost postId =
        some { post with likes := some (max 0 (post.likes.getD 0 - 1)) } := by
  rw [togglePostLike_unlike s postId userId now post hpost hlike]
  refine ⟨rfl, ?_, ?_⟩
  · simp only [Store.getLike_updatePost, Store.getLike_setLike_self]
  · exact Store.getPost_updatePost_likes _ _ _ _
      (by rw [Store.getPost_setLike]; exact hpost)

/-- Observations after a like. -/
theorem togglePostLike_like_obs (s : Store) (postId userId : String) (now : Int)
    (post : Post) (hpost : s.getPost postId = some post)
    (hlike : s.getLike postId userId = none) :
    (togglePostLike postId userId now s).1 =
        ToggleResult.ok true (post.likes.getD 0 + 1) ∧
      (togglePostLike postId userId now s).2.getLike postId userId =
        some { userId := userId, timestamp := now } ∧
      (togglePostLike postId userId now s).2.getPost postId =
        some { post with likes := some (post.likes.getD 0 + 1) } := by
  rw [togglePostLike_like s postId userId now post hpost hlike]
  refine ⟨rfl, ?_, ?_⟩
  · simp only [Store.getLike_updatePost, Store.getLike_setLike_self]
  · exact Store.getPost_updatePost_likes _ _ _ _
      (by rw [Store.getPost_setLike]; exact hpost)

theorem toggle_not_found_post (s : Store) (postId userId : String) (now : Int)
    (h : s.getPost postId = none) :
    togglePostLike postId userId now s = (ToggleResult.fail "Post not found", s) := by
  simp [togglePostLike, h]

/-- C1: when `posts/{postId}` exists with likes counter `c` (absent read as 0),
`togglePostLike` on an existing like record deletes it, stores
`likes = max(0, c-1)` and returns `{success, liked: false, newLikes: max(0, c-1)}`;
without a like record it writes one, stores `likes = c+1` and returns
`{success, liked: true, newLikes: c+1}`.  Either way the returned `newLikes` is
the counter stored afterwards and the returned `liked` is the existence of the
like record afterwards. -/
theorem togglePostLike_contract (s : Store) (postId userId : String) (now : Int)
    (post : Post) (hpost : s.getPost postId = some post) :
    ((s.getLike postId userId).isSome = true →
      (togglePostLike postId userId now s).1 =
          ToggleResult.ok false (max 0 (post.likes.getD 0 - 1)) ∧
        (togglePostLike postId userId now s).2.getLike postId userId = none ∧
        (togglePostLike postId userId now s).2.getPost postId =
          some { post with likes := some (max 0 (post.likes.getD 0 - 1)) }) ∧
    (s.getLike postId userId = none →
      (togglePostLike postId userId now s).1 =
          ToggleResult.ok true (post.likes.getD 0 + 1) ∧
        (togglePostLike postId userId now s).2.getLike postId userId =
          some { userId := userId, timestamp := now } ∧
        (togglePostLike postId userId now s).2.getPost postId =
          some { post with likes := some (post.likes.getD 0 + 1) }) ∧
    (∃ liked newLikes,
      (togglePostLike postId userId now s).1 = ToggleResult.ok liked newLikes ∧
        ((togglePostLike postId userId now s).2.getPost postId).bind Post.likes =
          some newLikes ∧
        ((togglePostLike postId userId now s).2.getLike postId userId).isSome = liked) := by
  have hun := togglePostLike_unlike_obs s postId userId now post hpost
  have hli := togglePostLike_like_obs s postId userId now post hpost
  refine ⟨hun, hli, ?_⟩
  cases hlike : s.getLike postId userId with
  | none =>
    obtain ⟨h1, h2, h3⟩ := hli hlike
    exact ⟨true, _, h1, by rw [h3]; rfl, by rw [h2]; rfl⟩
  | some r =>
    obtain ⟨h1, h2, h3⟩ := hun (by rw [hlike]; rfl)
    exact ⟨false, _, h1, by rw [h3]; rfl, by rw [h2]; rfl⟩

/-- Witness for C1: `u1` likes post `p1`, which holds three likes. -/
theorem togglePostLike_contract_witness :
    (togglePostLike "p1" "u1" 200 storeFresh).1 = ToggleResult.ok true 4 ∧
      (togglePostLike "p1" "u1" 200 storeFresh).2.getLike "p1" "u1" =
        some { userId := "u1", timestamp := 200 } :=
  have h := (togglePostLike_contract storeFresh "p1" "u1" 200
    { content := some "hello", authorId := some "a1", createdAt := some 100,
      likes := some 3, comments := some 0, shares := some 0 } (by decide)).2.1 (by decide)
  ⟨h.1, h.2.1⟩

/-- C2: when nothing is stored at `posts/{postId}`, `togglePostLike` returns
`{success: false, error: 'Post not found'}` and the store is unchanged; when
nothing is stored at `comments/{postId}/{commentId}`, `toggleCommentLike`
returns `{success: false, error: 'Comment not found'}` and the store is
unchanged. -/
theorem toggle_not_found (s : Store) (postId commentId userId : String) (now : Int) :
    (s.getPost postId = none →
      togglePostLike postId userId now s = (ToggleResult.fail "Post not found", s)) ∧
    (s.getComment postId commentId = none →
      toggleCommentLike postId commentId userId now s =
        (ToggleResult.fail "Comment not found", s)) := by
  constructor
  · intro h
    simp [togglePostLike, h]
  · intro h
    simp [toggleCommentLike, h]

/-- Witness for C2: post `p9` and comment `c9` are not stored. -/
theorem toggle_not_found_witness :
    togglePostLike "p9" "u1" 200 storeLiked = (ToggleResult.fail "Post not found", storeLiked) ∧
      toggleCommentLike "p9" "c9" "u1" 200 storeLiked =
        (ToggleResult.fail "Comment not found", storeLiked) :=
  ⟨(toggle_not_found storeLiked "p9" "c9" "u1" 200).1 (by decide),
    (toggle_not_found storeLiked "p9" "c9" "u1" 200).2 (by decide)⟩

/-- C3, as stated, fails: in `storeStale` the post exists, both calls succeed,
and two toggles by `u1` move the counter from 0 to 1. -/
theorem togglePostLike_twice_counterexample :
    storeStale.getPost "p1" ≠ none ∧
      (togglePostLike "p1" "u1" 200 storeStale).1 = ToggleResult.ok false 0 ∧
      (togglePostLike "p1" "u1" 300 (togglePostLike "p1" "u1" 200 storeStale).2).1 =
        ToggleResult.ok true 1 ∧
      (storeStale.getPost "p1").bind Post.likes = some 0 ∧
      ((togglePostLike "p1" "u1" 300
        (togglePostLike "p1" "u1" 200 storeStale).2).2.getPost "p1").bind Post.likes =
          some 1 := by
  decide

/-- C3 (amended): when `posts/{postId}` exists with likes counter `c` (absent
read as 0), two consecutive `togglePostLike` calls by one user both succeed and
leave the existence of the user's like record as it was; the counter stored
afterwards is `c` exactly when `c ≥ 1` (like record present before) or `c ≥ 0`
(like record absent before). -/
theorem togglePostLike_twice (s : Store) (postId userId : String) (now1 now2 : Int)
    (post : Post) (hpost : s.getPost postId = some post) :
    (∃ l1 n1, (togglePostLike postId userId now1 s).1 = ToggleResult.ok l1 n1) ∧
    (∃ l2 n2, (togglePostLike postId userId now2
        (togglePostLike postId userId now1 s).2).1 = ToggleResult.ok l2 n2) ∧
    ((togglePostLike postId userId now2
        (togglePostLike postId userId now1 s).2).2.getLike postId userId).isSome =
      (s.getLike postId userId).isSome ∧
    (((togglePostLike postId userId now2
        (togglePostLike postId userId now1 s).2).2.getPost postId).bind Post.likes =
        some (post.likes.getD 0) ↔
      if (s.getLike postId userId).isSome then 1 ≤ post.likes.getD 0
      else 0 ≤ post.likes.getD 0) := by
  cases hlike : s.getLike postId userId with
  | none =>
    obtain ⟨h1, h2, h3⟩ := togglePostLike_like_obs s postId userId now1 post hpost hlike
    obtain ⟨k1, k2, k3⟩ := togglePostLike_unlike_obs _ postId userId now2 _ h3
      (by rw [h2]; rfl)
    refine ⟨⟨_, _, h1⟩, ⟨_, _, k1⟩, by rw [k2], ?_⟩
    rw [k3]
    simp only [Option.some_bind, Option.getD_some, Option.some.injEq, Option.isSome_none,
      Bool.false_eq_true, if_false]
    omega
  | some r =>
    obtain ⟨h1, h2, h3⟩ := togglePostLike_unlike_obs s postId userId now1 post hpost
      (by rw [hlike]; rfl)
    obtain ⟨k1, k2, k3⟩ := togglePostLike_like_obs _ postId userId now2 _ h3 h2
    refine ⟨⟨_, _, h1⟩, ⟨_, _, k1⟩, by rw [k2]; rfl, ?_⟩
    rw [k3]
    simp only [Option.some_bind, Option.getD_some, Option.some.injEq, Option.isSome_some,
      if_true]
    omega

/-- Witness for C3 (amended): in `storeLiked` the counter is back at one. -/
theorem togglePostLike_twice_witness :
    ((togglePostLike "p1" "u1" 300
        (togglePostLike "p1" "u1" 200 storeLiked).2).2.getPost "p1").bind Post.likes =
      some 1 :=
  (togglePostLike_twice storeLiked "p1" "u1" 200 300
    { content := some "hello", authorId := some "a1", createdAt := some 100,
      likes := some 1, comments := some 0, shares := some 0 } (by decide)).2.2.2.2
    (by decide)

/-- One toggle keeps "stored counter = number of like records". -/
theorem togglePostLike_keeps_count (s : Store) (postId userId : String) (now : Int)
    (post : Post) (hpost : s.getPost postId = some post)
    (hinv : post.likes = some (s.likeCount postId : Int)) :
    ∃ post', (togglePostLike postId userId now s).2.getPost postId = some post' ∧
      post'.likes = some ((togglePostLike postId userId now s).2.likeCount postId : Int) := by
  have hc : post.likes.getD 0 = (s.likeCount postId : Int) := by rw [hinv]; rfl
  cases hlike : s.getLike postId userId with
  | none =>
    obtain ⟨_, _, h3⟩ := togglePostLike_like_obs s postId userId now post hpost hlike
    refine ⟨_, h3, ?_⟩
    rw [togglePostLike_like s postId userId now post hpost hlike]
    simp only [Store.likeCount_updatePost]
    rw [Store.likeCount_setLike_some s postId userId _ hlike, hc]
    push_cast
    rfl
  | some r =>
    have hsome : (s.getLike postId userId).isSome = true := by rw [hlike]; rfl
    obtain ⟨_, _, h3⟩ := togglePostLike_unlike_obs s postId userId now post hpost hsome
    refine ⟨_, h3, ?_⟩
    rw [togglePostLike_unlike s postId userId now post hpost hsome]
    simp only [Store.likeCount_updatePost]
    have hcnt := Store.likeCount_setLike_none s postId userId hsome
    rw [hc]
    simp only [Option.some.injEq]
    omega

/-- C4: if `posts/{postId}.likes` equals the number of like records under
`likes/{postId}` (the `count` of `getPostLikes`), then after any finite sequence
of sequential `togglePostLike` calls on that post, by any users, the post is
still stored and its `likes` still equals that number. -/
theorem togglePostLikes_counter_eq_count (s : Store) (postId : String)
    (calls : List (String × Int)) (post : Post) (hpost : s.getPost postId = some post)
    (hinv : post.likes = some ((getPostLikes postId s).1.count : Int)) :
    ∃ post', (togglePostLikes postId calls s).getPost postId = some post' ∧
      post'.likes =
        some ((getPostLikes postId (togglePostLikes postId calls s)).1.count : Int) := by
  induction calls generalizing s post with
  | nil => exact ⟨post, hpost, hinv⟩
  | cons call rest ih =>
    obtain ⟨userId, now⟩ := call
    rw [getPostLikes_count] at hinv
    obtain ⟨post1, h1, h2⟩ := togglePostLike_keeps_count s postId userId now post hpost hinv
    rw [← getPostLikes_count] at h2
    exact ih _ post1 h1 h2

/-- Witness for C4: three toggles on `p1` of `storeLiked`, by two users. -/
theorem togglePostLikes_counter_eq_count_witness :
    ∃ post', (togglePostLikes "p1" [("u2", 200), ("u1", 210), ("u2", 220)]
        storeLiked).getPost "p1" = some post' ∧
      post'.likes = some ((getPostLikes "p1" (togglePostLikes "p1"
        [("u2", 200), ("u1", 210), ("u2", 220)] storeLiked)).1.count : Int) :=
  togglePostLikes_counter_eq_count storeLiked "p1" [("u2", 200), ("u1", 210), ("u2", 220)]
    { content := some "hello", authorId := some "a1", createdAt := some 100,
      likes := some 1, comments := some 0, shares := some 0 } (by decide) (by decide)

/-! ## Like toggle: the counter stays non-negative -/

theorem togglePostLike_shape (s : Store) (postId userId : String) (now : Int) :
    (s.getPost postId = none ∧
      togglePostLike postId userId now s = (ToggleResult.fail "Post not found", s)) ∨
    ∃ post liked n v, s.getPost postId = some post ∧
      (0 ≤ post.likes.getD 0 → 0 ≤ n) ∧
      togglePostLike postId userId now s =
        (ToggleResult.ok liked n,
          (s.setLike postId userId v).updatePost postId { likes := some (some n) }) := by
  cases hpost : s.getPost postId with
  | none => exact Or.inl ⟨rfl, by simp [togglePostLike, hpost]⟩
  | some post =>
    right
    cases hlike : s.getLike postId userId with
    | none =>
      exact ⟨post, true, _, _, rfl, fun h => by omega,
        togglePostLike_like s postId userId now post hpost hlike⟩
    | some r =>
      exact ⟨post, false, _, _, rfl, fun _ => le_max_left _ _,
        togglePostLike_unlike s postId userId now post hpost (by rw [hlike]; rfl)⟩

theorem toggleCommentLike_unlike (s : Store) (postId commentId userId : String)
    (now : Int) (comment : Comment) (hc : s.getComment postId commentId = some comment)
    (hlike : (s.getCommentLike postId commentId userId).isSome = true) :
    toggleCommentLike postId commentId userId now s =
      (ToggleResult.ok false (max 0 (comment.likes.getD 0 - 1)),
        (s.setCommentLike postId commentId userId none).updateComment postId commentId
          { likes := some (some (max 0 (comment.likes.getD 0 - 1))) }) := by
  simp [toggleCommentLike, hc, hlike]

theorem toggleCommentLike_like (s : Store) (postId commentId userId : String)
    (now : Int) (comment : Comment) (hc : s.getComment postId commentId = some comment)
    (hlike : s.getCommentLike postId commentId userId = none) :
    toggleCommentLike postId commentId userId now s =
      (ToggleResult.ok true (comment.likes.getD 0 + 1),
        (s.setCommentLike postId commentId userId
          (some { userId := userId, timestamp := now })).updateComment postId commentId
          { likes := some (some (comment.likes.getD 0 + 1)) }) := by
  simp [toggleCommentLike, hc, hlike]

theorem toggleCommentLike_shape (s : Store) (postId commentId userId : String)
    (now : Int) :
    (s.getComment postId commentId = none ∧
      toggleCommentLike postId commentId userId now s =
        (ToggleResult.fail "Comment not found", s)) ∨
    ∃ comment liked n v, s.getComment postId commentId = some comment ∧
      (0 ≤ comment.likes.getD 0 → 0 ≤ n) ∧
      toggleCommentLike postId commentId userId now s =
        (ToggleResult.ok liked n,
          (s.setCommentLike postId commentId userId v).updateComment postId commentId
            { likes := some (some n) }) := by
  cases hc : s.getComment postId commentId with
  | none => exact Or.inl ⟨rfl, by simp [toggleCommentLike, hc]⟩
  | some comment =>
    right
    cases hlike : s.getCommentLike postId commentId userId with
    | none =>
      exact ⟨comment, true, _, _, rfl, fun h => by omega,
        toggleCommentLike_like s postId commentId userId now comment hc hlike⟩
    | some r =>
      exact ⟨comment, false, _, _, rfl, fun _ => le_max_left _ _,
        toggleCommentLike_unlike s postId commentId userId now comment hc
          (by rw [hlike]; rfl)⟩

theorem LikeCall.run_nonNeg (c : LikeCall) (s : Store) (h : s.NonNegLikes) :
    (c.run s).2.NonNegLikes ∧
      ∀ liked n, (c.run s).1 = ToggleResult.ok liked n → 0 ≤ n := by
  obtain ⟨hp, hc⟩ := h
  have hp1 := (alist_forall_entries s.posts (fun p => 0 ≤ p.likes.getD 0)).mp hp
  have hc1 := (alist_forall_entries s.comments (fun c => 0 ≤ c.likes.getD 0)).mp hc
  cases c with
  | post postId userId now =>
    rcases togglePostLike_shape s postId userId now with ⟨_, heq⟩ | ⟨post, liked, n, v, hpost, hn, heq⟩
    · simp only [LikeCall.run, heq]
      exact ⟨⟨hp, hc⟩, fun _ _ hr => by cases hr⟩
    · have hn0 : 0 ≤ n := hn (hp1 postId post hpost)
      simp only [LikeCall.run, heq]
      refine ⟨⟨?_, ?_⟩, fun _ _ hr => by cases hr; exact hn0⟩
      · refine (alist_forall_entries _ (fun p : Post => 0 ≤ p.likes.getD 0)).mpr ?_
        refine Store.updatePost_forall _ postId _ (fun p => 0 ≤ p.likes.getD 0) ?_ ?_
        · intro k w hk
          rw [Store.getPost_setLike] at hk
          exact hp1 k w hk
        · simpa [Post.patch] using hn0
      · rw [Store.comments_updatePost, Store.comments_setLike]
        exact hc
  | comment postId commentId userId now =>
    rcases toggleCommentLike_shape s postId commentId userId now with
      ⟨_, heq⟩ | ⟨comment, liked, n, v, hcm, hn, heq⟩
    · simp only [LikeCall.run, heq]
      exact ⟨⟨hp, hc⟩, fun _ _ hr => by cases hr⟩
    · have hn0 : 0 ≤ n := hn (hc1 (postId, commentId) comment hcm)
      simp only [LikeCall.run, heq]
      refine ⟨⟨?_, ?_⟩, fun _ _ hr => by cases hr; exact hn0⟩
      · rw [Store.posts_updateComment, Store.posts_setCommentLike]
        exact hp
      · refine (alist_forall_entries _ (fun c : Comment => 0 ≤ c.likes.getD 0)).mpr ?_
        refine Store.updateComment_forall _ postId commentId _
          (fun c => 0 ≤ c.likes.getD 0) ?_ ?_
        · intro k w hk
          rw [Store.comments_setCommentLike] at hk
          exact hc1 k w hk
        · simpa [Comment.patch] using hn0

/-- C5: starting from a store whose likes counters are non-negative, after any
finite sequence of `togglePostLike` and `toggleCommentLike` calls the likes
counter of every stored post and comment is `≥ 0`, and so is every `newLikes`
returned by a successful call. -/
theorem likes_never_negative (s : Store) (calls : List LikeCall) (h : s.NonNegLikes) :
    (runLikeCalls calls s).2.NonNegLikes ∧
      ∀ liked n, ToggleResult.ok liked n ∈ (runLikeCalls calls s).1 → 0 ≤ n := by
  induction calls generalizing s with
  | nil => exact ⟨h, fun _ _ hm => by cases hm⟩
  | cons c rest ih =>
    obtain ⟨h1, h2⟩ := LikeCall.run_nonNeg c s h
    obtain ⟨k1, k2⟩ := ih (c.run s).2 h1
    refine ⟨k1, fun liked n hm => ?_⟩
    simp only [runLikeCalls, List.mem_cons] at hm
    rcases hm with hm | hm
    · exact h2 liked n hm.symm
    · exact k2 liked n hm

/-- Witness for C5: a post toggle, a toggle on a post that is not stored, and a
comment toggle, from `storeLiked`. -/
theorem likes_never_negative_witness :
    (runLikeCalls [LikeCall.post "p1" "u1" 200, LikeCall.post "p9" "u1" 210,
        LikeCall.comment "p1" "c1" "u2" 220] storeLiked).2.NonNegLikes ∧
      ∀ liked n, ToggleResult.ok liked n ∈
        (runLikeCalls [LikeCall.post "p1" "u1" 200, LikeCall.post "p9" "u1" 210,
          LikeCall.comment "p1" "c1" "u2" 220] storeLiked).1 → 0 ≤ n :=
  likes_never_negative storeLiked _ (by decide)

/-! ## Like toggle: one user, one like -/

theorem togglePostLikes_parity (postId userId : String) (c : Int) (hc0 : 0 ≤ c)
    (nows : List Int) :
    ∀ (s : Store) (post : Post) (k : Nat), k < 2 → s.getPost postId = some post →
      post.likes.getD 0 = c + (k : Int) →
      (s.getLike postId userId).isSome = decide (k = 1) →
      ∃ post', (togglePostLikes postId (nows.map (fun t => (userId, t))) s).getPost postId =
          some post' ∧
        post'.likes.getD 0 = c + (((nows.length + k) % 2 : Nat) : Int) ∧
        ((togglePostLikes postId (nows.map (fun t => (userId, t))) s).getLike
          postId userId).isSome = decide ((nows.length + k) % 2 = 1) := by
  induction nows with
  | nil =>
    intro s post k hk hpost hcnt hlike
    have hk2 : (0 + k) % 2 = k := by omega
    refine ⟨post, hpost, ?_, ?_⟩
    · simp only [List.length_nil, hk2]; exact hcnt
    · simp only [List.length_nil, hk2]; exact hlike
  | cons now rest ih =>
    intro s post k hk hpost hcnt hlike
    have hlen : (rest.length + 1 + k) % 2 = (rest.length + (k + 1) % 2) % 2 := by omega
    simp only [List.map_cons, List.length_cons, togglePostLikes, hlen]
    by_cases hk1 : k = 1
    · have hsome : (s.getLike postId userId).isSome = true := by simpa [hk1] using hlike
      obtain ⟨_, h2, h3⟩ := togglePostLike_unlike_obs s postId userId now post hpost hsome
      refine ih _ _ ((k + 1) % 2) (by omega) h3 ?_ ?_
      · simp only [Option.getD_some, hcnt, hk1]
        have : (1 + 1) % 2 = 0 := rfl
        simp only [this]
        push_cast
        omega
      · rw [h2]
        simp [hk1]
    · have hk0 : k = 0 := by omega
      have hnone : s.getLike postId userId = none := by
        simpa [hk0] using hlike
      obtain ⟨_, h2, h3⟩ := togglePostLike_like_obs s postId userId now post hpost hnone
      refine ih _ _ ((k + 1) % 2) (by omega) h3 ?_ ?_
      · simp only [Option.getD_some, hcnt, hk0]
        have : (0 + 1) % 2 = 1 := rfl
        simp only [this]
        push_cast
        omega
      · rw [h2]
        simp [hk0]

/-- C6: starting from a state where `u` has no like record on the stored post
`p` and the post's likes counter is `c ≥ 0`, after `n` consecutive
`togglePostLike(p, u)` calls the counter is `c + (n mod 2)`, so it is never
raised by more than 1, and the number of like records at `likes/{p}/{u}` is
`n mod 2`, so at most one. -/
theorem single_user_likes_once (s : Store) (postId userId : String) (nows : List Int)
    (post : Post) (c : Int) (hpost : s.getPost postId = some post)
    (hcnt : post.likes.getD 0 = c) (hc0 : 0 ≤ c) (hlike : s.getLike postId userId = none) :
    (∃ post', (togglePostLikes postId (nows.map (fun t => (userId, t))) s).getPost postId =
        some post' ∧
      post'.likes.getD 0 = c + ((nows.length % 2 : Nat) : Int) ∧
      post'.likes.getD 0 ≤ c + 1) ∧
    (togglePostLikes postId (nows.map (fun t => (userId, t))) s).likes.keys.countP
      (fun k => decide (k = (postId, userId))) = nows.length % 2 ∧
    (togglePostLikes postId (nows.map (fun t => (userId, t))) s).likes.keys.countP
      (fun k => decide (k = (postId, userId))) ≤ 1 := by
  obtain ⟨post', h1, h2, h3⟩ := togglePostLikes_parity postId userId c hc0 nows s post 0
    (by omega) hpost (by simpa using hcnt) (by rw [hlike]; rfl)
  simp only [Nat.add_zero] at h2 h3
  generalize togglePostLikes postId (nows.map (fun t => (userId, t))) s = s' at h1 h3 ⊢
  have hcount : s'.likes.keys.countP (fun k => decide (k = (postId, userId))) =
      nows.length % 2 := by
    rw [countP_eq_of_nodup _ _ (AList.keys_nodup s'.likes)]
    by_cases hodd : nows.length % 2 = 1
    · have hm : (postId, userId) ∈ s'.likes.keys :=
        AList.mem_keys.mp (AList.lookup_isSome.mp (by simpa [hodd, Store.getLike] using h3))
      rw [hodd, if_pos hm]
    · have h0 : nows.length % 2 = 0 := by omega
      have hm : (postId, userId) ∉ s'.likes.keys := fun hm =>
        (AList.lookup_eq_none.mp (by simpa [h0, Store.getLike] using h3))
          (AList.mem_keys.mpr hm)
      rw [h0, if_neg hm]
  refine ⟨⟨post', h1, h2, ?_⟩, hcount, ?_⟩
  · rw [h2]; omega
  · rw [hcount]; omega

/-- Witness for C6: three toggles by `u1` on `p1` of `storeFresh`. -/
theorem single_user_likes_once_witness :
    ∃ post', (togglePostLikes "p1" ([200, 210, 220].map (fun t => ("u1", t)))
        storeFresh).getPost "p1" = some post' ∧
      post'.likes.getD 0 = 3 + ((([200, 210, 220] : List Int).length % 2 : Nat) : Int) ∧
      post'.likes.getD 0 ≤ 3 + 1 :=
  (single_user_likes_once storeFresh "p1" "u1" [200, 210, 220]
    { content := some "hello", authorId := some "a1", createdAt := some 100,
      likes := some 3, comments := some 0, shares := some 0 } 3 (by decide) (by decide)
    (by decide) (by decide)).1

/-! ## hasUserLiked -/

/-- C7: `hasUserLiked(postId, userId)` returns `{success: true, liked: b}` where
`b` is true exactly when a record is stored at `likes/{postId}/{userId}`, it
leaves the store unchanged, and right after a successful
`togglePostLike(postId, userId)` it returns the `liked` value the toggle
returned. -/
theorem hasUserLiked_pure_read (s : Store) (postId userId : String) (now : Int) :
    (hasUserLiked postId userId s).1.success = true ∧
    ((hasUserLiked postId userId s).1.liked = true ↔ (postId, userId) ∈ s.likes) ∧
    (hasUserLiked postId userId s).2 = s ∧
    ∀ liked n, (togglePostLike postId userId now s).1 = ToggleResult.ok liked n →
      (hasUserLiked postId userId (togglePostLike postId userId now s).2).1 =
        { success := true, liked := liked } := by
  have hmem : (hasUserLiked postId userId s).1.liked = true ↔ (postId, userId) ∈ s.likes := by
    show (s.likes.lookup (postId, userId)).isSome = true ↔ _
    exact AList.lookup_isSome
  refine ⟨rfl, hmem, rfl, ?_⟩
  intro liked n hr
  cases hpost : s.getPost postId with
  | none =>
    rw [(toggle_not_found_post s postId userId now hpost)] at hr
    cases hr
  | some post =>
    cases hlike : s.getLike postId userId with
    | none =>
      obtain ⟨h1, h2, _⟩ := togglePostLike_like_obs s postId userId now post hpost hlike
      rw [h1] at hr
      cases hr
      simp [hasUserLiked, h2]
    | some r =>
      obtain ⟨h1, h2, _⟩ := togglePostLike_unlike_obs s postId userId now post hpost
        (by rw [hlike]; rfl)
      rw [h1] at hr
      cases hr
      simp [hasUserLiked, h2]

/-- Witness for C7: `u1` likes `p1` of `storeFresh`, then asks. -/
theorem hasUserLiked_pure_read_witness :
    (hasUserLiked "p1" "u1" (togglePostLike "p1" "u1" 200 storeFresh).2).1 =
      { success := true, liked := true } :=
  (hasUserLiked_pure_read storeFresh "p1" "u1" 200).2.2.2 true 4 (by decide)

/-! ## database.js: counter writes -/

/-- C8, as stated, fails: nothing is stored at `posts/p9` of `storeLiked`, yet
each of the three operations returns success and leaves a record there that
holds only the counter it wrote. -/
theorem counter_ops_absent_post_counterexample :
    storeLiked.getPost "p9" = none ∧
      (toggleLike "p9" 0 storeLiked).1 = Outcome.ok 1 ∧
      (toggleLike "p9" 0 storeLiked).2.getPost "p9" = some { likes := some 1 } ∧
      (updateShareCount "p9" 0 storeLiked).1 = Outcome.ok 1 ∧
      (updateShareCount "p9" 0 storeLiked).2.getPost "p9" = some { shares := some 1 } ∧
      (updateCommentCount "p9" 5 storeLiked).1 = Outcome.ok () ∧
      (updateCommentCount "p9" 5 storeLiked).2.getPost "p9" = some { comments := some 5 } := by
  decide

/-- C8 (amended): when nothing is stored at `posts/{postId}`, `toggleLike`,
`updateShareCount` and `updateCommentCount` write without reading: each returns
success and stores at `posts/{postId}` a record holding only the counter it
wrote (`likes = currentLikes + 1`, `shares = currentShares + 1`,
`comments = count`); every other post, every like record, comment and comment
like is unchanged. -/
theorem counter_ops_absent_post (s : Store) (postId : String) (n : Int)
    (h : s.getPost postId = none) :
    ((toggleLike postId n s).1 = Outcome.ok (n + 1) ∧
      (toggleLike postId n s).2.getPost postId = some { likes := some (n + 1) }) ∧
    ((updateShareCount postId n s).1 = Outcome.ok (n + 1) ∧
      (updateShareCount postId n s).2.getPost postId = some { shares := some (n + 1) }) ∧
    ((updateCommentCount postId n s).1 = Outcome.ok () ∧
      (updateCommentCount postId n s).2.getPost postId = some { comments := some n }) ∧
    ∀ s', s' = (toggleLike postId n s).2 ∨ s' = (updateShareCount postId n s).2 ∨
        s' = (updateCommentCount postId n s).2 →
      (∀ other, other ≠ postId → s'.getPost other = s.getPost other) ∧
        s'.likes = s.likes ∧ s'.comments = s.comments ∧
        s'.commentLikes = s.commentLikes := by
  refine ⟨⟨rfl, ?_⟩, ⟨rfl, ?_⟩, ⟨rfl, ?_⟩, ?_⟩
  · simp only [toggleLike]
    rw [Store.getPost_updatePost_self, h]
    simp [Post.patch, Post.empty]
  · simp only [updateShareCount]
    rw [Store.getPost_updatePost_self, h]
    simp [Post.patch, Post.empty]
  · simp only [updateCommentCount]
    rw [Store.getPost_updatePost_self, h]
    simp [Post.patch, Post.empty]
  · intro s' hs'
    rcases hs' with rfl | rfl | rfl
    · exact ⟨fun other ho => Store.getPost_updatePost_ne s _ ho,
        Store.likes_updatePost _ _ _, Store.comments_updatePost _ _ _,
        Store.commentLikes_updatePost _ _ _⟩
    · exact ⟨fun other ho => Store.getPost_updatePost_ne s _ ho,
        Store.likes_updatePost _ _ _, Store.comments_updatePost _ _ _,
        Store.commentLikes_updatePost _ _ _⟩
    · exact ⟨fun other ho => Store.getPost_updatePost_ne s _ ho,
        Store.likes_updatePost _ _ _, Store.comments_updatePost _ _ _,
        Store.commentLikes_updatePost _ _ _⟩

/-- Witness for C8 (amended): `toggleLike` on `p9`, absent from `storeLiked`. -/
theorem counter_ops_absent_post_witness :
    (toggleLike "p9" 4 storeLiked).1 = Outcome.ok (4 + 1) ∧
      (toggleLike "p9" 4 storeLiked).2.getPost "p9" = some { likes := some (4 + 1) } :=
  (counter_ops_absent_post storeLiked "p9" 4 (by decide)).1

/-! ## Post counters stay non-negative -/

theorem Post.empty_nonNeg : Post.empty.NonNegCounters := by decide

theorem Post.patch_nonNeg (p : Post) (u : PostPatch) (hp : p.NonNegCounters)
    (hu : u.NonNegCounters) : (p.patch u).NonNegCounters := by
  obtain ⟨h1, h2, h3⟩ := hp
  obtain ⟨k1, k2, k3⟩ := hu
  refine ⟨?_, ?_, ?_⟩
  · show 0 ≤ (u.likes.getD p.likes).getD 0
    cases hl : u.likes with
    | none => exact h1
    | some v => rw [hl] at k1; exact k1
  · show 0 ≤ (u.comments.getD p.comments).getD 0
    cases hl : u.comments with
    | none => exact h2
    | some v => rw [hl] at k2; exact k2
  · show 0 ≤ (u.shares.getD p.shares).getD 0
    cases hl : u.shares with
    | none => exact h3
    | some v => rw [hl] at k3; exact k3

theorem Store.nonNegCounters_updatePost (s : Store) (postId : String) (u : PostPatch)
    (hs : s.NonNegCounters) (hu : u.NonNegCounters) :
    (s.updatePost postId u).NonNegCounters := by
  have hs1 := (alist_forall_entries s.posts Post.NonNegCounters).mp hs
  refine (alist_forall_entries _ Post.NonNegCounters).mpr ?_
  refine Store.updatePost_forall s postId u Post.NonNegCounters hs1 ?_
  refine Post.patch_nonNeg _ u ?_ hu
  cases hp : s.getPost postId with
  | none => exact Post.empty_nonNeg
  | some post => exact hs1 postId post hp

theorem Store.nonNegCounters_setPost (s : Store) (postId : String) (p : Post)
    (hs : s.NonNegCounters) (hp : p.NonNegCounters) : (s.setPost postId p).NonNegCounters := by
  have hs1 := (alist_forall_entries s.posts Post.NonNegCounters).mp hs
  refine (alist_forall_entries _ Post.NonNegCounters).mpr ?_
  intro k v hk
  by_cases hkp : k = postId
  · subst hkp
    simp only [Store.setPost, AList.lookup_insert, Option.some.injEq] at hk
    rw [← hk]; exact hp
  · simp only [Store.setPost, AList.lookup_insert_ne hkp] at hk
    exact hs1 k v hk

theorem createComment_nonNeg (s : Store) (postId : String) (commentData : AuthoredText)
    (newKey : String) (now : Int) (h : s.NonNegCounters) :
    (createComment postId commentData newKey now s).2.NonNegCounters := by
  have hs1 := (alist_forall_entries s.posts Post.NonNegCounters).mp h
  unfold createComment
  simp only [Store.getPost, Store.setComment]
  cases hp : s.posts.lookup postId with
  | none => exact h
  | some post =>
    have hc : 0 ≤ post.comments.getD 0 := (hs1 postId post hp).2.1
    refine Store.nonNegCounters_updatePost _ postId _ h ⟨le_refl _, ?_, le_refl _⟩
    show 0 ≤ post.comments.getD 0 + 1
    omega

theorem deleteComment_nonNeg (s : Store) (postId commentId : String)
    (h : s.NonNegCounters) : (deleteComment postId commentId s).2.NonNegCounters := by
  unfold deleteComment
  simp only [Store.getPost, Store.removeComment]
  cases hp : s.posts.lookup postId with
  | none => exact h
  | some post =>
    exact Store.nonNegCounters_updatePost _ postId _ h ⟨le_refl _, le_max_left _ _, le_refl _⟩

/-- C9, as stated, fails: every counter of `storeFresh` is `≥ 0`, and a
negative `count`, a negative `currentLikes` or a negative counter in `updates`
is written to the post as it is. -/
theorem write_ops_nonneg_counterexample :
    storeFresh.NonNegCounters ∧
      ¬ (updateCommentCount "p1" (-3) storeFresh).2.NonNegCounters ∧
      ¬ (toggleLike "p1" (-5) storeFresh).2.NonNegCounters ∧
      ¬ (updatePost "p1" { shares := some (some (-1)) } storeFresh).2.NonNegCounters := by
  decide

/-- C9 (amended): from a store in which every post has `likes`, `comments` and
`shares` `≥ 0`, `createPost`, `createComment` and `deleteComment` with any
arguments, and `updatePost`, `toggleLike`, `updateCommentCount` and
`updateShareCount` whenever the counter values they write (any counter in
`updates`, `currentLikes + 1`, `count`, `currentShares + 1`) are `≥ 0`, leave
every post with `likes`, `comments` and `shares` `≥ 0`. -/
theorem write_ops_keep_counters_nonneg (s : Store) (h : s.NonNegCounters) :
    (∀ postData newKey now, (createPost postData newKey now s).2.NonNegCounters) ∧
    (∀ postId updates, PostPatch.NonNegCounters updates →
      (updatePost postId updates s).2.NonNegCounters) ∧
    (∀ postId currentLikes, 0 ≤ currentLikes + 1 →
      (toggleLike postId currentLikes s).2.NonNegCounters) ∧
    (∀ postId count, 0 ≤ count → (updateCommentCount postId count s).2.NonNegCounters) ∧
    (∀ postId currentShares, 0 ≤ currentShares + 1 →
      (updateShareCount postId currentShares s).2.NonNegCounters) ∧
    (∀ postId commentData newKey now,
      (createComment postId commentData newKey now s).2.NonNegCounters) ∧
    (∀ postId commentId, (deleteComment postId commentId s).2.NonNegCounters) := by
  refine ⟨?_, ?_, ?_, ?_, ?_, ?_, ?_⟩
  · intro postData newKey now
    exact Store.nonNegCounters_setPost s newKey _ h ⟨le_refl _, le_refl _, le_refl _⟩
  · intro postId updates hu
    exact Store.nonNegCounters_updatePost s postId updates h hu
  · intro postId currentLikes hn
    exact Store.nonNegCounters_updatePost s postId _ h ⟨hn, le_refl _, le_refl _⟩
  · intro postId count hn
    exact Store.nonNegCounters_updatePost s postId _ h ⟨le_refl _, hn, le_refl _⟩
  · intro postId currentShares hn
    exact Store.nonNegCounters_updatePost s postId _ h ⟨le_refl _, le_refl _, hn⟩
  · intro postId commentData newKey now
    exact createComment_nonNeg s postId commentData newKey now h
  · intro postId commentId
    exact deleteComment_nonNeg s postId commentId h

/-- Witness for C9 (amended): `updateCommentCount` with a count of two. -/
theorem write_ops_keep_counters_nonneg_witness :
    (updateCommentCount "p1" 2 storeFresh).2.NonNegCounters :=
  (write_ops_keep_counters_nonneg storeFresh (by decide)).2.2.2.1 "p1" 2 (by decide)

/-! ## comment.js: the comments counter -/

theorem Store.commentCount_updatePost (s : Store) (postId : String) (u : PostPatch)
    (p : String) : (s.updatePost postId u).commentCount p = s.commentCount p := by
  simp [Store.commentCount, Store.comments_updatePost]

theorem Store.commentCount_setComment (s : Store) (postId commentId : String)
    (c : Comment) (h : s.getComment postId commentId = none) :
    (s.setComment postId commentId c).commentCount postId = s.commentCount postId + 1 := by
  have hk : (postId, commentId) ∉ s.comments.keys := by
    rw [← AList.mem_keys, ← AList.lookup_eq_none]; exact h
  simp only [Store.commentCount, Store.setComment, AList.keys_insert]
  exact countP_cons_erase_add_one _ _ _ hk (by simp)

theorem Store.commentCount_removeComment (s : Store) (postId commentId : String)
    (h : (s.getComment postId commentId).isSome = true) :
    (s.removeComment postId commentId).commentCount postId + 1 = s.commentCount postId := by
  have hk : (postId, commentId) ∈ s.comments.keys := by
    rw [← AList.mem_keys, ← AList.lookup_isSome]; exact h
  simp only [Store.commentCount, Store.removeComment, AList.keys_erase]
  exact countP_erase_add_one _ _ _ hk (by simp)

/-- Writing the `comments` field of a stored post keeps its other fields. -/
theorem Store.getPost_updatePost_comments (s : Store) (postId : String) (post : Post)
    (n : Int) (h : s.getPost postId = some post) :
    (s.updatePost postId { comments := some (some n) }).getPost postId =
      some { post with comments := some n } := by
  rw [Store.getPost_updatePost_self, h]
  have hne : (post.patch { comments := some (some n) }) ≠ Post.empty := by
    intro hc
    have := congrArg Post.comments hc
    simp [Post.patch, Post.empty] at this
  simp only [Option.getD_some, if_neg hne]
  rfl

/-- With a new key, `createComment` keeps "comments counter = number of comment
records" on a stored post. -/
theorem createComment_keeps_count (s : Store) (postId : String)
    (commentData : AuthoredText) (newKey : String) (now : Int) (post : Post)
    (hpost : s.getPost postId = some post) (hnew : s.getComment postId newKey = none)
    (hinv : post.comments = some (s.commentCount postId : Int)) :
    ∃ post', (createComment postId commentData newKey now s).2.getPost postId = some post' ∧
      post'.comments =
        some ((createComment postId commentData newKey now s).2.commentCount postId : Int) := by
  have hp1 : (s.setComment postId newKey
      { content := some commentData.content, authorId := some commentData.authorId,
        authorName := some commentData.authorName,
        authorEmail := some commentData.authorEmail, createdAt := some now,
        likes := some 0, replies := some 0 }).getPost postId = some post := hpost
  unfold createComment
  simp only [hp1]
  refine ⟨_, Store.getPost_updatePost_comments _ postId post _ hp1, ?_⟩
  rw [Store.commentCount_updatePost, Store.commentCount_setComment s postId newKey _ hnew,
    hinv]
  simp

/-- On a stored comment, `deleteComment` keeps "comments counter = number of
comment records" on a stored post. -/
theorem deleteComment_keeps_count (s : Store) (postId commentId : String) (post : Post)
    (hpost : s.getPost postId = some post)
    (hc : (s.getComment postId commentId).isSome = true)
    (hinv : post.comments = some (s.commentCount postId : Int)) :
    ∃ post', (deleteComment postId commentId s).2.getPost postId = some post' ∧
      post'.comments = some ((deleteComment postId commentId s).2.commentCount postId : Int) := by
  have hp1 : (s.removeComment postId commentId).getPost postId = some post := hpost
  have hcnt := Store.commentCount_removeComment s postId commentId hc
  unfold deleteComment
  simp only [hp1]
  refine ⟨_, Store.getPost_updatePost_comments _ postId post _ hp1, ?_⟩
  rw [Store.commentCount_updatePost, hinv]
  simp only [Option.getD_some, Option.some.injEq]
  omega

/-- C10 at its failing input: `storeOneComment` has one comment on `p1` and a
comments counter of one; `deleteComment` with an id that names no comment
returns success, removes nothing and lowers the counter to zero. -/
theorem deleteComment_absent_comment_drift :
    storeOneComment.getComment "p1" "zz" = none ∧
      (storeOneComment.getPost "p1").bind Post.comments = some 1 ∧
      storeOneComment.commentCount "p1" = 1 ∧
      (deleteComment "p1" "zz" storeOneComment).1 = Outcome.ok () ∧
      ((deleteComment "p1" "zz" storeOneComment).2.getPost "p1").bind Post.comments =
        some 0 ∧
      (deleteComment "p1" "zz" storeOneComment).2.commentCount "p1" = 1 := by
  decide

/-! ## Feed assembly -/

theorem organicItems_insertAdsFrom {α β : Type} (k : Nat) (posts : List α) :
    ∀ (seen : Nat) (ads : List β), organicItems (insertAdsFrom k seen posts ads) = posts := by
  induction posts with
  | nil => intro seen ads; rfl
  | cons p rest ih =>
    intro seen ads
    unfold insertAdsFrom
    by_cases h : (seen + 1) % k = 0
    · cases ads with
      | nil => simp [h, organicItems, ih]
      | cons a pool => simp [h, organicItems, ih]
    · simp [h, organicItems, ih]

theorem length_insertAdsFrom {α β : Type} (k : Nat) (posts : List α) :
    ∀ (seen : Nat) (ads : List β),
      (insertAdsFrom k seen posts ads).length =
        posts.length + min ((seen + posts.length) / k - seen / k) ads.length := by
  induction posts with
  | nil => intro seen ads; simp [insertAdsFrom]
  | cons p rest ih =>
    intro seen ads
    have hmono : (seen + 1) / k ≤ (seen + 1 + rest.length) / k :=
      Nat.div_le_div_right (Nat.le_add_right _ _)
    have hsucc := Nat.succ_div seen k
    have hassoc : seen + (rest.length + 1) = seen + 1 + rest.length := by omega
    unfold insertAdsFrom
    simp only [List.length_cons, hassoc]
    by_cases h : (seen + 1) % k = 0
    · have hdvd : k ∣ seen + 1 := Nat.dvd_of_mod_eq_zero h
      rw [if_pos hdvd] at hsucc
      cases ads with
      | nil => simp [h, ih]
      | cons a pool =>
        simp only [h, if_true, List.length_cons, ih]
        omega
    · have hdvd : ¬ k ∣ seen + 1 := fun hd => h (Nat.mod_eq_zero_of_dvd hd)
      rw [if_neg hdvd] at hsucc
      simp only [h, if_false, List.length_cons, ih]
      omega

theorem adItems_insertAdsFrom {α β : Type} (k : Nat) (posts : List α) :
    ∀ (seen : Nat) (ads : List β),
      adItems (insertAdsFrom k seen posts ads) =
        ads.take ((seen + posts.length) / k - seen / k) := by
  induction posts with
  | nil => intro seen ads; simp [insertAdsFrom, adItems]
  | cons p rest ih =>
    intro seen ads
    have hmono : (seen + 1) / k ≤ (seen + 1 + rest.length) / k :=
      Nat.div_le_div_right (Nat.le_add_right _ _)
    have hsucc := Nat.succ_div seen k
    have hassoc : seen + (rest.length + 1) = seen + 1 + rest.length := by omega
    unfold insertAdsFrom
    simp only [List.length_cons, hassoc]
    by_cases h : (seen + 1) % k = 0
    · have hdvd : k ∣ seen + 1 := Nat.dvd_of_mod_eq_zero h
      rw [if_pos hdvd] at hsucc
      cases ads with
      | nil => simp [h, adItems, ih]
      | cons a pool =>
        simp only [h, if_true, adItems, ih]
        have hd : (seen + 1 + rest.length) / k - seen / k =
            ((seen + 1 + rest.length) / k - (seen + 1) / k) + 1 := by omega
        rw [hd, List.take_succ_cons]
    · have hdvd : ¬ k ∣ seen + 1 := fun hd => h (Nat.mod_eq_zero_of_dvd hd)
      rw [if_neg hdvd] at hsucc
      simp only [h, if_false, adItems, ih]
      have hd : (seen + 1 + rest.length) / k - seen / k =
          (seen + 1 + rest.length) / k - (seen + 1) / k := by omega
      rw [hd]

theorem countP_isAd {α β : Type} (l : List (FeedItem α β)) :
    l.countP FeedItem.isAd = (adItems l).length := by
  induction l with
  | nil => rfl
  | cons x rest ih =>
    cases x with
    | post p => simp [FeedItem.isAd, adItems, ih]
    | ad a => simp [FeedItem.isAd, adItems, ih]

theorem insertAdsFrom_add_period {α β : Type} (k : Nat) (posts : List α) :
    ∀ (seen : Nat) (ads : List β),
      insertAdsFrom k (seen + k) posts ads = insertAdsFrom k seen posts ads := by
  induction posts with
  | nil => intro seen ads; rfl
  | cons p rest ih =>
    intro seen ads
    have hmod : (seen + k + 1) % k = (seen + 1) % k := by
      rw [Nat.add_right_comm, Nat.add_mod_right]
    have hstep : seen + k + 1 = seen + 1 + k := by omega
    unfold insertAdsFrom
    rw [hmod, hstep]
    simp only [ih]

theorem insertAdsFrom_no_ads {α β : Type} (k : Nat) (posts : List α) :
    ∀ (seen : Nat),
      insertAdsFrom k seen posts ([] : List β) = posts.map FeedItem.post := by
  induction posts with
  | nil => intro seen; rfl
  | cons p rest ih =>
    intro seen
    unfold insertAdsFrom
    by_cases h : (seen + 1) % k = 0
    · simp [h, ih]
    · simp [h, ih]

theorem insertAdsFrom_short {α β : Type} (k : Nat) (posts : List α) :
    ∀ (seen : Nat) (ads : List β), seen + posts.length < k →
      insertAdsFrom k seen posts ads = posts.map FeedItem.post := by
  induction posts with
  | nil => intro seen ads _; rfl
  | cons p rest ih =>
    intro seen ads hlt
    simp only [List.length_cons] at hlt
    have h : (seen + 1) % k ≠ 0 := by
      rw [Nat.mod_eq_of_lt (by omega)]; omega
    unfold insertAdsFrom
    simp only [h, if_false, List.map_cons]
    rw [ih (seen + 1) ads (by omega)]

theorem insertAdsFrom_cons_ad {α β : Type} (k seen : Nat) (p : α) (rest : List α)
    (a : β) (pool : List β) :
    insertAdsFrom k seen (p :: rest) (a :: pool) =
      if (seen + 1) % k = 0 then
        FeedItem.post p :: FeedItem.ad a :: insertAdsFrom k (seen + 1) rest pool
      else FeedItem.post p :: insertAdsFrom k (seen + 1) rest (a :: pool) := by
  rw [insertAdsFrom]

theorem insertAdsFrom_chunk {α β : Type} (k : Nat) (posts : List α) :
    ∀ (seen : Nat) (a : β) (pool : List β), seen < k → k - seen ≤ posts.length →
      insertAdsFrom k seen posts (a :: pool) =
        (posts.take (k - seen)).map FeedItem.post ++
          FeedItem.ad a :: insertAdsFrom k 0 (posts.drop (k - seen)) pool := by
  induction posts with
  | nil => intro seen a pool hlt hle; simp at hle; omega
  | cons p rest ih =>
    intro seen a pool hlt hle
    simp only [List.length_cons] at hle
    rw [insertAdsFrom_cons_ad]
    by_cases h : seen + 1 = k
    · have hm : (seen + 1) % k = 0 := by rw [h]; exact Nat.mod_self k
      have hk1 : k - seen = 1 := by omega
      have hper := insertAdsFrom_add_period k rest 0 pool
      rw [Nat.zero_add] at hper
      rw [if_pos hm, hk1, h, hper]
      rfl
    · have hm : (seen + 1) % k ≠ 0 := by
        rw [Nat.mod_eq_of_lt (by omega)]; omega
      have hk1 : k - seen = (k - (seen + 1)) + 1 := by omega
      rw [if_neg hm, ih (seen + 1) a pool (by omega) (by omega), hk1]
      rfl

/-- C11: `insertAdsIntoFeed(posts, ads, k)` with `k > 0` (the feed passes 5)
keeps the organic posts in their order, draws its ads from the pool in order
and tags them, puts one ad right after each full run of `k` organic posts while
the pool lasts, and returns `n + min(floor(n / k), number of ads)` items for `n` posts;
it is a function of `(posts, ads, k)` alone.  With `k = 5`, twelve posts and at
least two ads, exactly two ads are inserted, right after the 5th and the 10th
post. -/
theorem insertAdsIntoFeed_spec {α β : Type} (posts : List α) (ads : List β) (k : Nat)
    (hk : 0 < k) :
    organicItems (insertAdsIntoFeed posts ads k) = posts ∧
    adItems (insertAdsIntoFeed posts ads k) = ads.take (min (posts.length / k) ads.length) ∧
    (insertAdsIntoFeed posts ads k).countP FeedItem.isAd = min (posts.length / k) ads.length ∧
    (insertAdsIntoFeed posts ads k).length =
      posts.length + min (posts.length / k) ads.length ∧
    (posts.length < k → insertAdsIntoFeed posts ads k = posts.map FeedItem.post) ∧
    (ads = [] → insertAdsIntoFeed posts ads k = posts.map FeedItem.post) ∧
    (∀ a pool, ads = a :: pool → k ≤ posts.length →
      insertAdsIntoFeed posts ads k =
        (posts.take k).map FeedItem.post ++
          FeedItem.ad a :: insertAdsIntoFeed (posts.drop k) pool k) ∧
    (∀ posts' ads' k', posts' = posts → ads' = ads → k' = k →
      insertAdsIntoFeed posts' ads' k' = insertAdsIntoFeed posts ads k) ∧
    (∀ (p1 p2 p3 p4 p5 p6 p7 p8 p9 p10 p11 p12 : α) (a1 a2 : β) (pool : List β),
      insertAdsIntoFeed [p1, p2, p3, p4, p5, p6, p7, p8, p9, p10, p11, p12]
          (a1 :: a2 :: pool) 5 =
        [FeedItem.post p1, FeedItem.post p2, FeedItem.post p3, FeedItem.post p4,
          FeedItem.post p5, FeedItem.ad a1, FeedItem.post p6, FeedItem.post p7,
          FeedItem.post p8, FeedItem.post p9, FeedItem.post p10, FeedItem.ad a2,
          FeedItem.post p11, FeedItem.post p12]) := by
  have hads : adItems (insertAdsIntoFeed posts ads k) =
      ads.take (min (posts.length / k) ads.length) := by
    have h := adItems_insertAdsFrom k posts 0 ads
    simp only [Nat.zero_add, Nat.zero_div, Nat.sub_zero] at h
    rw [insertAdsIntoFeed, h, List.take_eq_take]
    omega
  refine ⟨organicItems_insertAdsFrom k posts 0 ads, hads, ?_, ?_, ?_, ?_, ?_, ?_, ?_⟩
  · rw [countP_isAd, hads, List.length_take]
    omega
  · have h := length_insertAdsFrom k posts 0 ads
    simp only [Nat.zero_add, Nat.zero_div, Nat.sub_zero] at h
    exact h
  · intro hlt
    exact insertAdsFrom_short k posts 0 ads (by omega)
  · intro hads
    rw [hads]
    exact insertAdsFrom_no_ads k posts 0
  · intro a pool hads hle
    rw [hads]
    exact insertAdsFrom_chunk k posts 0 a pool hk (by omega)
  · intro posts' ads' k' h1 h2 h3
    rw [h1, h2, h3]
  · intro p1 p2 p3 p4 p5 p6 p7 p8 p9 p10 p11 p12 a1 a2 pool
    rfl

/-- Witness for C11: seven posts, two ads, an ad after every third post. -/
theorem insertAdsIntoFeed_spec_witness :
    (insertAdsIntoFeed [1, 2, 3, 4, 5, 6, 7] ["a", "b"] 3).length =
      [1, 2, 3, 4, 5, 6, 7].length + min ([1, 2, 3, 4, 5, 6, 7].length / 3) ["a", "b"].length :=
  (insertAdsIntoFeed_spec [1, 2, 3, 4, 5, 6, 7] ["a", "b"] 3 (by decide)).2.2.2.1

/-! ## Local search -/

theorem includesChars_iff (s q : List Char) : includesChars s q = true ↔ q <:+: s := by
  induction s with
  | nil =>
    simp only [includesChars, List.isPrefixOf_iff_prefix, List.prefix_nil, List.infix_nil]
  | cons c cs ih =>
    simp only [includesChars, Bool.or_eq_true, List.isPrefixOf_iff_prefix, ih,
      List.infix_cons_iff]

theorem includes_iff (s q : String) : includes s q = true ↔ q.data <:+: s.data :=
  includesChars_iff s.data q.data

theorem postMatches_iff (queryLower : String) (post : SearchPost) :
    postMatches queryLower post = true ↔
      (queryLower.data <:+: (toLowerCase post.content).data ∨
        queryLower.data <:+: (toLowerCase post.authorName).data ∨
        ∃ link, post.link = some link ∧
          (queryLower.data <:+: (toLowerCase link.title).data ∨
            queryLower.data <:+: (toLowerCase link.url).data)) := by
  unfold postMatches
  cases hl : post.link with
  | none => simp [includes_iff]
  | some link => simp [includes_iff, or_assoc]

theorem sortWith_perm {α : Type} (compareFn : α → α → Int) (l : List α) :
    (sortWith compareFn l).Perm l :=
  List.perm_insertionSort _ l

theorem searchData_posts (allPosts : List SearchPost) (allUsers : List SearchUser)
    (query filter : String) (hf : filter = "all" ∨ filter = "posts") :
    (searchData allPosts allUsers query filter).posts =
      sortWith (relevanceCompare (toLowerCase query))
        (allPosts.filter (postMatches (toLowerCase query))) := by
  simp [searchData, hf]

/-- C12, as stated, fails: the description of the link of `linkDescriptionPost`
contains the query `check`, and the post is not returned. -/
theorem searchData_link_metadata_counterexample :
    linkDescriptionPost.link.map Link.description = some "Check out this link" ∧
      includes (toLowerCase "Check out this link") (toLowerCase "check") = true ∧
      (searchData [linkDescriptionPost] [] "check" "all").posts = [] := by
  decide

/-- C12 (amended): with filter `all` or `posts`, a post is in
`searchData(q, filter).posts` exactly when it is in `allPosts` and the
lower-cased query is a substring of its lower-cased content, or of its
lower-cased author name, or of the lower-cased title or URL of its link; every
returned post is an element of `allPosts`, and a matching post is returned as
many times as it occurs in `allPosts`. -/
theorem searchData_posts_filter (allPosts : List SearchPost) (allUsers : List SearchUser)
    (query filter : String) (hf : filter = "all" ∨ filter = "posts") :
    (∀ post, post ∈ (searchData allPosts allUsers query filter).posts ↔
      post ∈ allPosts ∧
        ((toLowerCase query).data <:+: (toLowerCase post.content).data ∨
          (toLowerCase query).data <:+: (toLowerCase post.authorName).data ∨
          ∃ link, post.link = some link ∧
            ((toLowerCase query).data <:+: (toLowerCase link.title).data ∨
              (toLowerCase query).data <:+: (toLowerCase link.url).data))) ∧
    (∀ post, post ∈ (searchData allPosts allUsers query filter).posts → post ∈ allPosts) ∧
    (∀ post, postMatches (toLowerCase query) post = true →
      (searchData allPosts allUsers query filter).posts.count post = allPosts.count post) := by
  have hperm := sortWith_perm (relevanceCompare (toLowerCase query))
    (allPosts.filter (postMatches (toLowerCase query)))
  rw [← searchData_posts allPosts allUsers query filter hf] at hperm
  have hmem : ∀ post, post ∈ (searchData allPosts allUsers query filter).posts ↔
      post ∈ allPosts ∧ postMatches (toLowerCase query) post = true := by
    intro post
    rw [hperm.mem_iff, List.mem_filter]
  refine ⟨fun post => ?_, fun post hp => ((hmem post).mp hp).1, fun post hm => ?_⟩
  · rw [hmem post, postMatches_iff]
  · rw [hperm.count_eq, List.count_filter hm]

/-- Witness for C12 (amended): the query `Cat` returns the first example post
once. -/
theorem searchData_posts_filter_witness :
    (searchData catPosts [] "Cat" "all").posts.count (catPosts.headD linkDescriptionPost) =
      catPosts.count (catPosts.headD linkDescriptionPost) :=
  (searchData_posts_filter catPosts [] "Cat" "all" (by decide)).2.2
    (catPosts.headD linkDescriptionPost) (by decide)

theorem relevanceCompare_le_iff (queryLower : String) (a b : SearchPost) :
    relevanceCompare queryLower a b ≤ 0 ↔
      ((includes (toLowerCase b.content) queryLower = true →
          includes (toLowerCase a.content) queryLower = true) ∧
        (includes (toLowerCase a.content) queryLower =
            includes (toLowerCase b.content) queryLower →
          b.createdAt ≤ a.createdAt)) := by
  unfold relevanceCompare
  cases ha : includes (toLowerCase a.content) queryLower <;>
    cases hb : includes (toLowerCase b.content) queryLower <;>
    simp

theorem relevanceCompare_total (queryLower : String) (a b : SearchPost) :
    relevanceCompare queryLower a b ≤ 0 ∨ relevanceCompare queryLower b a ≤ 0 := by
  rw [relevanceCompare_le_iff, relevanceCompare_le_iff]
  cases ha : includes (toLowerCase a.content) queryLower <;>
    cases hb : includes (toLowerCase b.content) queryLower <;>
    simp <;> omega

theorem relevanceCompare_trans (queryLower : String) (a b c : SearchPost)
    (hab : relevanceCompare queryLower a b ≤ 0) (hbc : relevanceCompare queryLower b c ≤ 0) :
    relevanceCompare queryLower a c ≤ 0 := by
  rw [relevanceCompare_le_iff] at hab hbc ⊢
  revert hab hbc
  cases ha : includes (toLowerCase a.content) queryLower <;>
    cases hb : includes (toLowerCase b.content) queryLower <;>
    cases hc : includes (toLowerCase c.content) queryLower <;>
    simp <;> omega

theorem sortWith_relevance_sorted (queryLower : String) (l : List SearchPost) :
    List.Pairwise (fun a b => relevanceCompare queryLower a b ≤ 0)
      (sortWith (relevanceCompare queryLower) l) := by
  haveI : IsTotal SearchPost (fun a b => relevanceCompare queryLower a b ≤ 0) :=
    ⟨relevanceCompare_total queryLower⟩
  haveI : IsTrans SearchPost (fun a b => relevanceCompare queryLower a b ≤ 0) :=
    ⟨relevanceCompare_trans queryLower⟩
  exact List.sorted_insertionSort (fun a b => relevanceCompare queryLower a b ≤ 0) l

/-- C13: the list `searchData(q, filter).posts` is ordered by the two-key
comparator: a post whose lower-cased content contains the lower-cased query is
never preceded by one whose content does not, and of two posts with the same
content-match flag the earlier one in the list has the larger or equal
`createdAt`; with filter `all` or `posts` the list is a permutation of the
filtered posts.  For the query `cat` over `I have a cat`, `Dogs are great`
(two hours older) and `cat person` (the most recent) the result is
`cat person`, `I have a cat`. -/
theorem searchData_posts_ranked (allPosts : List SearchPost) (allUsers : List SearchUser)
    (query filter : String) :
    List.Pairwise
      (fun a b =>
        ((toLowerCase query).data <:+: (toLowerCase b.content).data →
          (toLowerCase query).data <:+: (toLowerCase a.content).data) ∧
        (((toLowerCase query).data <:+: (toLowerCase a.content).data ↔
            (toLowerCase query).data <:+: (toLowerCase b.content).data) →
          b.createdAt ≤ a.createdAt))
      (searchData allPosts allUsers query filter).posts ∧
    (filter = "all" ∨ filter = "posts" →
      (searchData allPosts allUsers query filter).posts.Perm
        (allPosts.filter (postMatches (toLowerCase query)))) ∧
    (searchData catPosts [] "cat" "all").posts.map SearchPost.content =
      ["cat person", "I have a cat"] := by
  refine ⟨?_, ?_, by decide⟩
  · by_cases hf : filter = "all" ∨ filter = "posts"
    · rw [searchData_posts allPosts allUsers query filter hf]
      refine (sortWith_relevance_sorted (toLowerCase query) _).imp ?_
      intro a b hab
      rw [relevanceCompare_le_iff] at hab
      refine ⟨fun hb => (includes_iff _ _).mp (hab.1 ((includes_iff _ _).mpr hb)), fun hiff => ?_⟩
      refine hab.2 ?_
      rw [Bool.eq_iff_iff, includes_iff, includes_iff]
      exact hiff
    · simp [searchData, hf]
  · intro hf
    rw [searchData_posts allPosts allUsers query filter hf]
    exact sortWith_perm _ _

/-- Witness for C13: with filter `all` the ranked list is a permutation of the
matching example posts. -/
theorem searchData_posts_ranked_witness :
    (searchData catPosts [] "cat" "all").posts.Perm
      (catPosts.filter (postMatches (toLowerCase "cat"))) :=
  (searchData_posts_ranked catPosts [] "cat" "all").2.1 (by decide)

theorem userMatches_iff (queryLower : String) (user : SearchUser) :
    userMatches queryLower user = true ↔
      (queryLower.data <:+: (toLowerCase user.displayName).data ∨
        queryLower.data <:+: (toLowerCase user.email).data ∨
        ∃ bio, user.bio = some bio ∧ queryLower.data <:+: (toLowerCase bio).data) := by
  unfold userMatches
  cases hb : user.bio with
  | none => simp [includes_iff]
  | some bio =>
    by_cases hempty : bio = ""
    · subst hempty
      have hlow : (toLowerCase "").data = [] := rfl
      simp only [beq_self_eq_true, Bool.not_true, Bool.false_and, Bool.or_false,
        Bool.or_eq_true, includes_iff, Option.some.injEq, exists_eq_left', hlow,
        List.infix_nil]
      constructor
      · intro h
        rcases h with h | h
        · exact Or.inl h
        · exact Or.inr (Or.inl h)
      · intro h
        rcases h with h | h | h
        · exact Or.inl h
        · exact Or.inr h
        · rw [h]; exact Or.inl List.nil_infix
    · have hne : (bio == "") = false := by simpa using hempty
      simp [includes_iff, hne, or_assoc]

/-- C14: with filter `all` or `users`, a user is in `searchData(q, filter).users`
exactly when it is in `allUsers` and the lower-cased query is a substring of
its lower-cased display name, email or (when present) bio; the users come in
snapshot order, each matching one as often as it occurs in `allUsers`.  With
filter `posts` the users list is empty, with filter `users` the posts list is
empty. -/
theorem searchData_users_filter (allPosts : List SearchPost) (allUsers : List SearchUser)
    (query filter : String) :
    (filter = "all" ∨ filter = "users" →
      (∀ user, user ∈ (searchData allPosts allUsers query filter).users ↔
        user ∈ allUsers ∧
          ((toLowerCase query).data <:+: (toLowerCase user.displayName).data ∨
            (toLowerCase query).data <:+: (toLowerCase user.email).data ∨
            ∃ bio, user.bio = some bio ∧
              (toLowerCase query).data <:+: (toLowerCase bio).data)) ∧
      (searchData allPosts allUsers query filter).users.Sublist allUsers ∧
      (∀ user, user ∈ (searchData allPosts allUsers query filter).users →
        (searchData allPosts allUsers query filter).users.count user =
          allUsers.count user)) ∧
    (filter = "posts" → (searchData allPosts allUsers query filter).users = []) ∧
    (filter = "users" → (searchData allPosts allUsers query filter).posts = []) := by
  refine ⟨fun hf => ?_, fun hf => ?_, fun hf => ?_⟩
  · have hu : (searchData allPosts allUsers query filter).users =
        allUsers.filter (userMatches (toLowerCase query)) := by
      simp [searchData, hf]
    rw [hu]
    refine ⟨fun user => ?_, List.filter_sublist _, fun user hm => ?_⟩
    · rw [List.mem_filter, userMatches_iff]
    · exact List.count_filter (List.mem_filter.mp hm).2
  · subst hf
    simp [searchData]
  · subst hf
    simp [searchData]

/-- Witness for C14: filter `posts` over a snapshot with one user. -/
theorem searchData_users_filter_witness :
    (searchData catPosts
      [{ id := "u1", displayName := "Cathy", email := "c@example.org", bio := none }]
      "cat" "posts").users = [] :=
  (searchData_users_filter catPosts
    [{ id := "u1", displayName := "Cathy", email := "c@example.org", bio := none }]
    "cat" "posts").2.1 rfl

/-! ## Time formatting -/

theorem agoText_eq (n : Int) (unit : String) :
    agoText n unit = toString n ++ (" " ++ unit) ++ (if n > 1 then "s" else "") ++ " ago" := by
  simp only [agoText, String.append_assoc]

/-- The branch of `formatTimeAgo` taken for each range of elapsed whole seconds
`e` and elapsed whole days `d`. -/
theorem formatTimeAgo_cases (now timestamp : Int) :
    ((now - timestamp) / 1000 < 60 → formatTimeAgo now timestamp = "just now") ∧
    (60 ≤ (now - timestamp) / 1000 → (now - timestamp) / 1000 < 3600 →
      formatTimeAgo now timestamp = agoText ((now - timestamp) / 1000 / 60) "minute") ∧
    (3600 ≤ (now - timestamp) / 1000 → (now - timestamp) / 1000 < 86400 →
      formatTimeAgo now timestamp = agoText ((now - timestamp) / 1000 / 3600) "hour") ∧
    (86400 ≤ (now - timestamp) / 1000 → (now - timestamp) / 1000 < 604800 →
      formatTimeAgo now timestamp = agoText ((now - timestamp) / 1000 / 86400) "day") ∧
    (7 ≤ (now - timestamp) / 1000 / 86400 → (now - timestamp) / 1000 / 86400 / 7 < 4 →
      formatTimeAgo now timestamp =
        agoText ((now - timestamp) / 1000 / 86400 / 7) "week") ∧
    (4 ≤ (now - timestamp) / 1000 / 86400 / 7 → (now - timestamp) / 1000 / 86400 / 30 < 12 →
      formatTimeAgo now timestamp =
        agoText ((now - timestamp) / 1000 / 86400 / 30) "month") ∧
    (4 ≤ (now - timestamp) / 1000 / 86400 / 7 → 12 ≤ (now - timestamp) / 1000 / 86400 / 30 →
      formatTimeAgo now timestamp =
        agoText ((now - timestamp) / 1000 / 86400 / 365) "year") := by
  simp only [formatTimeAgo, agoText_eq]
  generalize (now - timestamp) / 1000 = e
  have hh : e / 60 / 60 = e / 3600 := by omega
  have hd : e / 60 / 60 / 24 = e / 86400 := by omega
  refine ⟨?_, ?_, ?_, ?_, ?_, ?_, ?_⟩
  · intro h
    rw [if_pos h]
  · intro h1 h2
    rw [if_neg (by omega), if_pos (by omega)]
    rfl
  · intro h1 h2
    rw [if_neg (by omega), if_neg (by omega), if_pos (by omega), hh]
    rfl
  · intro h1 h2
    rw [if_neg (by omega), if_neg (by omega), if_neg (by omega), if_pos (by omega), hd]
    rfl
  · intro h1 h2
    rw [if_neg (by omega), if_neg (by omega), if_neg (by omega), if_neg (by omega), hd,
      if_pos h2]
    rfl
  · intro h1 h2
    rw [if_neg (by omega), if_neg (by omega), if_neg (by omega), if_neg (by omega), hd,
      if_neg (by omega), if_pos h2]
    rfl
  · intro h1 h2
    rw [if_neg (by omega), if_neg (by omega), if_neg (by omega), if_neg (by omega), hd,
      if_neg (by omega), if_neg (by omega)]
    rfl

theorem agoText_plural (n : Int) (unit : String) :
    (1 < n → agoText n unit = toString n ++ " " ++ unit ++ "s" ++ " ago") ∧
      (n ≤ 1 → agoText n unit = toString n ++ " " ++ unit ++ " ago") := by
  constructor
  · intro h
    simp only [agoText, gt_iff_lt, if_pos h]
  · intro h
    have h' : ¬ 1 < n := by omega
    simp only [agoText, gt_iff_lt, if_neg h', String.append_empty]

/-- C15: with `e = floor((now - timestamp) / 1000)`, `formatTimeAgo` returns
`just now` when `e < 60`, `N minute(s) ago` with `N = floor(e / 60)` when
`60 ≤ e < 3600`, `N hour(s) ago` with `N = floor(e / 3600)` when
`3600 ≤ e < 86400`, and `N day(s) ago` with `N = floor(e / 86400)` when
`86400 ≤ e < 604800`; the unit takes its `s` exactly when `N > 1`.  A timestamp
30 s old gives `just now`, 90 s old `1 minute ago`, 25 h old `1 day ago`. -/
theorem formatTimeAgo_up_to_days (now timestamp : Int) :
    ((now - timestamp) / 1000 < 60 → formatTimeAgo now timestamp = "just now") ∧
    (60 ≤ (now - timestamp) / 1000 → (now - timestamp) / 1000 < 3600 →
      formatTimeAgo now timestamp = agoText ((now - timestamp) / 1000 / 60) "minute") ∧
    (3600 ≤ (now - timestamp) / 1000 → (now - timestamp) / 1000 < 86400 →
      formatTimeAgo now timestamp = agoText ((now - timestamp) / 1000 / 3600) "hour") ∧
    (86400 ≤ (now - timestamp) / 1000 → (now - timestamp) / 1000 < 604800 →
      formatTimeAgo now timestamp = agoText ((now - timestamp) / 1000 / 86400) "day") ∧
    (∀ (n : Int) (unit : String),
      (1 < n → agoText n unit = toString n ++ " " ++ unit ++ "s" ++ " ago") ∧
        (n ≤ 1 → agoText n unit = toString n ++ " " ++ unit ++ " ago")) ∧
    formatTimeAgo now (now - 30 * 1000) = "just now" ∧
    formatTimeAgo now (now - 90 * 1000) = "1 minute ago" ∧
    formatTimeAgo now (now - 25 * 3600 * 1000) = "1 day ago" := by
  obtain ⟨h1, h2, h3, h4, _⟩ := formatTimeAgo_cases now timestamp
  refine ⟨h1, h2, h3, h4, agoText_plural, ?_, ?_, ?_⟩
  · have h : now - (now - 30 * 1000) = 30000 := by omega
    simp only [formatTimeAgo, h]
    decide
  · have h : now - (now - 90 * 1000) = 90000 := by omega
    simp only [formatTimeAgo, h]
    decide
  · have h : now - (now - 25 * 3600 * 1000) = 90000000 := by omega
    simp only [formatTimeAgo, h]
    decide

/-- Witness for C15: a timestamp 2 h 5 min old. -/
theorem formatTimeAgo_up_to_days_witness :
    formatTimeAgo 7500000 0 = agoText ((7500000 - 0) / 1000 / 3600) "hour" :=
  (formatTimeAgo_up_to_days 7500000 0).2.2.1 (by decide) (by decide)

/-- C16, as stated, fails: a timestamp 56 days old is 8 weeks old, so
`floor(weeks / 4)` is 2, and `formatTimeAgo` returns `1 month ago`. -/
theorem formatTimeAgo_months_counterexample :
    ((56 * 86400 * 1000 - 0 : Int) / 1000 / 86400 = 56) ∧
      ((56 : Int) / 7 / 4 = 2) ∧
      agoText ((56 : Int) / 7 / 4) "month" = "2 months ago" ∧
      formatTimeAgo (56 * 86400 * 1000) 0 = "1 month ago" := by
  decide

/-- C16 (amended): for a timestamp at least 7 days old, with `days` the elapsed
whole days and `weeks = floor(days / 7)`, `formatTimeAgo` returns
`N week(s) ago` with `N = weeks` when `weeks < 4`; with
`months = floor(days / 30)` it returns `N month(s) ago` with `N = months` when
`weeks ≥ 4` and `1 ≤ months < 12`; and it returns `N year(s) ago` with
`N = floor(days / 365)` when `months ≥ 12` and `days ≥ 365`. -/
theorem formatTimeAgo_weeks_months_years (now timestamp : Int)
    (hold : 7 ≤ (now - timestamp) / 1000 / 86400) :
    ((now - timestamp) / 1000 / 86400 / 7 < 4 →
      formatTimeAgo now timestamp =
        agoText ((now - timestamp) / 1000 / 86400 / 7) "week") ∧
    (4 ≤ (now - timestamp) / 1000 / 86400 / 7 →
      1 ≤ (now - timestamp) / 1000 / 86400 / 30 →
      (now - timestamp) / 1000 / 86400 / 30 < 12 →
      formatTimeAgo now timestamp =
        agoText ((now - timestamp) / 1000 / 86400 / 30) "month") ∧
    (12 ≤ (now - timestamp) / 1000 / 86400 / 30 →
      365 ≤ (now - timestamp) / 1000 / 86400 →
      formatTimeAgo now timestamp =
        agoText ((now - timestamp) / 1000 / 86400 / 365) "year") := by
  obtain ⟨_, _, _, _, h5, h6, h7⟩ := formatTimeAgo_cases now timestamp
  refine ⟨fun h => h5 hold h, fun h _ h2 => h6 h h2, fun h _ => h7 (by omega) h⟩

/-- Witness for C16 (amended): a timestamp 60 days old. -/
theorem formatTimeAgo_weeks_months_years_witness :
    formatTimeAgo (60 * 86400 * 1000) 0 =
      agoText ((60 * 86400 * 1000 - 0) / 1000 / 86400 / 30) "month" :=
  (formatTimeAgo_weeks_months_years (60 * 86400 * 1000) 0 (by decide)).2.1
    (by decide) (by decide) (by decide)

/-! ## Initials -/

theorem splitOnSpace_ne_nil (l : List Char) : splitOnSpace l ≠ [] := by
  cases l with
  | nil => simp [splitOnSpace]
  | cons c cs =>
    unfold splitOnSpace
    by_cases h : c.toNat = 0x20
    · simp [h]
    · simp only [h, if_false]
      cases splitOnSpace cs <;> simp

/-- A piece without a space is not split. -/
theorem splitOnSpace_word (w : List Char) (hw : ∀ x ∈ w, isTrimChar x = false) :
    splitOnSpace w = [w] := by
  induction w with
  | nil => rfl
  | cons c cs ih =>
    have hc : ¬ c.toNat = 0x20 := by
      have := hw c (List.mem_cons_self _ _)
      intro h
      simp [isTrimChar, h] at this
    rw [splitOnSpace, if_neg hc, ih (fun x hx => hw x (List.mem_cons_of_mem _ hx))]

/-- The first piece of a string that starts with a word and a space. -/
theorem splitOnSpace_first (first rest : List Char)
    (hw : ∀ x ∈ first, isTrimChar x = false) :
    ∃ tail, tail ≠ [] ∧ splitOnSpace (first ++ Char.ofNat 0x20 :: rest) = first :: tail := by
  induction first with
  | nil =>
    refine ⟨splitOnSpace rest, splitOnSpace_ne_nil rest, ?_⟩
    rw [List.nil_append, splitOnSpace, if_pos (by decide)]
  | cons c cs ih =>
    have hc : ¬ c.toNat = 0x20 := by
      have := hw c (List.mem_cons_self _ _)
      intro h
      simp [isTrimChar, h] at this
    obtain ⟨tail, ht, hs⟩ := ih (fun x hx => hw x (List.mem_cons_of_mem _ hx))
    refine ⟨tail, ht, ?_⟩
    rw [List.cons_append, splitOnSpace, if_neg hc, hs]

/-- The last piece of a string that ends with a space and a word. -/
theorem splitOnSpace_last (pre last : List Char)
    (hw : ∀ x ∈ last, isTrimChar x = false) :
    ∃ front, front ≠ [] ∧ splitOnSpace (pre ++ Char.ofNat 0x20 :: last) = front ++ [last] := by
  induction pre with
  | nil =>
    refine ⟨[[]], by simp, ?_⟩
    rw [List.nil_append, splitOnSpace, if_pos (by decide), splitOnSpace_word last hw]
    rfl
  | cons c cs ih =>
    obtain ⟨front, hf, hs⟩ := ih
    rw [List.cons_append, splitOnSpace, hs]
    by_cases hc : c.toNat = 0x20
    · exact ⟨[] :: front, by simp, by rw [if_pos hc]; rfl⟩
    · cases front with
      | nil => exact absurd rfl hf
      | cons w ws => exact ⟨(c :: w) :: ws, by simp, by rw [if_neg hc]; rfl⟩

/-- A string whose first and last characters are not stripped is its own trim. -/
theorem trimChars_eq_self (l : List Char) (c z : Char) (hc : l.head? = some c)
    (hz : l.getLast? = some z) (hcw : isTrimChar c = false) (hzw : isTrimChar z = false) :
    trimChars l = l := by
  have h1 : l.dropWhile isTrimChar = l := by
    cases l with
    | nil => rfl
    | cons a t =>
      simp only [List.head?_cons, Option.some.injEq] at hc
      rw [List.dropWhile_cons_of_neg (by rw [hc, hcw]; simp)]
  have h2 : l.reverse.dropWhile isTrimChar = l.reverse := by
    have hr : l.reverse.head? = some z := by rw [List.head?_reverse]; exact hz
    cases hl : l.reverse with
    | nil => rfl
    | cons a t =>
      rw [hl] at hr
      simp only [List.head?_cons, Option.some.injEq] at hr
      rw [List.dropWhile_cons_of_neg (by rw [hr, hzw]; simp)]
  rw [trimChars, h1, h2, List.reverse_reverse]

theorem getInitials_of_words (name : List Char) (words : List (List Char))
    (hne : name ≠ []) (htrim : trimChars name = name) (hsplit : splitOnSpace name = words) :
    getInitials (some (String.mk name)) =
      if words.length = 1 then toUpperCase (charAt0 (words.headD []))
      else toUpperCase (charAt0 (words.headD []) ++ charAt0 (words.getLastD [])) := by
  have hs : String.mk name ≠ "" := by
    intro h
    exact hne (congrArg String.data h)
  simp only [getInitials, if_neg hs, htrim, hsplit]

theorem getLast?_mem_of_cons (c : Char) (w : List Char) :
    ∃ z, (c :: w).getLast? = some z ∧ z ∈ c :: w :=
  ⟨(c :: w).getLast (List.cons_ne_nil c w), List.getLast?_eq_getLast _ _,
    List.getLast_mem _⟩

/-- C17: `getInitials` returns `U` for an absent or empty name; for a name that
is a single word (no white space) it returns the word's first character
uppercased; for a name that starts with a word and a space and ends with a
space and a word it returns the uppercased first characters of the first and of
the last word.  `Alice` gives `A` and `Alice Bob` gives `AB`. -/
theorem getInitials_spec :
    getInitials none = "U" ∧ getInitials (some "") = "U" ∧
    (∀ (c : Char) (w : List Char), (∀ x ∈ c :: w, isTrimChar x = false) →
      getInitials (some (String.mk (c :: w))) = String.mk [c.toUpper]) ∧
    (∀ (name rest pre f l : List Char) (c1 c2 : Char),
      name = (c1 :: f) ++ Char.ofNat 0x20 :: rest →
      name = pre ++ Char.ofNat 0x20 :: (c2 :: l) →
      (∀ x ∈ c1 :: f, isTrimChar x = false) → (∀ x ∈ c2 :: l, isTrimChar x = false) →
      getInitials (some (String.mk name)) = String.mk [c1.toUpper, c2.toUpper]) ∧
    getInitials (some "Alice") = "A" ∧ getInitials (some "Alice Bob") = "AB" := by
  refine ⟨rfl, rfl, ?_, ?_, by decide, by decide⟩
  · intro c w hw
    obtain ⟨z, hz, hzm⟩ := getLast?_mem_of_cons c w
    have htrim := trimChars_eq_self (c :: w) c z rfl hz (hw c (List.mem_cons_self _ _))
      (hw z hzm)
    rw [getInitials_of_words (c :: w) [c :: w] (List.cons_ne_nil _ _) htrim
      (splitOnSpace_word _ hw)]
    rfl
  · intro name rest pre f l c1 c2 h1 h2 hf hl
    obtain ⟨z, hz, hzm⟩ := getLast?_mem_of_cons c2 l
    have hne : name ≠ [] := by rw [h1]; simp
    have hhead : name.head? = some c1 := by rw [h1]; rfl
    have hlast : name.getLast? = some z := by
      have hcons : (Char.ofNat 0x20 :: c2 :: l).getLast? = (c2 :: l).getLast? :=
        List.getLast?_cons_cons
      rw [h2, List.getLast?_append, hcons, hz]
      rfl
    have htrim := trimChars_eq_self name c1 z hhead hlast (hf c1 (List.mem_cons_self _ _))
      (hl z hzm)
    obtain ⟨tail, ht, hs1⟩ := splitOnSpace_first (c1 :: f) rest hf
    obtain ⟨front, _, hs2⟩ := splitOnSpace_last pre (c2 :: l) hl
    rw [← h1] at hs1
    rw [← h2] at hs2
    rw [getInitials_of_words name (splitOnSpace name) hne htrim rfl]
    have hlen : (splitOnSpace name).length ≠ 1 := by
      rw [hs1]
      cases tail with
      | nil => exact absurd rfl ht
      | cons a b => simp
    have hh : (splitOnSpace name).headD [] = c1 :: f := by rw [hs1]; rfl
    have hg : (splitOnSpace name).getLastD [] = c2 :: l := by
      rw [hs2]; simp
    rw [if_neg hlen, hh, hg]
    rfl

/-- Witness for C17: the single word `bob`. -/
theorem getInitials_spec_witness :
    getInitials (some (String.mk (Char.ofNat 98 :: "ob".data))) =
      String.mk [(Char.ofNat 98).toUpper] :=
  getInitials_spec.2.2.1 (Char.ofNat 98) "ob".data (by decide)

/-! ## Reading the posts -/

theorem orderedInsert_congr {α : Type} (r r' : α → α → Prop) [DecidableRel r]
    [DecidableRel r'] (a : α) (l : List α) (h : ∀ b ∈ l, (r a b ↔ r' a b)) :
    l.orderedInsert r a = l.orderedInsert r' a := by
  induction l with
  | nil => rfl
  | cons b t ih =>
    have hb := h b (List.mem_cons_self _ _)
    have ht := ih (fun x hx => h x (List.mem_cons_of_mem _ hx))
    by_cases hr : r a b
    · simp [List.orderedInsert, hr, hb.mp hr]
    · have hr' : ¬ r' a b := fun h' => hr (hb.mpr h')
      simp [List.orderedInsert, hr, hr', ht]

theorem insertionSort_congr {α : Type} (r r' : α → α → Prop) [DecidableRel r]
    [DecidableRel r'] (l : List α) (h : ∀ a ∈ l, ∀ b ∈ l, (r a b ↔ r' a b)) :
    l.insertionSort r = l.insertionSort r' := by
  induction l with
  | nil => rfl
  | cons a t ih =>
    have ht := ih (fun x hx y hy => h x (List.mem_cons_of_mem _ hx) y (List.mem_cons_of_mem _ hy))
    simp only [List.insertionSort]
    rw [ht]
    refine orderedInsert_congr r r' a _ (fun b hb => ?_)
    have hbt : b ∈ t := (List.perm_insertionSort r' t).mem_iff.mp hb
    exact h a (List.mem_cons_self _ _) b (List.mem_cons_of_mem _ hbt)

theorem getAllPosts_eq (limitCount : Nat) (s : Store) :
    getAllPosts limitCount s =
      (Outcome.ok ((sortWith newestFirst
        (s.posts.entries.map (fun e => (e.1, e.2)))).take limitCount), s) := by
  unfold getAllPosts
  by_cases h : s.posts.entries.isEmpty = true
  · have hnil : s.posts.entries = [] := List.isEmpty_iff.mp h
    simp [hnil, sortWith]
  · simp [h]

theorem newestFirst_le_iff (a b : String × Post) (ha : a.2.createdAt.isSome = true)
    (hb : b.2.createdAt.isSome = true) :
    newestFirst a b ≤ 0 ↔ b.2.createdAt.getD 0 ≤ a.2.createdAt.getD 0 := by
  unfold newestFirst
  cases hx : a.2.createdAt with
  | none => rw [hx] at ha; cases ha
  | some x =>
    cases hy : b.2.createdAt with
    | none => rw [hy] at hb; cases hb
    | some y =>
      simp only [Option.getD_some]
      omega

theorem sortWith_newestFirst_sorted (l : List (String × Post))
    (h : ∀ p ∈ l, p.2.createdAt.isSome = true) :
    (sortWith newestFirst l).Pairwise
      (fun a b => b.2.createdAt.getD 0 ≤ a.2.createdAt.getD 0) := by
  haveI : IsTotal (String × Post)
      (fun a b => b.2.createdAt.getD 0 ≤ a.2.createdAt.getD 0) :=
    ⟨fun a b => le_total _ _⟩
  haveI : IsTrans (String × Post)
      (fun a b => b.2.createdAt.getD 0 ≤ a.2.createdAt.getD 0) :=
    ⟨fun a b c hab hbc => le_trans hbc hab⟩
  have hcongr : sortWith newestFirst l =
      l.insertionSort (fun a b => b.2.createdAt.getD 0 ≤ a.2.createdAt.getD 0) :=
    insertionSort_congr _ _ l (fun a ha b hb => newestFirst_le_iff a b (h a ha) (h b hb))
  rw [hcongr]
  exact List.sorted_insertionSort _ l

theorem createdAt_le_of_getD (a b : String × Post) (ha : a.2.createdAt.isSome = true)
    (hb : b.2.createdAt.isSome = true)
    (h : b.2.createdAt.getD 0 ≤ a.2.createdAt.getD 0) :
    ∃ x y, a.2.createdAt = some x ∧ b.2.createdAt = some y ∧ y ≤ x := by
  cases hx : a.2.createdAt with
  | none => rw [hx] at ha; cases ha
  | some x =>
    cases hy : b.2.createdAt with
    | none => rw [hy] at hb; cases hb
    | some y =>
      rw [hx, hy] at h
      exact ⟨x, y, rfl, rfl, h⟩

/-- C18, as stated, fails: in `storeUndated` the record `c` has no `createdAt`,
the comparator gives `NaN` against it and the sort leaves the posts in key
order `a`, `c`, `d`; `getAllPosts(1)` returns `a`, created at 100, while the
stored post `d`, created at 300, is not returned, and the `createdAt` values
returned by `getAllPosts(50)` are 100, none, 300. -/
theorem getAllPosts_undated_counterexample :
    (getAllPosts 1 storeUndated).1 =
        Outcome.ok [("a",
          { content := some "old", authorId := some "a1", createdAt := some 100,
            likes := some 0, comments := some 0, shares := some 0 })] ∧
      (storeUndated.getPost "d").bind Post.createdAt = some 300 ∧
      (getAllPosts 50 storeUndated).1 =
        Outcome.ok [("a",
          { content := some "old", authorId := some "a1", createdAt := some 100,
            likes := some 0, comments := some 0, shares := some 0 }),
          ("c", { likes := some 1 }),
          ("d",
          { content := some "new", authorId := some "a1", createdAt := some 300,
            likes := some 0, comments := some 0, shares := some 0 })] := by
  decide

/-- C18 (amended): in every store state `getAllPosts(limitCount)` succeeds
without changing the store and returns `min(limitCount, number of stored posts)`
posts, each a stored post under its own key, and the empty list when no post is
stored; when every stored post has a `createdAt`, the returned `createdAt`
values are non-increasing and every stored post that is not returned has a
`createdAt` no larger than that of every returned post. -/
theorem getAllPosts_newest_first (s : Store) (limitCount : Nat) :
    ∃ posts, getAllPosts limitCount s = (Outcome.ok posts, s) ∧
      posts.length = min limitCount s.posts.entries.length ∧
      (∀ p ∈ posts, s.getPost p.1 = some p.2) ∧
      (s.posts.entries = [] → posts = []) ∧
      ((∀ e ∈ s.posts.entries, e.2.createdAt.isSome = true) →
        posts.Pairwise
            (fun a b => ∃ x y, a.2.createdAt = some x ∧ b.2.createdAt = some y ∧ y ≤ x) ∧
          ∀ id post, s.getPost id = some post → (id, post) ∉ posts →
            ∀ p ∈ posts, ∃ x y, p.2.createdAt = some x ∧ post.createdAt = some y ∧ y ≤ x) := by
  have hperm := sortWith_perm newestFirst (s.posts.entries.map (fun e => (e.1, e.2)))
  have hmemAll : ∀ p, p ∈ sortWith newestFirst (s.posts.entries.map (fun e => (e.1, e.2))) ↔
      s.getPost p.1 = some p.2 := by
    intro p
    rw [hperm.mem_iff, List.mem_map]
    constructor
    · rintro ⟨e, he, rfl⟩
      exact AList.mem_lookup_iff.mpr he
    · intro hp
      exact ⟨⟨p.1, p.2⟩, AList.mem_lookup_iff.mp hp, rfl⟩
  refine ⟨_, getAllPosts_eq limitCount s, ?_, ?_, ?_, ?_⟩
  · rw [List.length_take, hperm.length_eq, List.length_map]
  · intro p hp
    exact (hmemAll p).mp (List.mem_of_mem_take hp)
  · intro hnil
    simp [hnil, sortWith]
  · intro hts
    have hsome : ∀ p ∈ sortWith newestFirst (s.posts.entries.map (fun e => (e.1, e.2))),
        p.2.createdAt.isSome = true := by
      intro p hp
      exact hts ⟨p.1, p.2⟩ (AList.mem_lookup_iff.mp ((hmemAll p).mp hp))
    have hsorted := sortWith_newestFirst_sorted (s.posts.entries.map (fun e => (e.1, e.2)))
      (fun p hp => hsome p (hperm.mem_iff.mpr hp))
    constructor
    · have htake := hsorted.sublist (List.take_sublist limitCount _)
      refine htake.imp_of_mem ?_
      intro a b ha hb hab
      exact createdAt_le_of_getD a b (hsome a (List.mem_of_mem_take ha))
        (hsome b (List.mem_of_mem_take hb)) hab
    · intro id post hpost hnot p hp
      have hin : (id, post) ∈
          sortWith newestFirst (s.posts.entries.map (fun e => (e.1, e.2))) :=
        (hmemAll (id, post)).mpr hpost
      rw [← List.take_append_drop limitCount
        (sortWith newestFirst (s.posts.entries.map (fun e => (e.1, e.2))))] at hin hsorted
      have hdrop := (List.mem_append.mp hin).resolve_left hnot
      have hle := (List.pairwise_append.mp hsorted).2.2 p hp (id, post) hdrop
      exact createdAt_le_of_getD p (id, post) (hsome p (List.mem_of_mem_take hp))
        (hsome _ (List.mem_of_mem_drop hdrop)) hle

/-- Witness for C18 (amended): the two newest of three posts. -/
theorem getAllPosts_newest_first_witness :
    ∃ posts, getAllPosts 2 storeThreePosts = (Outcome.ok posts, storeThreePosts) ∧
      posts.Pairwise
        (fun a b => ∃ x y, a.2.createdAt = some x ∧ b.2.createdAt = some y ∧ y ≤ x) :=
  (getAllPosts_newest_first storeThreePosts 2).imp
    (fun _ h => ⟨h.1, (h.2.2.2.2 (by decide)).1⟩)

/-! ## comment.js: creating and deleting comments -/

theorem alist_erase_of_lookup_none {κ ν : Type} [DecidableEq κ]
    (m : AList (fun _ : κ => ν)) (k : κ) (h : m.lookup k = none) : m.erase k = m := by
  apply AList.ext
  exact List.kerase_of_not_mem_keys (AList.mem_keys.not.mp (AList.lookup_eq_none.mp h))

theorem Store.getComment_updatePost (s : Store) (postId : String) (u : PostPatch)
    (p c : String) : (s.updatePost postId u).getComment p c = s.getComment p c := by
  simp [Store.getComment, Store.comments_updatePost]

theorem Store.getComment_setComment_self (s : Store) (postId commentId : String)
    (cm : Comment) : (s.setComment postId commentId cm).getComment postId commentId = some cm := by
  simp [Store.setComment, Store.getComment]

theorem Store.getComment_setComment_ne (s : Store) {postId commentId p c : String}
    (cm : Comment) (h : (p, c) ≠ (postId, commentId)) :
    (s.setComment postId commentId cm).getComment p c = s.getComment p c := by
  simp [Store.setComment, Store.getComment, AList.lookup_insert_ne h]

/-- C19: when `posts/{postId}` exists with comments counter `c` (absent read as
0) and `push` hands out a new key, `createComment(postId, data)` returns
success with that key, stores under it a comment with the given content and
author fields, the clock reading, `likes = 0` and `replies = 0`, sets
`posts/{postId}.comments` to `c + 1`, and leaves every comment stored before,
every other field of the post, every other post and every like record
unchanged. -/
theorem createComment_on_stored_post (s : Store) (postId : String)
    (commentData : AuthoredText) (newKey : String) (now : Int) (post : Post)
    (hpost : s.getPost postId = some post) (hnew : s.getComment postId newKey = none) :
    (createComment postId commentData newKey now s).1 = Outcome.ok newKey ∧
    (createComment postId commentData newKey now s).2.getComment postId newKey =
      some { content := some commentData.content, authorId := some commentData.authorId,
             authorName := some commentData.authorName,
             authorEmail := some commentData.authorEmail, createdAt := some now,
             likes := some 0, replies := some 0 } ∧
    (createComment postId commentData newKey now s).2.getPost postId =
      some { post with comments := some (post.comments.getD 0 + 1) } ∧
    (∀ p c cm, s.getComment p c = some cm →
      (createComment postId commentData newKey now s).2.getComment p c = some cm) ∧
    (∀ other, other ≠ postId →
      (createComment postId commentData newKey now s).2.getPost other = s.getPost other) ∧
    (createComment postId commentData newKey now s).2.likes = s.likes ∧
    (createComment postId commentData newKey now s).2.commentLikes = s.commentLikes := by
  have hp1 : (s.setComment postId newKey
      { content := some commentData.content, authorId := some commentData.authorId,
        authorName := some commentData.authorName,
        authorEmail := some commentData.authorEmail, createdAt := some now,
        likes := some 0, replies := some 0 }).getPost postId = some post := hpost
  unfold createComment
  simp only [hp1]
  refine ⟨trivial, ?_, Store.getPost_updatePost_comments _ postId post _ hp1, ?_, ?_, ?_, ?_⟩
  · rw [Store.getComment_updatePost, Store.getComment_setComment_self]
  · intro p c cm hcm
    have hne : (p, c) ≠ (postId, newKey) := by
      intro heq
      cases heq
      rw [hnew] at hcm
      cases hcm
    rw [Store.getComment_updatePost, Store.getComment_setComment_ne s _ hne, hcm]
  · intro other ho
    rw [Store.getPost_updatePost_ne _ _ ho]
    rfl
  · rw [Store.likes_updatePost]
    rfl
  · rw [Store.commentLikes_updatePost]
    rfl

/-- Witness for C19: a second comment on `p1` of `storeOneComment`. -/
theorem createComment_on_stored_post_witness :
    (createComment "p1" sampleCommentData "c2" 130 storeOneComment).1 = Outcome.ok "c2" ∧
      (createComment "p1" sampleCommentData "c2" 130 storeOneComment).2.getPost "p1" =
        some { content := some "hello", authorId := some "a1", createdAt := some 100,
               likes := some 0, comments := some (1 + 1), shares := some 0 } :=
  have h := createComment_on_stored_post storeOneComment "p1" sampleCommentData "c2" 130
    { content := some "hello", authorId := some "a1", createdAt := some 100,
      likes := some 0, comments := some 1, shares := some 0 } (by decide) (by decide)
  ⟨h.1, h.2.2.1⟩

/-- C20, as stated, fails: `posts/p9` is not stored, yet `createComment` on it
returns success and stores the comment; `comments/p1/zz` is not stored, yet
`deleteComment` on it returns success. -/
theorem comment_ops_not_found_counterexample :
    storeOneComment.getPost "p9" = none ∧
      (createComment "p9" sampleCommentData "c7" 500 storeOneComment).1 = Outcome.ok "c7" ∧
      ((createComment "p9" sampleCommentData "c7" 500 storeOneComment).2.getComment
        "p9" "c7").isSome = true ∧
      storeOneComment.getComment "p1" "zz" = none ∧
      (deleteComment "p1" "zz" storeOneComment).1 = Outcome.ok () := by
  decide

/-- C20 (amended): when nothing is stored at `posts/{postId}`,
`createComment(postId, data)` returns success with the new key and stores the
comment under `comments/{postId}`, creating no record at `posts/{postId}` and
changing no other comment and no like record; when nothing is stored at
`comments/{postId}/{commentId}`, `deleteComment(postId, commentId)` returns
success and changes no comment, no like record, no other post and no field of
`posts/{postId}` other than `comments`, and nothing at all when the post is not
stored either. -/
theorem comment_ops_absent_target (s : Store) (postId : String) :
    (∀ (commentData : AuthoredText) (newKey : String) (now : Int),
      s.getPost postId = none →
      (createComment postId commentData newKey now s).1 = Outcome.ok newKey ∧
      (createComment postId commentData newKey now s).2.getComment postId newKey =
        some { content := some commentData.content, authorId := some commentData.authorId,
               authorName := some commentData.authorName,
               authorEmail := some commentData.authorEmail, createdAt := some now,
               likes := some 0, replies := some 0 } ∧
      (createComment postId commentData newKey now s).2.posts = s.posts ∧
      (∀ p c, (p, c) ≠ (postId, newKey) →
        (createComment postId commentData newKey now s).2.getComment p c =
          s.getComment p c) ∧
      (createComment postId commentData newKey now s).2.likes = s.likes ∧
      (createComment postId commentData newKey now s).2.commentLikes = s.commentLikes) ∧
    (∀ (commentId : String), s.getComment postId commentId = none →
      (deleteComment postId commentId s).1 = Outcome.ok () ∧
      (deleteComment postId commentId s).2.comments = s.comments ∧
      (deleteComment postId commentId s).2.likes = s.likes ∧
      (deleteComment postId commentId s).2.commentLikes = s.commentLikes ∧
      (∀ other, other ≠ postId →
        (deleteComment postId commentId s).2.getPost other = s.getPost other) ∧
      (∀ post, s.getPost postId = some post →
        ∃ n, (deleteComment postId commentId s).2.getPost postId =
          some { post with comments := some n }) ∧
      (s.getPost postId = none → (deleteComment postId commentId s).2 = s)) := by
  constructor
  · intro commentData newKey now hpost
    have hp1 : (s.setComment postId newKey
        { content := some commentData.content, authorId := some commentData.authorId,
          authorName := some commentData.authorName,
          authorEmail := some commentData.authorEmail, createdAt := some now,
          likes := some 0, replies := some 0 }).getPost postId = none := hpost
    unfold createComment
    simp only [hp1]
    exact ⟨trivial, Store.getComment_setComment_self _ _ _ _, rfl,
      fun p c hne => Store.getComment_setComment_ne s _ hne, rfl, rfl⟩
  · intro commentId hc
    have herase : s.removeComment postId commentId = s := by
      unfold Store.removeComment
      rw [alist_erase_of_lookup_none s.comments (postId, commentId) hc]
    cases hpost : s.getPost postId with
    | none =>
      have hd : deleteComment postId commentId s = (Outcome.ok (), s) := by
        unfold deleteComment
        rw [herase]
        simp only [hpost]
      rw [hd]
      exact ⟨rfl, rfl, rfl, rfl, fun _ _ => rfl, fun _ hp => Option.noConfusion hp,
        fun _ => rfl⟩
    | some post =>
      have hd : deleteComment postId commentId s =
          (Outcome.ok (), s.updatePost postId
            { comments := some (some (max 0 (post.comments.getD 0 - 1))) }) := by
        unfold deleteComment
        rw [herase]
        simp only [hpost]
      rw [hd]
      refine ⟨rfl, Store.comments_updatePost _ _ _, Store.likes_updatePost _ _ _,
        Store.commentLikes_updatePost _ _ _,
        fun other ho => Store.getPost_updatePost_ne s _ ho, ?_,
        fun h => Option.noConfusion h⟩
      intro post' hp'
      cases hp'
      exact ⟨_, Store.getPost_updatePost_comments s postId post _ hpost⟩

/-- Witness for C20 (amended): a comment on `p9`, which `storeOneComment` does
not hold. -/
theorem comment_ops_absent_target_witness :
    (createComment "p9" sampleCommentData "c7" 500 storeOneComment).1 = Outcome.ok "c7" ∧
      (createComment "p9" sampleCommentData "c7" 500 storeOneComment).2.posts =
        storeOneComment.posts :=
  have h := (comment_ops_absent_target storeOneComment "p9").1 sampleCommentData "c7" 500
    (by decide)
  ⟨h.1, h.2.2.1⟩

/-! ## comment.js: editing a comment -/

theorem Store.likes_updateComment (s : Store) (postId commentId : String)
    (u : CommentPatch) : (s.updateComment postId commentId u).likes = s.likes := by
  unfold Store.updateComment
  by_cases h : ((s.comments.lookup (postId, commentId)).getD Comment.empty).patch u =
      Comment.empty
  · simp [h]
  · simp [h]

theorem Store.commentLikes_updateComment (s : Store) (postId commentId : String)
    (u : CommentPatch) :
    (s.updateComment postId commentId u).commentLikes = s.commentLikes := by
  unfold Store.updateComment
  by_cases h : ((s.comments.lookup (postId, commentId)).getD Comment.empty).patch u =
      Comment.empty
  · simp [h]
  · simp [h]

theorem Store.notifications_updateComment (s : Store) (postId commentId : String)
    (u : CommentPatch) :
    (s.updateComment postId commentId u).notifications = s.notifications := by
  unfold Store.updateComment
  by_cases h : ((s.comments.lookup (postId, commentId)).getD Comment.empty).patch u =
      Comment.empty
  · simp [h]
  · simp [h]

/-- C21: `updateComment(postId, commentId, newContent)` returns
`{success: false, error: 'Comment not found'}` and leaves the store unchanged
when nothing is stored at `comments/{postId}/{commentId}`; when a comment is
stored there it returns success, and afterwards that comment has
`content = newContent`, `edited = true` and `editedAt` the clock reading, with
its likes, replies, createdAt and author fields as before, and every other
comment, every post, like record, comment like and notification unchanged. -/
theorem updateComment_contract (s : Store) (postId commentId newContent : String)
    (now : Int) :
    (s.getComment postId commentId = none →
      updateComment postId commentId newContent now s =
        (Outcome.fail "Comment not found", s)) ∧
    (∀ cm, s.getComment postId commentId = some cm →
      (updateComment postId commentId newContent now s).1 = Outcome.ok () ∧
      (updateComment postId commentId newContent now s).2.getComment postId commentId =
        some { cm with content := some newContent, editedAt := some now,
                       edited := some true } ∧
      (∀ p c, (p, c) ≠ (postId, commentId) →
        (updateComment postId commentId newContent now s).2.getComment p c =
          s.getComment p c) ∧
      (updateComment postId commentId newContent now s).2.posts = s.posts ∧
      (updateComment postId commentId newContent now s).2.likes = s.likes ∧
      (updateComment postId commentId newContent now s).2.commentLikes = s.commentLikes ∧
      (updateComment postId commentId newContent now s).2.notifications =
        s.notifications) := by
  constructor
  · intro h
    simp [updateComment, h]
  · intro cm h
    have hd : updateComment postId commentId newContent now s =
        (Outcome.ok (), s.updateComment postId commentId
          { content := some (some newContent), editedAt := some (some now),
            edited := some (some true) }) := by
      simp [updateComment, h]
    rw [hd]
    refine ⟨rfl, ?_, fun p c hne => Store.getComment_updateComment_ne s _ hne,
      Store.posts_updateComment _ _ _ _, Store.likes_updateComment _ _ _ _,
      Store.commentLikes_updateComment _ _ _ _, Store.notifications_updateComment _ _ _ _⟩
    rw [Store.getComment_updateComment_self, h]
    have hne : (cm.patch
        { content := some (some newContent), editedAt := some (some now),
          edited := some (some true) }) ≠ Comment.empty := by
      intro hc
      have := congrArg Comment.edited hc
      simp [Comment.patch, Comment.empty] at this
    simp only [Option.getD_some, if_neg hne]
    rfl

/-- Witness for C21: the comment `c1` of `storeOneComment` is edited. -/
theorem updateComment_contract_witness :
    (updateComment "p1" "c1" "nicer" 140 storeOneComment).1 = Outcome.ok () ∧
      (updateComment "p1" "c1" "nicer" 140 storeOneComment).2.posts = storeOneComment.posts :=
  have h := (updateComment_contract storeOneComment "p1" "c1" "nicer" 140).2
    { content := some "nice", authorId := some "a2", createdAt := some 120,
      likes := some 0, replies := some 0 } (by decide)
  ⟨h.1, h.2.2.2.1⟩

/-! ## like.js: failing store calls -/

theorem togglePostLikeWith_no_failure (fails : Nat → Bool) (h : ∀ i, fails i = false)
    (postId userId : String) (now : Int) (s : Store) :
    togglePostLikeWith fails postId userId now s = togglePostLike postId userId now s := by
  unfold togglePostLikeWith togglePostLike
  simp only [h, Bool.false_eq_true, if_false]

theorem toggleCommentLikeWith_no_failure (fails : Nat → Bool) (h : ∀ i, fails i = false)
    (postId commentId userId : String) (now : Int) (s : Store) :
    toggleCommentLikeWith fails postId commentId userId now s =
      toggleCommentLike postId commentId userId now s := by
  unfold toggleCommentLikeWith toggleCommentLike
  simp only [h, Bool.false_eq_true, if_false]

/-- The runs of `togglePostLikeWith`: it fails with the store untouched, or the
post is stored, the reads and the first write went through, and then either the
update of the post fails after the like record was written, or the run is the
run without failures. -/
theorem togglePostLikeWith_cases (fails : Nat → Bool) (postId userId : String)
    (now : Int) (s : Store) :
    ((togglePostLikeWith fails postId userId now s).1.success = false ∧
      (togglePostLikeWith fails postId userId now s).2 = s) ∨
    (∃ post, s.getPost postId = some post ∧ fails 0 = false ∧ fails 1 = false ∧
      fails 2 = false ∧
      ((fails 3 = true ∧
          (togglePostLikeWith fails postId userId now s).1.success = false ∧
          (togglePostLikeWith fails postId userId now s).2 =
            s.setLike postId userId
              (if (s.getLike postId userId).isSome then none
               else some { userId := userId, timestamp := now })) ∨
        (fails 3 = false ∧
          togglePostLikeWith fails postId userId now s =
            togglePostLike postId userId now s ∧
          (togglePostLikeWith fails postId userId now s).1.success = true))) := by
  unfold togglePostLikeWith togglePostLike
  by_cases h0 : fails 0 = true
  · left; simp [h0, ToggleResult.success]
  by_cases h1 : fails 1 = true
  · left; simp [h0, h1, ToggleResult.success]
  cases hpost : s.getPost postId with
  | none => left; simp [h0, h1, ToggleResult.success]
  | some post =>
    by_cases h2 : fails 2 = true
    · left
      by_cases hl : (s.getLike postId userId).isSome = true <;>
        simp [h0, h1, h2, hl, ToggleResult.success]
    · right
      refine ⟨post, rfl, by simpa using h0, by simpa using h1, by simpa using h2, ?_⟩
      by_cases h3 : fails 3 = true
      · left
        by_cases hl : (s.getLike postId userId).isSome = true <;>
          simp [h0, h1, h2, h3, hl, ToggleResult.success]
      · right
        by_cases hl : (s.getLike postId userId).isSome = true <;>
          simp [h0, h1, h2, h3, hl, ToggleResult.success]

/-- C22: with each store call either returning or failing, every like operation
returns an outcome, and the outcome has `success = false` whenever a store call
that the operation makes fails: for the two toggles the two reads, and the two
writes when the post (comment) is stored; for `hasUserLiked`, `getPostLikes` and
`getPostLikesCount` their single read.  With no failing call the operations are
the ones of the failure-free model. -/
theorem like_ops_never_throw (fails : Nat → Bool) (s : Store)
    (postId commentId userId : String) (now : Int) :
    ((fails 0 = true ∨ fails 1 = true ∨
        ((s.getPost postId).isSome = true ∧ (fails 2 = true ∨ fails 3 = true))) →
      (togglePostLikeWith fails postId userId now s).1.success = false) ∧
    ((fails 0 = true ∨ fails 1 = true ∨
        ((s.getComment postId commentId).isSome = true ∧
          (fails 2 = true ∨ fails 3 = true))) →
      (toggleCommentLikeWith fails postId commentId userId now s).1.success = false) ∧
    (fails 0 = true → (hasUserLikedWith fails postId userId s).1.success = false) ∧
    (fails 0 = true → (getPostLikesWith fails postId s).1.success = false) ∧
    (fails 0 = true → (getPostLikesCountWith fails postId s).1.success = false) ∧
    ((∀ i, fails i = false) →
      togglePostLikeWith fails postId userId now s = togglePostLike postId userId now s ∧
      toggleCommentLikeWith fails postId commentId userId now s =
        toggleCommentLike postId commentId userId now s ∧
      hasUserLikedWith fails postId userId s = hasUserLiked postId userId s ∧
      getPostLikesWith fails postId s = getPostLikes postId s ∧
      getPostLikesCountWith fails postId s = getPostLikesCount postId s) := by
  refine ⟨?_, ?_, ?_, ?_, ?_, ?_⟩
  · intro h
    unfold togglePostLikeWith
    by_cases h0 : fails 0 = true
    · simp [h0, ToggleResult.success]
    by_cases h1 : fails 1 = true
    · simp [h0, h1, ToggleResult.success]
    rcases h with h | h | ⟨hp, h⟩
    · exact absurd h h0
    · exact absurd h h1
    · cases hpost : s.getPost postId with
      | none => rw [hpost] at hp; cases hp
      | some post =>
        by_cases h2 : fails 2 = true
        · by_cases hl : (s.getLike postId userId).isSome = true <;>
            simp [h0, h1, h2, hl, ToggleResult.success]
        · have h3 : fails 3 = true := h.resolve_left h2
          by_cases hl : (s.getLike postId userId).isSome = true <;>
            simp [h0, h1, h2, h3, hl, ToggleResult.success]
  · intro h
    unfold toggleCommentLikeWith
    by_cases h0 : fails 0 = true
    · simp [h0, ToggleResult.success]
    by_cases h1 : fails 1 = true
    · simp [h0, h1, ToggleResult.success]
    rcases h with h | h | ⟨hp, h⟩
    · exact absurd h h0
    · exact absurd h h1
    · cases hc : s.getComment postId commentId with
      | none => rw [hc] at hp; cases hp
      | some comment =>
        by_cases h2 : fails 2 = true
        · by_cases hl : (s.getCommentLike postId commentId userId).isSome = true <;>
            simp [h0, h1, h2, hl, ToggleResult.success]
        · have h3 : fails 3 = true := h.resolve_left h2
          by_cases hl : (s.getCommentLike postId commentId userId).isSome = true <;>
            simp [h0, h1, h2, h3, hl, ToggleResult.success]
  · intro h
    simp [hasUserLikedWith, h]
  · intro h
    simp [getPostLikesWith, h]
  · intro h
    simp [getPostLikesCountWith, h]
  · intro h
    refine ⟨togglePostLikeWith_no_failure fails h _ _ _ _,
      toggleCommentLikeWith_no_failure fails h _ _ _ _ _, ?_, ?_, ?_⟩
    · simp [hasUserLikedWith, h]
    · simp [getPostLikesWith, h]
    · simp [getPostLikesCountWith, h]

/-- Witness for C22: the update of the post fails after `u1` liked `p1`. -/
theorem like_ops_never_throw_witness :
    (togglePostLikeWith (fun i => i == 3) "p1" "u1" 200 storeFresh).1.success = false :=
  (like_ops_never_throw (fun i => i == 3) storeFresh "p1" "c1" "u1" 200).1
    (Or.inr (Or.inr ⟨by decide, Or.inr (by decide)⟩))

/-- C28, as stated, fails: in `storeLiked` the deletion of the like record of
`u1` goes through and the update of the post fails; `togglePostLike` returns
`success = false`, the like record is gone and the counter is still 1. -/
theorem togglePostLike_partial_write_counterexample :
    (togglePostLikeWith (fun i => i == 3) "p1" "u1" 200 storeLiked).1 =
        ToggleResult.fail "Failed to like post" ∧
      (storeLiked.getLike "p1" "u1").isSome = true ∧
      (togglePostLikeWith (fun i => i == 3) "p1" "u1" 200 storeLiked).2.getLike "p1" "u1" =
        none ∧
      ((togglePostLikeWith (fun i => i == 3) "p1" "u1" 200 storeLiked).2.getPost
        "p1").bind Post.likes = some 1 := by
  decide

/-- C28 (amended): whenever `togglePostLike` returns `success = false`, the
posts, and so every likes counter, are as before the call, and the store is
identical to the state before the call unless the reads and the write of the
like record went through and the update of the post failed.  When the post is
not found, a read fails or the write of the like record fails, the call returns
`success = false` and the store is the state before the call.  When the post is
stored, the reads and the write of the like record go through and the update of
the post fails, the call returns `success = false`, the like record of the user
has been written (if it was absent) or deleted (if it was present), nothing
else has changed and the post record, with its likes counter, is as before. -/
theorem togglePostLike_failure_states (fails : Nat → Bool) (postId userId : String)
    (now : Int) (s : Store) :
    ((togglePostLikeWith fails postId userId now s).1.success = false →
      ((togglePostLikeWith fails postId userId now s).2 = s ∨
        (fails 0 = false ∧ fails 1 = false ∧ fails 2 = false ∧ fails 3 = true ∧
          (s.getPost postId).isSome = true ∧
          (togglePostLikeWith fails postId userId now s).2 =
            s.setLike postId userId
              (if (s.getLike postId userId).isSome then none
               else some { userId := userId, timestamp := now }))) ∧
      (fails 3 = false → (togglePostLikeWith fails postId userId now s).2 = s) ∧
      (togglePostLikeWith fails postId userId now s).2.posts = s.posts) ∧
    ((s.getPost postId = none ∨ fails 0 = true ∨ fails 1 = true ∨ fails 2 = true) →
      (togglePostLikeWith fails postId userId now s).1.success = false ∧
      (togglePostLikeWith fails postId userId now s).2 = s) ∧
    (fails 0 = false → fails 1 = false → fails 2 = false → fails 3 = true →
      ∀ post, s.getPost postId = some post →
        (togglePostLikeWith fails postId userId now s).1.success = false ∧
        (togglePostLikeWith fails postId userId now s).2 =
          s.setLike postId userId
            (if (s.getLike postId userId).isSome then none
             else some { userId := userId, timestamp := now }) ∧
        ((s.getLike postId userId).isSome = false →
          (togglePostLikeWith fails postId userId now s).2.getLike postId userId =
            some { userId := userId, timestamp := now }) ∧
        ((s.getLike postId userId).isSome = true →
          (togglePostLikeWith fails postId userId now s).2.getLike postId userId = none) ∧
        (togglePostLikeWith fails postId userId now s).2.getPost postId = some post) := by
  refine ⟨?_, ?_, ?_⟩
  · intro hfail
    rcases togglePostLikeWith_cases fails postId userId now s with
      ⟨_, hs⟩ | ⟨post, hpost, h0, h1, h2, ⟨h3, _, hs⟩ | ⟨_, _, hok⟩⟩
    · exact ⟨Or.inl hs, fun _ => hs, by rw [hs]⟩
    · refine ⟨Or.inr ⟨h0, h1, h2, h3, by rw [hpost]; rfl, hs⟩, fun h => ?_, ?_⟩
      · rw [h3] at h; cases h
      · rw [hs, Store.posts_setLike]
    · rw [hok] at hfail; cases hfail
  · intro h
    rcases togglePostLikeWith_cases fails postId userId now s with
      hsame | ⟨post, hpost, h0, h1, h2, _⟩
    · exact hsame
    · rcases h with h | h | h | h
      · rw [hpost] at h; cases h
      · rw [h0] at h; cases h
      · rw [h1] at h; cases h
      · rw [h2] at h; cases h
  · intro h0 h1 h2 h3 post hpost
    have heq : togglePostLikeWith fails postId userId now s =
        (ToggleResult.fail "Failed to like post",
          s.setLike postId userId
            (if (s.getLike postId userId).isSome then none
             else some { userId := userId, timestamp := now })) := by
      unfold togglePostLikeWith
      by_cases hl : (s.getLike postId userId).isSome = true <;>
        simp [h0, h1, h2, h3, hpost, hl]
    rw [heq]
    refine ⟨rfl, rfl, ?_, ?_, ?_⟩
    · intro hl
      rw [Store.getLike_setLike_self, hl]
      rfl
    · intro hl
      rw [Store.getLike_setLike_self, hl]
      rfl
    · rw [Store.getPost_setLike]
      exact hpost

/-- Witness for C28 (amended): in `storeFresh` the like record of `u1` is
written and the update of the post fails, so the record is stored and the
counter is still 3; in `storeLiked` the read of the post fails and the store is
as before. -/
theorem togglePostLike_failure_states_witness :
    ((togglePostLikeWith (fun i => i == 3) "p1" "u1" 200 storeFresh).2.getLike "p1" "u1" =
        some { userId := "u1", timestamp := 200 } ∧
      (togglePostLikeWith (fun i => i == 3) "p1" "u1" 200 storeFresh).2.getPost "p1" =
        some { content := some "hello", authorId := some "a1", createdAt := some 100,
               likes := some 3, comments := some 0, shares := some 0 }) ∧
    (togglePostLikeWith (fun i => i == 1) "p1" "u1" 200 storeLiked).2 = storeLiked :=
  ⟨⟨((togglePostLike_failure_states (fun i => i == 3) "p1" "u1" 200 storeFresh).2.2
        (by decide) (by decide) (by decide) (by decide)
        { content := some "hello", authorId := some "a1", createdAt := some 100,
          likes := some 3, comments := some 0, shares := some 0 } (by decide)).2.2.1 (by decide),
      ((togglePostLike_failure_states (fun i => i == 3) "p1" "u1" 200 storeFresh).2.2
        (by decide) (by decide) (by decide) (by decide)
        { content := some "hello", authorId := some "a1", createdAt := some 100,
          likes := some 3, comments := some 0, shares := some 0 } (by decide)).2.2.2.2⟩,
    ((togglePostLike_failure_states (fun i => i == 1) "p1" "u1" 200 storeLiked).1
      (by decide)).2.1 (by decide)⟩

/-! ## like.js: what a toggle leaves alone -/

theorem Store.commentLikes_setLike (s : Store) (postId userId : String)
    (v : Option LikeRecord) : (s.setLike postId userId v).commentLikes = s.commentLikes := by
  cases v <;> rfl

theorem Store.notifications_setLike (s : Store) (postId userId : String)
    (v : Option LikeRecord) :
    (s.setLike postId userId v).notifications = s.notifications := by
  cases v <;> rfl

theorem Store.notifications_updatePost (s : Store) (postId : String) (u : PostPatch) :
    (s.updatePost postId u).notifications = s.notifications := by
  unfold Store.updatePost
  by_cases h : ((s.posts.lookup postId).getD Post.empty).patch u = Post.empty
  · simp [h]
  · simp [h]

/-- C29: `togglePostLike(postId, userId)` changes at most the like record at
`likes/{postId}/{userId}` and the `likes` field of `posts/{postId}`: a stored
post keeps every other field, an absent post stays absent, and every other
post, every like record of another user or post, every comment, comment like
and notification is unchanged. -/
theorem togglePostLike_frame (s : Store) (postId userId : String) (now : Int) :
    (∀ post, s.getPost postId = some post →
      ∃ l, (togglePostLike postId userId now s).2.getPost postId =
        some { post with likes := l }) ∧
    (s.getPost postId = none → (togglePostLike postId userId now s).2 = s) ∧
    (∀ other, other ≠ postId →
      (togglePostLike postId userId now s).2.getPost other = s.getPost other) ∧
    (∀ p u, (p, u) ≠ (postId, userId) →
      (togglePostLike postId userId now s).2.getLike p u = s.getLike p u) ∧
    (togglePostLike postId userId now s).2.comments = s.comments ∧
    (togglePostLike postId userId now s).2.commentLikes = s.commentLikes ∧
    (togglePostLike postId userId now s).2.notifications = s.notifications := by
  rcases togglePostLike_shape s postId userId now with
    ⟨hnone, heq⟩ | ⟨post, liked, n, v, hpost, _, heq⟩
  · rw [heq]
    refine ⟨?_, ?_, ?_, ?_, rfl, rfl, rfl⟩
    · intro post hp
      rw [hnone] at hp
      cases hp
    · intro _
      rfl
    · intro _ _
      rfl
    · intro _ _ _
      rfl
  · rw [heq]
    refine ⟨?_, ?_, ?_, ?_, ?_, ?_, ?_⟩
    · intro post' hp'
      rw [hpost] at hp'
      cases hp'
      exact ⟨some n, Store.getPost_updatePost_likes _ postId post n
        (by rw [Store.getPost_setLike]; exact hpost)⟩
    · intro h
      rw [hpost] at h
      cases h
    · intro other ho
      rw [Store.getPost_updatePost_ne _ _ ho, Store.getPost_setLike]
    · intro p u hne
      rw [Store.getLike_updatePost, Store.getLike_setLike_ne s v hne]
    · rw [Store.comments_updatePost, Store.comments_setLike]
    · rw [Store.commentLikes_updatePost, Store.commentLikes_setLike]
    · rw [Store.notifications_updatePost, Store.notifications_setLike]

/-- Witness for C29: `u2` likes `p1` of `storeLiked`: the post keeps every field
but `likes` and the like record of `u1` is as before; a toggle on `p9`, which
`storeFresh` does not hold, changes nothing. -/
theorem togglePostLike_frame_witness :
    (∃ l, (togglePostLike "p1" "u2" 200 storeLiked).2.getPost "p1" =
        some { content := some "hello", authorId := some "a1", createdAt := some 100,
               likes := l, comments := some 0, shares := some 0 }) ∧
    (togglePostLike "p1" "u2" 200 storeLiked).2.getLike "p1" "u1" =
      storeLiked.getLike "p1" "u1" ∧
    (togglePostLike "p9" "u1" 200 storeFresh).2 = storeFresh :=
  ⟨(togglePostLike_frame storeLiked "p1" "u2" 200).1
      { content := some "hello", authorId := some "a1", createdAt := some 100,
        likes := some 1, comments := some 0, shares := some 0 } (by decide),
    (togglePostLike_frame storeLiked "p1" "u2" 200).2.2.2.1 "p1" "u1" (by decide),
    (togglePostLike_frame storeFresh "p9" "u1" 200).2.1 (by decide)⟩

/-! ## create-post.js: validation -/

theorem string_mk_eq_empty (l : List Char) : String.mk l = "" ↔ l = [] := by
  constructor
  · intro h
    exact congrArg String.data h
  · intro h
    rw [h]

theorem Store.getPost_setPost_self (s : Store) (postId : String) (post : Post) :
    (s.setPost postId post).getPost postId = some post := by
  simp [Store.setPost, Store.getPost]

/-- C23: when the entered text is empty after trimming, `handleSubmitPost`
leaves the store untouched and shows `Please write something!`; the store is
changed only when the trimmed text is non-empty and a user is signed in, and
then the post stored under the new key holds the trimmed text and
`likes = 0`, `comments = 0`, `shares = 0`. -/
theorem handleSubmitPost_validation (text : String) (currentUser : Option AuthUser)
    (currentLinkMetadata : Option Link) (newKey : String) (now : Int) (s : Store) :
    (trimChars text.data = [] →
      handleSubmitPost text currentUser currentLinkMetadata newKey now s =
        (SubmitOutcome.error "Please write something!", s)) ∧
    ((handleSubmitPost text currentUser currentLinkMetadata newKey now s).2 ≠ s →
      trimChars text.data ≠ [] ∧ currentUser.isSome = true) ∧
    (∀ user, trimChars text.data ≠ [] → currentUser = some user →
      (handleSubmitPost text currentUser currentLinkMetadata newKey now s).1 =
        SubmitOutcome.success "Post created successfully!" ∧
      ∃ post,
        (handleSubmitPost text currentUser currentLinkMetadata newKey now s).2.getPost
          newKey = some post ∧
        post.content = some (String.mk (trimChars text.data)) ∧
        post.authorId = some user.uid ∧
        post.likes = some 0 ∧ post.comments = some 0 ∧ post.shares = some 0) := by
  refine ⟨?_, ?_, ?_⟩
  · intro h
    simp [handleSubmitPost, h]
  · intro hne
    by_cases ht : trimChars text.data = []
    · exact absurd (by simp [handleSubmitPost, ht]) hne
    · cases hu : currentUser with
      | none =>
        have hc : String.mk (trimChars text.data) ≠ "" :=
          fun h => ht ((string_mk_eq_empty _).mp h)
        exact absurd (by simp [handleSubmitPost, hc, hu]) hne
      | some user => exact ⟨ht, rfl⟩
  · intro user ht hu
    have hc : String.mk (trimChars text.data) ≠ "" :=
      fun h => ht ((string_mk_eq_empty _).mp h)
    have hd : handleSubmitPost text currentUser currentLinkMetadata newKey now s =
        (SubmitOutcome.success "Post created successfully!",
          s.setPost newKey
            { content := some (String.mk (trimChars text.data))
              authorId := some user.uid
              authorName := some (authorNameOf user)
              authorEmail := some user.email
              createdAt := some now
              likes := some 0
              comments := some 0
              shares := some 0
              link := currentLinkMetadata }) := by
      simp only [handleSubmitPost, if_neg hc, hu]
    rw [hd]
    exact ⟨rfl, _, Store.getPost_setPost_self _ _ _, rfl, rfl, rfl, rfl, rfl⟩

/-- Witness for C23: three blanks are submitted. -/
theorem handleSubmitPost_validation_witness :
    handleSubmitPost "   " (some sampleUser) none "k1" 5 storeFresh =
      (SubmitOutcome.error "Please write something!", storeFresh) :=
  (handleSubmitPost_validation "   " (some sampleUser) none "k1" 5 storeFresh).1 (by decide)

/-! ## notification.js: read state -/

theorem Store.getNotification_setNotificationRead_self (s : Store) (uid key : String) :
    (s.setNotificationRead uid key).getNotification uid key =
      some { ((s.getNotification uid key).getD {}) with read := some true } := by
  simp [Store.setNotificationRead, Store.getNotification]

theorem Store.getNotification_setNotificationRead_ne (s : Store) {uid key v j : String}
    (h : (v, j) ≠ (uid, key)) :
    (s.setNotificationRead uid key).getNotification v j = s.getNotification v j := by
  simp [Store.setNotificationRead, Store.getNotification, AList.lookup_insert_ne h]

theorem getNotification_foldl_read (uid : String) (keys : List String) :
    ∀ (s : Store) (v j : String),
      (keys.foldl (fun st key => st.setNotificationRead uid key) s).getNotification v j =
        if v = uid ∧ j ∈ keys then
          some { ((s.getNotification v j).getD {}) with read := some true }
        else s.getNotification v j := by
  induction keys with
  | nil => intro s v j; simp
  | cons k ks ih =>
    intro s v j
    rw [List.foldl_cons, ih]
    by_cases hvj : (v, j) = (uid, k)
    · rw [Prod.mk.injEq] at hvj
      obtain ⟨hv, hj⟩ := hvj
      rw [hv, hj, Store.getNotification_setNotificationRead_self]
      by_cases hk : k ∈ ks
      · simp [hk]
      · simp [hk]
    · rw [Store.getNotification_setNotificationRead_ne s hvj]
      by_cases hv : v = uid
      · have hjk : j ≠ k := fun h => hvj (by rw [hv, h])
        simp [hv, hjk]
      · simp [hv]

theorem foldl_read_frame (uid : String) (keys : List String) :
    ∀ (s : Store),
      (keys.foldl (fun st key => st.setNotificationRead uid key) s).posts = s.posts ∧
      (keys.foldl (fun st key => st.setNotificationRead uid key) s).likes = s.likes ∧
      (keys.foldl (fun st key => st.setNotificationRead uid key) s).comments = s.comments ∧
      (keys.foldl (fun st key => st.setNotificationRead uid key) s).commentLikes =
        s.commentLikes := by
  induction keys with
  | nil => intro s; exact ⟨rfl, rfl, rfl, rfl⟩
  | cons k ks ih =>
    intro s
    rw [List.foldl_cons]
    exact ih (s.setNotificationRead uid k)

theorem markAllAsRead_eq (uid : String) (s : Store) :
    (markAllAsRead uid s).2 =
      (((s.notifications.entries.filter (fun e => e.1.1 == uid)).filter
        (fun e => e.2.isUnread)).map (fun e => e.1.2)).foldl
        (fun st key => st.setNotificationRead uid key) s := by
  unfold markAllAsRead
  by_cases hempty : (s.notifications.entries.filter (fun e => e.1.1 == uid)).isEmpty = true
  · have hnil := List.isEmpty_iff.mp hempty
    simp [hnil]
  · simp only [hempty, Bool.false_eq_true, if_false]
    by_cases hlen : (((s.notifications.entries.filter (fun e => e.1.1 == uid)).filter
        (fun e => e.2.isUnread)).map (fun e => e.1.2)).length > 0
    · simp only [hlen, if_true]
    · simp only [hlen, if_false]
      have hnil : ((s.notifications.entries.filter (fun e => e.1.1 == uid)).filter
          (fun e => e.2.isUnread)).map (fun e => e.1.2) = [] :=
        List.length_eq_zero.mp (by omega)
      rw [hnil]
      rfl

theorem mem_unread_keys (uid j : String) (s : Store) :
    j ∈ ((s.notifications.entries.filter (fun e => e.1.1 == uid)).filter
        (fun e => e.2.isUnread)).map (fun e => e.1.2) ↔
      ∃ n, s.getNotification uid j = some n ∧ n.isUnread = true := by
  simp only [List.mem_map, List.mem_filter, beq_iff_eq]
  constructor
  · rintro ⟨⟨⟨v, k⟩, n⟩, ⟨⟨he, hv⟩, hu⟩, hk⟩
    simp only at hv hk hu
    rw [hv, hk] at he
    exact ⟨n, AList.mem_lookup_iff.mpr he, hu⟩
  · rintro ⟨n, hn, hu⟩
    exact ⟨⟨(uid, j), n⟩, ⟨⟨AList.mem_lookup_iff.mp hn, rfl⟩, hu⟩, rfl⟩

theorem Store.getNotification_setNotification_self (s : Store) (userId key : String)
    (n : Notification) :
    (s.setNotification userId key n).getNotification userId key = some n := by
  simp [Store.setNotification, Store.getNotification]

theorem markAllAsRead_getNotification (uid : String) (s : Store) :
    (∀ j n, s.getNotification uid j = some n →
      (markAllAsRead uid s).2.getNotification uid j = some { n with read := some true }) ∧
    (∀ j, s.getNotification uid j = none →
      (markAllAsRead uid s).2.getNotification uid j = none) ∧
    (∀ v j, v ≠ uid →
      (markAllAsRead uid s).2.getNotification v j = s.getNotification v j) := by
  rw [markAllAsRead_eq]
  refine ⟨?_, ?_, ?_⟩
  · intro j n hn
    rw [getNotification_foldl_read, hn]
    by_cases hj : j ∈ ((s.notifications.entries.filter (fun e => e.1.1 == uid)).filter
        (fun e => e.2.isUnread)).map (fun e => e.1.2)
    · rw [if_pos ⟨rfl, hj⟩]
      rfl
    · have hread : n.isUnread = false := by
        cases hu : n.isUnread with
        | false => rfl
        | true => exact absurd ((mem_unread_keys uid j s).mpr ⟨n, hn, hu⟩) hj
      have hr : n.read = some true := by
        cases hrd : n.read with
        | none => simp [Notification.isUnread, hrd] at hread
        | some b =>
          cases b with
          | false => simp [Notification.isUnread, hrd] at hread
          | true => rfl
      rw [if_neg (fun h => hj h.2)]
      cases n
      simp only at hr
      rw [hr]
  · intro j hn
    rw [getNotification_foldl_read, hn]
    have hj : j ∉ ((s.notifications.entries.filter (fun e => e.1.1 == uid)).filter
        (fun e => e.2.isUnread)).map (fun e => e.1.2) := by
      intro hmem
      obtain ⟨n, hn', _⟩ := (mem_unread_keys uid j s).mp hmem
      rw [hn] at hn'
      cases hn'
    rw [if_neg (fun h => hj h.2)]
  · intro v j hv
    rw [getNotification_foldl_read, if_neg (fun h => hv h.1)]

theorem getUnreadCount_markAllAsRead (uid : String) (s : Store) :
    (getUnreadCount uid (markAllAsRead uid s).2).1 = { success := true, count := 0 } := by
  obtain ⟨h1, h2, _⟩ := markAllAsRead_getNotification uid s
  unfold getUnreadCount
  by_cases hempty : ((markAllAsRead uid s).2.notifications.entries.filter
      (fun e => e.1.1 == uid)).isEmpty = true
  · simp only [hempty, if_true]
  · simp only [hempty, Bool.false_eq_true, if_false]
    have hzero : ((markAllAsRead uid s).2.notifications.entries.filter
        (fun e => e.1.1 == uid)).countP (fun e => e.2.isUnread) = 0 := by
      rw [List.countP_eq_zero]
      intro e he
      rw [List.mem_filter, beq_iff_eq] at he
      obtain ⟨hmem, hu⟩ := he
      have hlook : (markAllAsRead uid s).2.getNotification uid e.1.2 = some e.2 := by
        have : (markAllAsRead uid s).2.notifications.lookup e.1 = some e.2 :=
          AList.mem_lookup_iff.mpr hmem
        rw [← hu] at this ⊢
        exact this
      cases hs : s.getNotification uid e.1.2 with
      | none => rw [h2 _ hs] at hlook; cases hlook
      | some n =>
        rw [h1 _ n hs] at hlook
        have he2 := Option.some.inj hlook
        rw [← he2]
        simp [Notification.isUnread]
    rw [hzero]

/-- C24: `createNotification` returns success with the new key and stores under
it a notification with the given fields and `read = false`, changing no other
notification; after the `mark all as read` handler has run for user `u`,
`getUnreadCount(u)` returns count 0, every notification under
`notifications/{u}` is what it was before except that its `read` field is
true, no notification has been added, and the notifications of other users,
the posts, likes and comments are unchanged. -/
theorem notifications_read_state (s : Store) (uid : String) (data : NotificationData)
    (newKey : String) (now : Int) :
    ((createNotification data newKey now s).1 = Outcome.ok newKey ∧
      (∃ n, (createNotification data newKey now s).2.getNotification data.recipientId
          newKey = some n ∧
        n.read = some false ∧ n.type = some data.type ∧ n.senderId = some data.senderId ∧
        n.senderName = some data.senderName ∧ n.message = some data.message ∧
        n.createdAt = some now) ∧
      ∀ v j, (v, j) ≠ (data.recipientId, newKey) →
        (createNotification data newKey now s).2.getNotification v j =
          s.getNotification v j) ∧
    ((getUnreadCount uid (markAllAsRead uid s).2).1 = { success := true, count := 0 } ∧
      (∀ j n, s.getNotification uid j = some n →
        (markAllAsRead uid s).2.getNotification uid j =
          some { n with read := some true }) ∧
      (∀ j, s.getNotification uid j = none →
        (markAllAsRead uid s).2.getNotification uid j = none) ∧
      (∀ v j, v ≠ uid →
        (markAllAsRead uid s).2.getNotification v j = s.getNotification v j) ∧
      (markAllAsRead uid s).2.posts = s.posts ∧
      (markAllAsRead uid s).2.likes = s.likes ∧
      (markAllAsRead uid s).2.comments = s.comments ∧
      (markAllAsRead uid s).2.commentLikes = s.commentLikes) := by
  obtain ⟨h1, h2, h3⟩ := markAllAsRead_getNotification uid s
  have hframe := foldl_read_frame uid
    (((s.notifications.entries.filter (fun e => e.1.1 == uid)).filter
      (fun e => e.2.isUnread)).map (fun e => e.1.2)) s
  rw [← markAllAsRead_eq] at hframe
  refine ⟨⟨rfl, ?_, ?_⟩, ⟨getUnreadCount_markAllAsRead uid s, h1, h2, h3, hframe⟩⟩
  · refine ⟨_, Store.getNotification_setNotification_self s data.recipientId newKey _,
      rfl, rfl, rfl, rfl, rfl, rfl⟩
  · intro v j hne
    simp [createNotification, Store.setNotification, Store.getNotification,
      AList.lookup_insert_ne hne]

/-- Witness for C24: `u1` marks all as read in `storeNotified`. -/
theorem notifications_read_state_witness :
    (markAllAsRead "u1" storeNotified).2.getNotification "u1" "n2" =
      some { type := some "comment", senderId := some "u3", senderName := some "Cy",
             message := some "commented", createdAt := some 20, read := some true } :=
  (notifications_read_state storeNotified "u1"
    { recipientId := "u1", type := "like", senderId := "u2", senderName := "Ben",
      postId := none, commentId := none, message := "liked your post" } "n9" 40).2.2.1
    "n2"
    { type := some "comment", senderId := some "u3", senderName := some "Cy",
      message := some "commented", createdAt := some 20, read := some false }
    (by decide)


/-! ## utils.js: formatNumber, zero quantities, blank initials -/

/-- C25: `formatNumber(1000)` returns `1.0K` and `formatNumber(1000000)` returns
`1.0M`, not the `1K` and `1M` of the function's doc comment: `toFixed(1)` always
prints one digit after the point. -/
theorem formatNumber_thousand_million (above : Nat → Bool) :
    formatNumber above 1000 = "1.0K" ∧ formatNumber above 1000000 = "1.0M" ∧
    formatNumber above 1000 ≠ "1K" ∧ formatNumber above 1000000 ≠ "1M" := by
  have h1 : formatNumber above 1000 = "1.0K" := by
    rw [formatNumber, if_neg (by decide), if_pos (by decide)]
    cases above 1000 <;> decide
  have h2 : formatNumber above 1000000 = "1.0M" := by
    rw [formatNumber, if_neg (by decide), if_neg (by decide)]
    cases above 1000000 <;> decide
  refine ⟨h1, h2, ?_, ?_⟩
  · rw [h1]
    decide
  · rw [h2]
    decide

/-- C26: `formatTimeAgo` reports a zero quantity: for an elapsed time of 28 or
29 whole days it returns `0 month ago`, and for 360 to 364 whole days it
returns `0 year ago`. -/
theorem formatTimeAgo_zero_quantity (now timestamp : Int) :
    (28 ≤ (now - timestamp) / 1000 / 86400 → (now - timestamp) / 1000 / 86400 < 30 →
      formatTimeAgo now timestamp = "0 month ago") ∧
    (360 ≤ (now - timestamp) / 1000 / 86400 → (now - timestamp) / 1000 / 86400 < 365 →
      formatTimeAgo now timestamp = "0 year ago") := by
  obtain ⟨_, _, _, _, _, hm, hy⟩ := formatTimeAgo_cases now timestamp
  constructor
  · intro h1 h2
    rw [hm (by omega) (by omega)]
    have h0 : (now - timestamp) / 1000 / 86400 / 30 = 0 := by omega
    rw [h0]
    decide
  · intro h1 h2
    rw [hy (by omega) (by omega)]
    have h0 : (now - timestamp) / 1000 / 86400 / 365 = 0 := by omega
    rw [h0]
    decide

/-- Witness for C26: 28 days and 360 days before `now`. -/
theorem formatTimeAgo_zero_quantity_witness :
    formatTimeAgo 2419200000 0 = "0 month ago" ∧
    formatTimeAgo 31104000000 0 = "0 year ago" :=
  ⟨(formatTimeAgo_zero_quantity 2419200000 0).1 (by decide) (by decide),
    (formatTimeAgo_zero_quantity 31104000000 0).2 (by decide) (by decide)⟩

/-- C27: for a name made of space characters only, `getInitials` returns the
empty string: the `U` fallback is taken for an absent or empty name only, and
the trimmed name splits into one empty word. -/
theorem getInitials_blank :
    getInitials (some " ") = "" ∧ getInitials (some "   ") = "" ∧
    (getInitials (some "   ")).length = 0 := by
  decide

/-! ## feed.js: the posts listener -/

/-- C30: in the posts listener of `feed.js`, when the ad lookup reports failure
or returns no ad, the sequence passed to `displayPosts` is the post list
received from `listenToPosts` (same items, same order, no ad-tagged item) and
`insertAdsIntoFeed` is not called; `insertAdsIntoFeed` is called only when the
posts arrived and the lookup succeeded with at least one ad, and then once, on
the received posts and ads with interval 5, its result being what is
displayed. -/
theorem postsListener_ads {α β : Type}
    (insertAds : List α → List β → Nat → List (FeedItem α β))
    (result : PostsResult α) (adsResult : AdsResult β) :
    (result.success = true → (adsResult.success = false ∨ adsResult.ads = []) →
      postsListener insertAds result adsResult =
        (FeedView.displayPosts (result.posts.map FeedItem.post), []) ∧
      organicItems (result.posts.map (FeedItem.post : α → FeedItem α β)) = result.posts ∧
      ∀ item ∈ result.posts.map (FeedItem.post : α → FeedItem α β), item.isAd = false) ∧
    (∀ call ∈ (postsListener insertAds result adsResult).2,
      result.success = true ∧ adsResult.success = true ∧ adsResult.ads ≠ [] ∧
      call = { posts := result.posts, ads := adsResult.ads, interval := 5 }) ∧
    (result.success = true → adsResult.success = true → adsResult.ads ≠ [] →
      postsListener insertAds result adsResult =
        (FeedView.displayPosts (insertAds result.posts adsResult.ads 5),
          [{ posts := result.posts, ads := adsResult.ads, interval := 5 }])) := by
  have hlen : adsResult.ads.length > 0 ↔ adsResult.ads ≠ [] := List.length_pos
  refine ⟨?_, ?_, ?_⟩
  · intro hs hads
    refine ⟨?_, ?_, ?_⟩
    · have hc : (adsResult.success && decide (adsResult.ads.length > 0)) = false := by
        rcases hads with h | h
        · rw [h]
          rfl
        · rw [h]
          simp
      simp only [postsListener, hs, hc, if_true, Bool.false_eq_true, if_false]
    · induction result.posts with
      | nil => rfl
      | cons p rest ih => simp only [List.map_cons, organicItems, ih]
    · intro item hitem
      rw [List.mem_map] at hitem
      obtain ⟨p, _, hp⟩ := hitem
      rw [← hp]
      rfl
  · intro call hcall
    unfold postsListener at hcall
    by_cases hs : result.success = true
    · by_cases hc : (adsResult.success && decide (adsResult.ads.length > 0)) = true
      · simp only [hs, hc, if_true, List.mem_singleton] at hcall
        rw [Bool.and_eq_true, decide_eq_true_eq] at hc
        exact ⟨hs, hc.1, hlen.mp hc.2, hcall⟩
      · simp only [hs, hc, if_true, if_false] at hcall
        cases hcall
    · simp only [hs, if_false] at hcall
      cases hcall
  · intro hs ha hne
    have hc : (adsResult.success && decide (adsResult.ads.length > 0)) = true := by
      rw [Bool.and_eq_true, decide_eq_true_eq]
      exact ⟨ha, hlen.mpr hne⟩
    simp only [postsListener, hs, hc, if_true]

/-- Witness for C30: three posts arrive and the ad lookup fails; twelve posts
arrive with one ad. -/
theorem postsListener_ads_witness :
    postsListener insertAdsIntoFeed
        ({ success := true, posts := [1, 2, 3] } : PostsResult Nat)
        ({ success := false, ads := [] } : AdsResult String) =
      (FeedView.displayPosts [FeedItem.post 1, FeedItem.post 2, FeedItem.post 3], []) ∧
    postsListener insertAdsIntoFeed
        ({ success := true, posts := [1, 2, 3, 4, 5, 6] } : PostsResult Nat)
        ({ success := true, ads := ["a"] } : AdsResult String) =
      (FeedView.displayPosts (insertAdsIntoFeed [1, 2, 3, 4, 5, 6] ["a"] 5),
        [{ posts := [1, 2, 3, 4, 5, 6], ads := ["a"], interval := 5 }]) :=
  ⟨((postsListener_ads insertAdsIntoFeed
      ({ success := true, posts := [1, 2, 3] } : PostsResult Nat)
      ({ success := false, ads := [] } : AdsResult String)).1 rfl (Or.inl rfl)).1,
    (postsListener_ads insertAdsIntoFeed
      ({ success := true, posts := [1, 2, 3, 4, 5, 6] } : PostsResult Nat)
      ({ success := true, ads := ["a"] } : AdsResult String)).2.2 rfl rfl (by decide)⟩

end Fzone
